import Mathlib

/-
Verification of the risk-aggregation layer of the ganabosques_search_api
repository (a FastAPI + MongoEngine REST service).

The development shallowly embeds the relevant Python source files:

  * src/tools/utils.py            (build_search_query, re.escape)
  * src/tools/pagination.py       (build_paginated_response)
  * src/routes/base_route.py      (get_paginated of generate_read_only_router)
  * src/routes/deforestation.py   (serialize_deforestation)
  * src/routes/adm3risk_by_analysis_and_adm3.py (get_adm3risk_filtered)
  * src/routes/adm3risk_get_all.py (validators, _get_periods_and_analyses,
    the /risk/by-ids-and-type endpoint with its adm3/farm/enterprise branches)
  * src/routes/enterprise_risk.py (_validate_oids)

Modelling conventions:

  * The MongoDB database is a `DB` structure of lists of documents; a Mongo
    query is a `List.filter`, and the list order of each collection is the
    store's (unspecified) natural return order.
  * A Python `dict` is an insertion-ordered association list
    `List (κ × α)` with `alookup / ainsert / asetdefault / aupdate`
    mirroring `d[k]`, `d[k] = v`, `d.setdefault`, and in-place update.
  * A BSON ObjectId is its canonical (lowercase hex) string.  `str(ObjectId(s))`
    lowercases a valid 24-hex-digit string, which `as_object_id` mirrors.
    Reference fields stored in documents are modelled already id-normalised
    (the DBRef / embedded-`$id` branches of `_as_object_id` only extract ids).
  * `datetime` values are naive `PyDateTime` records; `isoformat` produces
    the `YYYY-MM-DDTHH:MM:SS` form Python prints when microsecond = 0.
  * Numeric document fields (`farm_amount`, `def_ha`, areas) are modelled as
    present (ℤ / ℚ); the defensive `is not None` / `or 0.0` guards of the
    source collapse accordingly and are noted where they occur.  Python
    floats are modelled as ℚ; no claim depends on float rounding.
-/

set_option maxHeartbeats 1000000
set_option maxRecDepth 4000

abbrev Oid := String

/-- An HTTPException raised by a route handler: status code and detail. -/
structure HttpError where
  status : Nat
  detail : String
  deriving DecidableEq, Repr

/-- A naive Python `datetime` (microsecond 0, no tzinfo). -/
structure PyDateTime where
  year : Nat
  month : Nat
  day : Nat
  hour : Nat
  minute : Nat
  second : Nat
  deriving DecidableEq, Repr

def pad2 (n : Nat) : String :=
  if n < 10 then "0" ++ toString n else toString n

def pad4 (n : Nat) : String :=
  if n < 10 then "000" ++ toString n
  else if n < 100 then "00" ++ toString n
  else if n < 1000 then "0" ++ toString n
  else toString n

/-- `datetime.isoformat()` for a naive datetime with microsecond 0. -/
def PyDateTime.isoformat (d : PyDateTime) : String :=
  pad4 d.year ++ "-" ++ pad2 d.month ++ "-" ++ pad2 d.day ++ "T" ++
    pad2 d.hour ++ ":" ++ pad2 d.minute ++ ":" ++ pad2 d.second

/-- `dt.isoformat() if dt else None` (helper `_iso` of the route files). -/
def isoOpt (o : Option PyDateTime) : Option String :=
  o.map PyDateTime.isoformat

/- ----------------------------------------------------------------
   Python string primitives, implemented over character lists (these
   mirror CPython's semantics and are fully kernel-computable).
   ---------------------------------------------------------------- -/

/-- The whitespace set `str.strip()` removes (ASCII part). -/
def pyIsSpace (c : Char) : Bool :=
  c = ' ' || c = '\t' || c = '\n' || c = '\r' || c = '\x0b' || c = '\x0c'

def pyStripChars (l : List Char) : List Char :=
  ((l.dropWhile pyIsSpace).reverse.dropWhile pyIsSpace).reverse

/-- Python `s.strip()`. -/
def pyStrip (s : String) : String := String.mk (pyStripChars s.data)

def listStartsWith : List Char → List Char → Bool
  | _, [] => true
  | [], _ :: _ => false
  | c :: cs, p :: ps => c = p && listStartsWith cs ps

/-- Worker for `str.split(sep)`: `fuel` bounds the number of steps (one
    character or one separator occurrence is consumed per step). -/
def pySplitAux (sep : List Char) : Nat → List Char → List Char → List (List Char)
  | 0, cur, _ => [cur.reverse]
  | _ + 1, cur, [] => [cur.reverse]
  | fuel + 1, cur, c :: rest =>
    if listStartsWith (c :: rest) sep then
      cur.reverse :: pySplitAux sep fuel [] ((c :: rest).drop sep.length)
    else
      pySplitAux sep fuel (c :: cur) rest

/-- Python `s.split(sep)` for a non-empty separator. -/
def pySplit (s sep : String) : List String :=
  (pySplitAux sep.data (s.data.length + 1) [] s.data).map String.mk

/-- Python `s.lower()` (ASCII case folding, as ObjectId hex strings need). -/
def pyLower (s : String) : String := String.mk (s.data.map Char.toLower)

/-- Python `sep.join(parts)`. -/
def pyJoin (sep : String) (parts : List String) : String :=
  match parts with
  | [] => ""
  | p :: rest => rest.foldl (fun acc q => acc ++ sep ++ q) p

/-- Python `s.replace(pat, rep)` for a non-empty pattern
    (`rep.join(s.split(pat))`). -/
def pyReplace (s pat rep : String) : String := pyJoin rep (pySplit s pat)

/- ----------------------------------------------------------------
   Insertion-ordered association lists: the model of Python dicts.
   ---------------------------------------------------------------- -/

def alookup [DecidableEq κ] : List (κ × α) → κ → Option α
  | [], _ => none
  | p :: rest, k => if p.1 = k then some p.2 else alookup rest k

/-- `d[k] = v`: replace in place if the key exists, else append. -/
def ainsert [DecidableEq κ] : List (κ × α) → κ → α → List (κ × α)
  | [], k, v => [(k, v)]
  | p :: rest, k, v => if p.1 = k then (k, v) :: rest else p :: ainsert rest k v

/-- `d.setdefault(k, v)`: append `(k, v)` only when `k` is absent. -/
def asetdefault [DecidableEq κ] (m : List (κ × α)) (k : κ) (v : α) : List (κ × α) :=
  if (alookup m k).isSome then m else m ++ [(k, v)]

/-- In-place mutation `d[k] = f d[k]` of an existing key (no-op when absent;
    every use in the embedded code has the key present). -/
def aupdate [DecidableEq κ] : List (κ × α) → κ → (α → α) → List (κ × α)
  | [], _, _ => []
  | p :: rest, k, f => if p.1 = k then (p.1, f p.2) :: rest else p :: aupdate rest k f

def akeys (m : List (κ × α)) : List κ := m.map (·.1)

theorem alookup_ainsert_self [DecidableEq κ] (m : List (κ × α)) (k : κ) (v : α) :
    alookup (ainsert m k v) k = some v := by
  induction m with
  | nil => simp [ainsert, alookup]
  | cons p rest ih =>
    by_cases h : p.1 = k
    · simp [ainsert, h, alookup]
    · simp [ainsert, h, alookup, ih]

theorem alookup_ainsert_ne [DecidableEq κ] (m : List (κ × α)) (k k' : κ) (v : α)
    (h : k' ≠ k) : alookup (ainsert m k v) k' = alookup m k' := by
  have hk : ¬ (k = k') := fun hh => h hh.symm
  induction m with
  | nil => simp [ainsert, alookup, hk]
  | cons p rest ih =>
    by_cases hp : p.1 = k
    · subst hp
      simp [ainsert, alookup, hk]
    · simp [ainsert, hp, alookup, ih]

theorem alookup_append [DecidableEq κ] (m m2 : List (κ × α)) (k : κ) :
    alookup (m ++ m2) k =
      match alookup m k with
      | some v => some v
      | none => alookup m2 k := by
  induction m with
  | nil => simp [alookup]
  | cons p rest ih =>
    by_cases hp : p.1 = k
    · simp [alookup, hp]
    · simp [alookup, hp, ih]

theorem alookup_asetdefault_self [DecidableEq κ] (m : List (κ × α)) (k : κ) (v : α) :
    alookup (asetdefault m k v) k = some ((alookup m k).getD v) := by
  unfold asetdefault
  by_cases h : (alookup m k).isSome
  · obtain ⟨w, hw⟩ := Option.isSome_iff_exists.mp h
    simp [h, hw]
  · have hn : alookup m k = none := Option.not_isSome_iff_eq_none.mp h
    simp [h, hn, alookup_append, alookup]

theorem alookup_asetdefault_ne [DecidableEq κ] (m : List (κ × α)) (k k' : κ) (v : α)
    (h : k' ≠ k) : alookup (asetdefault m k v) k' = alookup m k' := by
  have hk : ¬ (k = k') := fun hh => h hh.symm
  unfold asetdefault
  by_cases hs : (alookup m k).isSome
  · simp [hs]
  · simp [hs, alookup_append, alookup, hk]
    cases alookup m k' <;> simp

theorem alookup_aupdate_self [DecidableEq κ] (m : List (κ × α)) (k : κ) (f : α → α) :
    alookup (aupdate m k f) k = (alookup m k).map f := by
  induction m with
  | nil => simp [aupdate, alookup]
  | cons p rest ih =>
    by_cases hp : p.1 = k
    · simp [aupdate, hp, alookup]
    · simp [aupdate, hp, alookup, ih]

theorem alookup_aupdate_ne [DecidableEq κ] (m : List (κ × α)) (k k' : κ) (f : α → α)
    (h : k' ≠ k) : alookup (aupdate m k f) k' = alookup m k' := by
  have hk : ¬ (k = k') := fun hh => h hh.symm
  induction m with
  | nil => simp [aupdate, alookup]
  | cons p rest ih =>
    by_cases hp : p.1 = k
    · subst hp
      simp [aupdate, alookup, hk]
    · simp [aupdate, hp, alookup, ih]

theorem alookup_eq_none_iff [DecidableEq κ] (m : List (κ × α)) (k : κ) :
    alookup m k = none ↔ k ∉ akeys m := by
  induction m with
  | nil => simp [alookup, akeys]
  | cons p rest ih =>
    by_cases hp : p.1 = k
    · subst hp
      simp [alookup, akeys]
    · have hk : ¬ (k = p.1) := fun hh => hp hh.symm
      simp [alookup, hp, akeys, hk, ih]

theorem akeys_ainsert_of_mem [DecidableEq κ] (m : List (κ × α)) (k : κ) (v : α)
    (h : (alookup m k).isSome) : akeys (ainsert m k v) = akeys m := by
  induction m with
  | nil => simp [alookup] at h
  | cons p rest ih =>
    by_cases hp : p.1 = k
    · simp [ainsert, hp, akeys, hp]
    · simp [alookup, hp] at h
      simp [ainsert, hp, akeys] at ih ⊢
      exact ih h

theorem akeys_ainsert_of_not_mem [DecidableEq κ] (m : List (κ × α)) (k : κ) (v : α)
    (h : alookup m k = none) : akeys (ainsert m k v) = akeys m ++ [k] := by
  induction m with
  | nil => simp [ainsert, akeys]
  | cons p rest ih =>
    by_cases hp : p.1 = k
    · simp [alookup, hp] at h
    · simp [alookup, hp] at h
      simp [ainsert, hp, akeys] at ih ⊢
      exact ih h

theorem akeys_nodup_ainsert [DecidableEq κ] (m : List (κ × α)) (k : κ) (v : α)
    (h : (akeys m).Nodup) : (akeys (ainsert m k v)).Nodup := by
  cases hs : alookup m k with
  | some w => rw [akeys_ainsert_of_mem m k v (by simp [hs])]; exact h
  | none =>
    rw [akeys_ainsert_of_not_mem m k v hs]
    have hk : k ∉ akeys m := (alookup_eq_none_iff m k).mp hs
    simp [List.nodup_append, h, hk]

theorem akeys_asetdefault [DecidableEq κ] (m : List (κ × α)) (k : κ) (v : α)
    (h : (akeys m).Nodup) : (akeys (asetdefault m k v)).Nodup := by
  unfold asetdefault
  by_cases hs : (alookup m k).isSome
  · simp [hs, h]
  · have hn : alookup m k = none := Option.not_isSome_iff_eq_none.mp hs
    have hk : k ∉ akeys m := (alookup_eq_none_iff m k).mp hn
    simp [hs, akeys, List.nodup_append]
    simp [akeys] at h hk
    exact ⟨h, hk⟩

theorem akeys_aupdate [DecidableEq κ] (m : List (κ × α)) (k : κ) (f : α → α) :
    akeys (aupdate m k f) = akeys m := by
  induction m with
  | nil => simp [aupdate]
  | cons p rest ih =>
    by_cases hp : p.1 = k
    · simp [aupdate, hp, akeys]
    · simp [aupdate, hp, akeys] at ih ⊢
      exact ih

/-- Folding a keyed insert over `rows`: the lookup afterwards is decided by the
    last row whose key matches (Python dict "last assignment wins"). -/
theorem alookup_foldl_ainsert [DecidableEq κ] (kf : ι → κ) (vf : ι → α)
    (rows : List ι) (m0 : List (κ × α)) (k : κ) :
    alookup (rows.foldl (fun m r => ainsert m (kf r) (vf r)) m0) k =
      (rows.reverse.find? (fun r => decide (kf r = k))).elim
        (alookup m0 k) (fun r => some (vf r)) := by
  induction rows generalizing m0 with
  | nil => simp
  | cons r rest ih =>
    simp only [List.foldl_cons, List.reverse_cons]
    rw [ih, List.find?_append]
    cases hfind : rest.reverse.find? (fun x => decide (kf x = k)) with
    | some r2 => simp [hfind]
    | none =>
      by_cases hk : kf r = k
      · have hd : decide (kf r = k) = true := by simp [hk]
        simp [hfind, List.find?, hd, hk, alookup_ainsert_self]
      · have hd : decide (kf r = k) = false := by simp [hk]
        simp [hfind, List.find?, hd,
          alookup_ainsert_ne m0 (kf r) k (vf r) (fun hh => hk hh.symm)]

/-- A fold whose steps all leave the lookup at `k` unchanged leaves it unchanged. -/
theorem alookup_foldl_const [DecidableEq κ] (step : List (κ × α) → ι → List (κ × α))
    (rows : List ι) (m0 : List (κ × α)) (k : κ)
    (h : ∀ m r, r ∈ rows → alookup (step m r) k = alookup m k) :
    alookup (rows.foldl step m0) k = alookup m0 k := by
  induction rows generalizing m0 with
  | nil => simp
  | cons r rest ih =>
    simp only [List.foldl_cons]
    rw [ih (step m0 r) (fun m x hx => h m x (List.mem_cons_of_mem r hx))]
    exact h m0 r (List.mem_cons_self r rest)

theorem alookup_foldl_notmem [DecidableEq κ] (step : List (κ × β) → κ → List (κ × β))
    (hother : ∀ g k k', k ≠ k' → alookup (step g k) k' = alookup g k')
    (l : List κ) (g : List (κ × β)) (oid : κ) (h : oid ∉ l) :
    alookup (l.foldl step g) oid = alookup g oid := by
  induction l generalizing g with
  | nil => simp
  | cons x rest ih =>
    simp only [List.foldl_cons]
    have hx : x ≠ oid := fun hh => h (hh ▸ List.mem_cons_self x rest)
    rw [ih (step g x) (fun hh => h (List.mem_cons_of_mem x hh))]
    exact hother g x oid hx

/-- A fold over a duplicate-free list of keys in which the step for key `k`
    rewrites exactly the bucket of `k` (net effect `F`) and leaves the others
    alone: the final bucket of each visited key. -/
theorem alookup_foldl_selfkey [DecidableEq κ] (step : List (κ × β) → κ → List (κ × β))
    (F : κ → Option β → β)
    (hself : ∀ g k, alookup (step g k) k = some (F k (alookup g k)))
    (hother : ∀ g k k', k ≠ k' → alookup (step g k) k' = alookup g k')
    (l : List κ) (hnd : l.Nodup) (oid : κ) (hmem : oid ∈ l) (g : List (κ × β)) :
    alookup (l.foldl step g) oid = some (F oid (alookup g oid)) := by
  induction l generalizing g with
  | nil => cases hmem
  | cons x rest ih =>
    simp only [List.foldl_cons]
    rcases List.mem_cons.mp hmem with h | h
    · subst h
      have hnot : oid ∉ rest := (List.nodup_cons.mp hnd).1
      rw [alookup_foldl_notmem step hother rest (step g oid) oid hnot]
      exact hself g oid
    · have hx : x ≠ oid := by
        intro hh
        exact (List.nodup_cons.mp hnd).1 (hh ▸ h)
      rw [ih (List.nodup_cons.mp hnd).2 h (step g x), hother g x oid hx]

/-- Generic invariant on the values stored in a dict built by a fold. -/
theorem avalues_foldl (P : β → Prop) (step : List (κ × β) → ι → List (κ × β))
    (rows : List ι) (m0 : List (κ × β))
    (h0 : ∀ p ∈ m0, P p.2)
    (hstep : ∀ m r, r ∈ rows → (∀ p ∈ m, P p.2) → ∀ p ∈ step m r, P p.2) :
    ∀ p ∈ rows.foldl step m0, P p.2 := by
  induction rows generalizing m0 with
  | nil => simpa using h0
  | cons r rest ih =>
    simp only [List.foldl_cons]
    exact ih (step m0 r) (hstep m0 r (List.mem_cons_self r rest) h0)
      (fun m x hx => hstep m x (List.mem_cons_of_mem r hx))

theorem avalues_ainsert (P : β → Prop) [DecidableEq κ] (m : List (κ × β)) (k : κ) (v : β)
    (hm : ∀ p ∈ m, P p.2) (hv : P v) : ∀ p ∈ ainsert m k v, P p.2 := by
  induction m with
  | nil => simpa [ainsert] using hv
  | cons q rest ih =>
    by_cases hq : q.1 = k
    · simp only [ainsert, if_pos hq]
      intro p hp
      rcases List.mem_cons.mp hp with h | h
      · simpa [h] using hv
      · exact hm p (List.mem_cons_of_mem q h)
    · simp only [ainsert, if_neg hq]
      intro p hp
      rcases List.mem_cons.mp hp with h | h
      · exact hm p (h ▸ List.mem_cons_self q rest)
      · exact ih (fun x hx => hm x (List.mem_cons_of_mem q hx)) p h

/- ----------------------------------------------------------------
   ObjectId model (bson.ObjectId over 24-hex-digit strings).
   ---------------------------------------------------------------- -/

def isHexChar (c : Char) : Bool :=
  c.isDigit || (decide ('a' ≤ c) && decide (c ≤ 'f')) || (decide ('A' ≤ c) && decide (c ≤ 'F'))

/-- `ObjectId.is_valid(s)` for a string input: 24 hex digits. -/
def oid_is_valid (s : String) : Bool :=
  s.length == 24 && s.data.all isHexChar

/-- `str(ObjectId(s))` normalises a valid hex string to lowercase. -/
def oidCanonical (s : String) : Oid := pyLower s

/-- The string branch of `_as_object_id`:
    `ObjectId(s) if ObjectId.is_valid(s) else None` (result as its canonical
    string form).  The `ObjectId` / `DBRef` / embedded-dict branches of the
    source only unwrap an id and are modelled by storing references
    id-normalised in `DB`. -/
def as_object_id (s : String) : Option Oid :=
  if oid_is_valid s then some (oidCanonical s) else none

/- ----------------------------------------------------------------
   Document model (ganabosques_orm collections, projected to the
   fields the embedded routes read).
   ---------------------------------------------------------------- -/

/-- One entry of a farm's / enterprise's `ext_id` list. -/
structure ExtIdEntry where
  source : Option String
  ext_code : Option String
  deriving DecidableEq, Repr

structure LogDoc where
  enable : Option Bool
  created : Option PyDateTime
  updated : Option PyDateTime
  deriving DecidableEq, Repr

structure AnalysisDoc where
  id : Oid
  deforestation_id : Option Oid
  deriving DecidableEq, Repr

structure DeforestationDoc where
  id : Oid
  deforestation_source : Option String
  deforestation_type : Option String
  name : Option String
  period_start : Option PyDateTime
  period_end : Option PyDateTime
  year_start : Option Nat
  year_end : Option Nat
  path : Option String
  log : Option LogDoc
  deriving DecidableEq, Repr

structure Adm3Doc where
  id : Oid
  name : Option String
  label : Option String
  deriving DecidableEq, Repr

structure Adm2Doc where
  id : Oid
  name : Option String
  adm1_id : Option Oid
  deriving DecidableEq, Repr

structure Adm1Doc where
  id : Oid
  name : Option String
  deriving DecidableEq, Repr

structure FarmDoc where
  id : Oid
  adm3_id : Option Oid
  ext_id : List ExtIdEntry
  log : Option LogDoc
  deriving DecidableEq, Repr

/-- An area measurement sub-document (`{"ha": .., "prop": ..}`). -/
structure AreaDoc where
  ha : Option ℚ
  prop : Option ℚ
  deriving DecidableEq, Repr

/-- A FarmRisk row.  `farm_id` / `analysis_id` references are modelled as
    present: the routes only skip rows whose references fail to resolve
    (`if not fid: continue`), a branch that is dead for linked rows.
    The boolean flags are read through Python truthiness (`bool(r.get(..))`),
    under which a missing/None flag and `False` coincide, so `Bool` fields
    are a faithful quotient.  `protected` is a Lean keyword, hence
    `protected_area` for the source field `protected`. -/
structure FarmRiskDoc where
  id : Oid
  farm_id : Oid
  analysis_id : Oid
  risk_direct : Bool
  risk_input : Bool
  risk_output : Bool
  deforestation : Option AreaDoc
  farming_in : Option AreaDoc
  farming_out : Option AreaDoc
  protected_area : Option AreaDoc
  deriving DecidableEq, Repr

/-- An Adm3Risk row (precomputed per (adm3, analysis) rollup). -/
structure Adm3RiskDoc where
  adm3_id : Oid
  analysis_id : Oid
  risk_total : Bool
  farm_amount : Int
  def_ha : ℚ
  deriving DecidableEq, Repr

structure EnterpriseDoc where
  id : Oid
  adm2_id : Option Oid
  name : Option String
  ext_id : List ExtIdEntry
  type_enterprise : Option String
  latitude : Option ℚ
  longitud : Option ℚ
  log : Option LogDoc
  deriving DecidableEq, Repr

/-- The stored shape of `EnterpriseRisk.risk_input` / `risk_output`, which the
    route code type-sniffs (`isinstance(raw, list)` vs a single ref vs None). -/
inductive RefListVal where
  | noneV
  | one (o : Oid)
  | many (l : List Oid)
  deriving DecidableEq, Repr

structure EnterpriseRiskDoc where
  enterprise_id : Oid
  analysis_id : Oid
  risk_input : RefListVal
  risk_output : RefListVal
  deriving DecidableEq, Repr

/-- The read-only database state, one list per collection, in the store's
    natural return order. -/
structure DB where
  analyses : List AnalysisDoc
  deforestations : List DeforestationDoc
  adm3s : List Adm3Doc
  adm2s : List Adm2Doc
  adm1s : List Adm1Doc
  farms : List FarmDoc
  farmrisks : List FarmRiskDoc
  adm3risks : List Adm3RiskDoc
  enterprises : List EnterpriseDoc
  enterpriserisks : List EnterpriseRiskDoc
  deriving DecidableEq, Repr

/- ----------------------------------------------------------------
   Shared Python helpers used across the route files.
   ---------------------------------------------------------------- -/

/-- Python truthiness of an optional list field (`if payload.xs:`). -/
def optListTruthy : Option (List α) → Bool
  | some (_ :: _) => true
  | _ => false

/-- `_uniq`: order-preserving de-duplication keeping first occurrences. -/
def uniqGo (seen : List String) : List String → List String
  | [] => []
  | x :: rest => if seen.contains x then uniqGo seen rest else x :: uniqGo (x :: seen) rest

def uniq (l : List String) : List String := uniqGo [] l

/-- `x or None` on a Python list value: an empty list is falsy. -/
def pyListOrNone (l : List α) : Option (List α) :=
  if l.isEmpty then none else some l

/-- `_chunks(lst, size)` of adm3risk_get_all.py:
    `for i in range(0, len(lst), size): yield lst[i:i + size]`.
    `range(0, n, size)` steps through `i = k*size` for `k < ceil(n/size)`.
    (`size = 0` would make Python's `range` raise; the one call site uses 8000.) -/
def chunks (size : Nat) (l : List α) : List (List α) :=
  if size = 0 then []
  else (List.range ((l.length + size - 1) / size)).map
    (fun k => (l.drop (k * size)).take size)

/-- `_split_label_3`: split "DEP, MUN, VEREDA" into up to three trimmed parts. -/
def split_label_3 : Option String → Option String × Option String × Option String
  | none => (none, none, none)
  | some label =>
    if label = "" then (none, none, none)
    else
      let parts := (pySplit label ",").map pyStrip
      (parts.get? 0, parts.get? 1, parts.get? 2)

/-- `_extract_sit_codes_from_farm_ext_id`: `ext_code` values of entries whose
    `source` is `"SIT_CODE"` (entries with a missing code are skipped). -/
def extract_sit_codes (ext_id : List ExtIdEntry) : List String :=
  ext_id.filterMap (fun e => if e.source = some "SIT_CODE" then e.ext_code else none)

/-- `_area(obj)`: a non-dict (None) yields zeros, otherwise
    `float(obj.get("ha") or 0.0)` / `float(obj.get("prop") or 0.0)`. -/
structure AreaOut where
  ha : ℚ
  prop : ℚ
  deriving DecidableEq, Repr

def area_of : Option AreaDoc → AreaOut
  | none => ⟨0, 0⟩
  | some a => ⟨a.ha.getD 0, a.prop.getD 0⟩

/- ----------------------------------------------------------------
   tools/utils.py — build_search_query and re.escape.
   ---------------------------------------------------------------- -/

/-- The characters `re.escape` escapes (CPython ≥ 3.7 `_special_chars_map`):
    every character that can carry special meaning in a regex. -/
def reSpecialChars : List Char :=
  ['(', ')', '[', ']', '\x7b', '\x7d', '?', '*', '+', '-', '|', '^', '$',
   '\\', '.', '&', '~', '#', ' ', '\t', '\n', '\r', '\x0b', '\x0c']

def reEscapeChars : List Char → List Char
  | [] => []
  | c :: cs => if c ∈ reSpecialChars then '\\' :: c :: reEscapeChars cs else c :: reEscapeChars cs

/-- `re.escape`. -/
def re_escape (s : String) : String := String.mk (reEscapeChars s.data)

/-- A regex pattern parsed as a plain sequence of literal atoms: each atom is
    either a backslash-escaped character or a non-special character.  Returns
    the sequence of literal characters the pattern matches, or `none` when
    some character would act as a regex metacharacter. -/
def literalChars : List Char → Option (List Char)
  | [] => some []
  | c :: cs =>
    if c = '\\' then
      match cs with
      | [] => none
      | c2 :: cs2 => (literalChars cs2).map (fun l => c2 :: l)
    else if c ∈ reSpecialChars then none
    else (literalChars cs).map (fun l => c :: l)

/-- One `{field: {"$regex": term, "$options": "i"}}` clause of the `$or` query. -/
structure RegexClause where
  field : String
  regex : String
  options : String
  deriving DecidableEq, Repr

/-- `build_search_query(terms, fields)`: the `$or` clause list, one clause per
    (non-blank stripped term, field) pair, term-major, each term
    regex-escaped; blank terms are dropped. -/
def build_search_query (terms : List String) (fields : List String) : List RegexClause :=
  let safe_terms := (terms.filter (fun t => pyStrip t != "")).map (fun t => re_escape (pyStrip t))
  safe_terms.flatMap (fun term => fields.map (fun f => ⟨f, term, "i"⟩))

/- ----------------------------------------------------------------
   tools/pagination.py — build_paginated_response.
   ---------------------------------------------------------------- -/

structure Paginated (β : Type) where
  total : Nat
  limit : Nat
  skip : Nat
  page : Nat
  total_pages : Nat
  has_next : Bool
  results : List β
  deriving DecidableEq, Repr

/-- `build_paginated_response(base_query, schema_model, page, limit, skip,
    order_by_fields, serialize_fn)`.  The MongoEngine query set is its result
    list `base_query`; `.count()` is its length and `.skip(o).limit(l)` is
    `drop`/`take`.  `order_by`+collation only permutes `base_query` inside the
    store and is treated as part of the input list's order.  FastAPI enforces
    `page ≥ 1`, `limit ≥ 1`, `skip ≥ 0` at the route boundary, so ℕ
    subtraction agrees with Python here. -/
def build_paginated_response (base_query : List α) (serialize_fn : α → β)
    (page : Nat) (limit : Nat) (skip : Option Nat) : Paginated β :=
  let total := base_query.length
  let offset := match skip with
    | some s => s
    | none => (page - 1) * limit
  let total_pages := (total + limit - 1) / limit
  let has_next := decide (offset + limit < total)
  let real_page := match skip with
    | none => page
    | some _ => offset / limit + 1
  let results := ((base_query.drop offset).take limit).map serialize_fn
  ⟨total, limit, offset, real_page, total_pages, has_next, results⟩

/- ----------------------------------------------------------------
   routes/base_route.py — the paged endpoint of the generated router.
   ---------------------------------------------------------------- -/

def MAX_TERMS : Nat := 5
def MAX_TERM_LENGTH : Nat := 25
def MAX_COMBINATIONS : Nat := 50

/-- Python string slicing `s[:n]` by characters. -/
def pySlice (s : String) (n : Nat) : String := String.mk (s.data.take n)

/-- `x or d` for optional strings (an empty string is falsy). -/
def pyOrStr (o : Option String) (d : String) : String :=
  match o with
  | some s => if s = "" then d else s
  | none => d

/-- Query parameters of `GET /{entity}/paged/` (order_by is omitted: its
    whitelist validation and the store-side sort are outside every claim). -/
structure PagedParams where
  page : Nat := 1
  limit : Nat := 10
  skip : Option Nat := none
  search : Option String := none
  search_fields : Option String := none
  deriving Repr

/-- `fields = [f.strip() for f in (search_fields or ",".join(allowed)).split(",")
     if f.strip() in allowed_fields]` -/
def parse_paged_fields (search_fields : Option String) (allowed_fields : List String) :
    List String :=
  (pySplit (pyOrStr search_fields (pyJoin "," allowed_fields)) ",").filterMap
    (fun f => let g := pyStrip f; if allowed_fields.contains g then some g else none)

/-- `terms = [t.strip()[:MAX_TERM_LENGTH] for t in search.split(",") if t.strip()]`
    truncated to the first `MAX_TERMS` entries. -/
def parse_paged_terms (search : String) : List String :=
  (((pySplit search ",").filterMap
    (fun t => let u := pyStrip t; if u = "" then none else some (pySlice u MAX_TERM_LENGTH))).take
    MAX_TERMS)

/-- `get_paginated` of `generate_read_only_router`.  `matchFn` is the store's
    case-insensitive regex matcher (an external collaborator: the document
    matches the `$or` query when some clause matches it). -/
def get_paginated (docs : List α) (serialize_fn : α → β) (matchFn : RegexClause → α → Bool)
    (allowed_fields : List String) (p : PagedParams) : Except HttpError (Paginated β) :=
  let fields := parse_paged_fields p.search_fields allowed_fields
  let search_s := p.search.getD ""
  if search_s != "" && !fields.isEmpty then
    let terms := parse_paged_terms search_s
    if terms.length * fields.length > MAX_COMBINATIONS then
      .error ⟨400, "Search is too broad. Reduce number of terms or fields."⟩
    else
      let q := build_search_query terms fields
      let filtered := docs.filter (fun d => q.any (fun c => matchFn c d))
      .ok (build_paginated_response filtered serialize_fn p.page p.limit p.skip)
  else
    .ok (build_paginated_response docs serialize_fn p.page p.limit p.skip)

/- ----------------------------------------------------------------
   routes/deforestation.py — serialize_deforestation.
   ---------------------------------------------------------------- -/

structure SerializedLog where
  enable : Option Bool
  created : Option String
  updated : Option String
  deriving DecidableEq, Repr

structure SerializedDefo where
  id : String
  deforestation_source : Option String
  deforestation_type : Option String
  name : Option String
  period_start : Option String
  period_end : Option String
  path : Option String
  log : Option SerializedLog
  deriving DecidableEq, Repr

/-- `_to_iso`: `dt.isoformat().replace("+00:00", "Z") if dt else None`
    (the replace is a no-op on naive datetimes but is modelled as written). -/
def to_iso (dt : Option PyDateTime) : Option String :=
  dt.map (fun d => pyReplace d.isoformat "+00:00" "Z")

/-- `serialize_deforestation(doc)`: missing `period_start`/`period_end` are
    synthesized from `year_start`/`year_end` (Jan 1 00:00:00 / Dec 31 23:59:59). -/
def serialize_deforestation (doc : DeforestationDoc) : SerializedDefo :=
  let period_start := match doc.period_start with
    | some p => some p
    | none => doc.year_start.map (fun y => ⟨y, 1, 1, 0, 0, 0⟩)
  let period_end := match doc.period_end with
    | some p => some p
    | none => doc.year_end.map (fun y => ⟨y, 12, 31, 23, 59, 59⟩)
  { id := doc.id
    deforestation_source := doc.deforestation_source
    deforestation_type := doc.deforestation_type
    name := doc.name
    period_start := to_iso period_start
    period_end := to_iso period_end
    path := doc.path
    log := doc.log.map (fun l => ⟨l.enable, to_iso l.created, to_iso l.updated⟩) }

/- ----------------------------------------------------------------
   routes/adm3risk_by_analysis_and_adm3.py — POST /adm3risk/by-analysis-and-adm3
   ---------------------------------------------------------------- -/

namespace ByAnalysis

structure Adm3RiskFilterRequest where
  analysis_ids : List String
  adm3_ids : List String
  deriving Repr

/-- The per-id validation loops of `get_adm3risk_filtered`: append
    `ObjectId(raw)` in order, raising 400 naming the first invalid value. -/
def validate_ids (label : String) : List String → Except HttpError (List Oid)
  | [] => .ok []
  | raw :: rest =>
    if oid_is_valid raw then
      (validate_ids label rest).map (fun l => oidCanonical raw :: l)
    else .error ⟨400, "Invalid " ++ label ++ ": " ++ raw⟩

/-- `Analysis.objects(id__in=valid_analysis_ids)` -/
def filteredAnalyses (db : DB) (validA : List Oid) : List AnalysisDoc :=
  db.analyses.filter (fun a => validA.contains a.id)

/-- `analysis_to_defo[str(a.id)] = str(did)` for analyses with a resolvable
    deforestation reference. -/
def analysisToDefo (db : DB) (validA : List Oid) : List (Oid × Oid) :=
  (filteredAnalyses db validA).foldl (fun m a =>
    match a.deforestation_id with
    | some did => ainsert m a.id did
    | none => m) []

/-- Steps 2 of the endpoint: `defo_periods` maps each fetched deforestation id
    to its (period_start, period_end) iso strings (None when absent). -/
def defoPeriods (db : DB) (validA : List Oid) :
    List (Oid × (Option String × Option String)) :=
  let defo_ids := ((analysisToDefo db validA).map (·.2)).dedup
  (db.deforestations.filter (fun d => defo_ids.contains d.id)).foldl
    (fun m d => ainsert m d.id (isoOpt d.period_start, isoOpt d.period_end)) []

/-- `Farm.objects(adm3_id__in=valid_adm3_ids)` -/
def farmsOfAdm3 (db : DB) (validX : List Oid) : List FarmDoc :=
  db.farms.filter (fun f =>
    match f.adm3_id with
    | some x => validX.contains x
    | none => false)

/-- `farm_to_adm3[str(f.id)] = str(adm3_id)` (rows with an unresolvable
    adm3 reference are skipped). -/
def farmToAdm3 (db : DB) (validX : List Oid) : List (Oid × Oid) :=
  (farmsOfAdm3 db validX).foldl (fun m f =>
    match f.adm3_id with
    | some x => ainsert m f.id x
    | none => m) []

/-- Step 4: `Adm3Risk.objects(analysis_id__in=.., adm3_id__in=..)` -/
def queriedAdm3Risks (db : DB) (validA validX : List Oid) : List Adm3RiskDoc :=
  db.adm3risks.filter (fun r => validA.contains r.analysis_id && validX.contains r.adm3_id)

/-- Step 5: `FarmRisk.objects(farm_id__in=all_farm_ids, analysis_id__in=..)`,
    issued only when `farm_to_adm3` is non-empty. -/
def queriedFarmRisks (db : DB) (validA validX : List Oid) : List FarmRiskDoc :=
  let f2a := farmToAdm3 db validX
  if f2a.isEmpty then []
  else
    let all_farm_ids := (f2a.map (·.1)).dedup
    db.farmrisks.filter (fun fr =>
      all_farm_ids.contains fr.farm_id && validA.contains fr.analysis_id)

/-- The accumulator value per (analysis, adm3) pair. -/
structure RiskVals where
  risk_total : Bool
  farm_amount : Int
  def_ha : ℚ
  deriving DecidableEq, Repr

def vals0 : RiskVals := ⟨false, 0, 0⟩

abbrev RiskAcc := List (Oid × List (Oid × RiskVals))

/-- `acc.get(a, {}).get(x, zero-default)`. -/
def getVals (acc : RiskAcc) (a x : Oid) : RiskVals :=
  (alookup ((alookup acc a).getD []) x).getD vals0

/-- 6.a: fold one Adm3Risk row into the accumulator (sums `farm_amount`
    and `def_ha`; the row fields are modelled present, making the
    `is not None` guards always pass). -/
def step6a (acc : RiskAcc) (r : Adm3RiskDoc) : RiskAcc :=
  let inner := (alookup acc r.analysis_id).getD []
  let v := (alookup inner r.adm3_id).getD vals0
  let v2 := { v with farm_amount := v.farm_amount + r.farm_amount,
                     def_ha := v.def_ha + r.def_ha }
  ainsert acc r.analysis_id (ainsert inner r.adm3_id v2)

/-- 6.b: OR one FarmRisk row's flags into the accumulator bucket of the
    farm's adm3 (rows whose farm is not in `farm_to_adm3` are skipped). -/
def step6b (f2a : List (Oid × Oid)) (acc : RiskAcc) (fr : FarmRiskDoc) : RiskAcc :=
  match alookup f2a fr.farm_id with
  | none => acc
  | some x =>
    let a := fr.analysis_id
    let inner := (alookup acc a).getD []
    let v := (alookup inner x).getD vals0
    let any_flag := fr.risk_direct || fr.risk_input || fr.risk_output
    ainsert acc a (ainsert inner x { v with risk_total := v.risk_total || any_flag })

def riskAcc (db : DB) (validA validX : List Oid) : RiskAcc :=
  (queriedFarmRisks db validA validX).foldl (step6b (farmToAdm3 db validX))
    ((queriedAdm3Risks db validA validX).foldl step6a [])

/-- One emitted row of the response.  `farm_amount`/`def_ha` keep the
    `Option` shape of the source's `.. if .. is not None else None`
    wrappers (always `some` since accumulator values are never None). -/
structure FilteredEntry where
  analysis_id : String
  adm3_id : String
  period_start : Option String
  period_end : Option String
  risk_total : Bool
  farm_amount : Option Int
  def_ha : Option ℚ
  deriving DecidableEq, Repr

def mkFilteredEntry (a_id x : Oid) (ps pe : Option String) (vals : RiskVals) :
    FilteredEntry :=
  ⟨a_id, x, ps, pe, vals.risk_total, some vals.farm_amount, some vals.def_ha⟩

/-- Step 7's per-analysis entry block: one entry per requested adm3, with the
    analysis' period and the accumulated values (zero defaults when absent). -/
def entriesFor (db : DB) (validA validX : List Oid) (a : AnalysisDoc) :
    List FilteredEntry :=
  let pspe := match a.deforestation_id with
    | some did =>
      match alookup (defoPeriods db validA) did with
      | some pr => pr
      | none => (none, none)
    | none => (none, none)
  validX.map (fun x => mkFilteredEntry a.id x pspe.1 pspe.2 (getVals (riskAcc db validA validX) a.id x))

/-- `POST /adm3risk/by-analysis-and-adm3` (`get_adm3risk_filtered`). -/
def get_adm3risk_filtered (db : DB) (data : Adm3RiskFilterRequest) :
    Except HttpError (List (String × List FilteredEntry)) := do
  if data.analysis_ids.isEmpty || data.adm3_ids.isEmpty then
    throw ⟨400, "analysis_ids y adm3_ids son requeridos"⟩
  let validA ← validate_ids "analysis_id" data.analysis_ids
  let validX ← validate_ids "adm3_id" data.adm3_ids
  let analyses := filteredAnalyses db validA
  if analyses.isEmpty then
    return validA.foldl (fun m aid => ainsert m aid []) []
  let grouped0 : List (String × List FilteredEntry) :=
    validA.foldl (fun m aid => ainsert m aid []) []
  return analyses.foldl (fun g a =>
    aupdate g a.id (fun l => l ++ entriesFor db validA validX a)) grouped0

end ByAnalysis

/- ----------------------------------------------------------------
   routes/adm3risk_get_all.py — POST /risk/by-ids-and-type
   ---------------------------------------------------------------- -/

namespace RiskGlobal

def MAX_IDS : Nat := 500
def FARMRISK_IN_BATCH : Nat := 8000

inductive EntityType where
  | adm3
  | farm
  | enterprise
  deriving DecidableEq, Repr

/-- The request body `GlobalRequest`. -/
structure GlobalRequest where
  entity_type : EntityType
  ids : List String
  type : Option String := none
  analysis_ids : Option (List String) := none
  deforestation_ids : Option (List String) := none
  deriving Repr

def validate_object_ids_go : List String → Except HttpError (List Oid)
  | [] => .ok []
  | raw :: rest =>
    match as_object_id raw with
    | none => .error ⟨400, "Invalid ObjectId: " ++ raw⟩
    | some oid => (validate_object_ids_go rest).map (fun l => oid :: l)

/-- `_validate_object_ids`: cap check, then per-id validation in order
    (no de-duplication). -/
def validate_object_ids (ids : List String) : Except HttpError (List Oid) :=
  if ids.length > MAX_IDS then .error ⟨400, "Too many ids (max 500)"⟩
  else validate_object_ids_go ids

/-- `defo_periods[str(_id)] = (ps.isoformat() if ps else None, ...)` over a
    fetched deforestation list. -/
def defoPeriodsOf (defos : List DeforestationDoc) :
    List (Oid × (Option String × Option String)) :=
  defos.foldl (fun m d => ainsert m d.id (isoOpt d.period_start, isoOpt d.period_end)) []

/-- `analysis_to_defo[str(a.id)] = str(did)` over a fetched analysis list. -/
def analysisToDefoOf (analyses : List AnalysisDoc) : List (Oid × Oid) :=
  analyses.foldl (fun m a =>
    match a.deforestation_id with
    | some did => ainsert m a.id did
    | none => m) []

/-- `_get_periods_and_analyses(payload)`: the three selection modes, tried in
    the order analysis_ids (A) > deforestation_ids (B) > type (C), with
    Python truthiness on the optional lists and the optional type string. -/
def get_periods_and_analyses (db : DB) (payload : GlobalRequest) :
    Except HttpError
      (List (Oid × (Option String × Option String)) × List (Oid × Oid)) := do
  if optListTruthy payload.analysis_ids then
    -- A) analysis_ids
    let analysis_oids ← validate_object_ids (payload.analysis_ids.getD [])
    let analyses := db.analyses.filter (fun a => analysis_oids.contains a.id)
    let analysis_to_defo := analysisToDefoOf analyses
    let defo_oids := (analyses.filterMap (·.deforestation_id)).dedup
    if defo_oids.isEmpty || analysis_to_defo.isEmpty then
      return ([], [])
    let defos := db.deforestations.filter (fun d => defo_oids.contains d.id)
    return (defoPeriodsOf defos, analysis_to_defo)
  else if optListTruthy payload.deforestation_ids then
    -- B) deforestation_ids
    let defo_oids ← validate_object_ids (payload.deforestation_ids.getD [])
    let defos := db.deforestations.filter (fun d => defo_oids.contains d.id)
    let defo_periods := defoPeriodsOf defos
    if defo_periods.isEmpty then
      return ([], [])
    let analyses := db.analyses.filter (fun a =>
      match a.deforestation_id with
      | some did => (defo_periods.map (·.1)).contains did
      | none => false)
    return (defo_periods, analysisToDefoOf analyses)
  else
    -- C) type
    match payload.type with
    | none => throw ⟨400, "Must provide either type OR analysis_ids OR deforestation_ids"⟩
    | some t =>
      if t = "" then
        throw ⟨400, "Must provide either type OR analysis_ids OR deforestation_ids"⟩
      let deforestations := db.deforestations.filter
        (fun d => d.deforestation_type = some t)
      let defo_periods := defoPeriodsOf deforestations
      if defo_periods.isEmpty then
        return ([], [])
      let analyses := db.analyses.filter (fun a =>
        match a.deforestation_id with
        | some did => (defo_periods.map (·.1)).contains did
        | none => false)
      return (defo_periods, analysisToDefoOf analyses)

/- ------------------------- ADM3 branch ------------------------- -/

structure SitCodes where
  direct : List String
  input : List String
  output : List String
  deriving DecidableEq, Repr

/-- `acc.setdefault(adm3_id, []).extend(codes)`. -/
def accExtend (m : List (Oid × List String)) (k : Oid) (codes : List String) :
    List (Oid × List String) :=
  aupdate (asetdefault m k []) k (fun l => l ++ codes)

structure SitAcc where
  direct : List (Oid × List String)
  input : List (Oid × List String)
  output : List (Oid × List String)
  deriving Repr

/-- Fold one FarmRisk row of a batch into the three per-adm3 accumulators. -/
def sitStep (farm_to_adm3 : List (Oid × Oid)) (farm_to_sit : List (Oid × List String))
    (acc : SitAcc) (r : FarmRiskDoc) : SitAcc :=
  match alookup farm_to_adm3 r.farm_id with
  | none => acc
  | some adm3_id =>
    let sit_codes := (alookup farm_to_sit r.farm_id).getD []
    if sit_codes.isEmpty then acc
    else
      let acc1 := if r.risk_direct then { acc with direct := accExtend acc.direct adm3_id sit_codes } else acc
      let acc2 := if r.risk_input then { acc1 with input := accExtend acc1.input adm3_id sit_codes } else acc1
      if r.risk_output then { acc2 with output := accExtend acc2.output adm3_id sit_codes } else acc2

/-- `_build_adm3_sit_codes_for_analysis`: batched FarmRisk lookups
    (`farm_id $in` chunks of `FARMRISK_IN_BATCH`), flag-wise accumulation,
    then per-adm3 de-duplicated code lists. -/
def build_adm3_sit_codes_for_analysis (db : DB) (analysis_oid : Oid)
    (farm_ids_for_adm3s : List Oid) (farm_to_adm3 : List (Oid × Oid))
    (farm_to_sit : List (Oid × List String)) : List (Oid × SitCodes) :=
  let step := fun (acc : SitAcc) (batch : List Oid) =>
    let fr_rows := db.farmrisks.filter (fun r =>
      r.analysis_id = analysis_oid && batch.contains r.farm_id)
    fr_rows.foldl (sitStep farm_to_adm3 farm_to_sit) acc
  let acc := (chunks FARMRISK_IN_BATCH farm_ids_for_adm3s).foldl step ⟨[], [], []⟩
  let all_adm3 := (acc.direct.map (·.1) ++ acc.input.map (·.1) ++ acc.output.map (·.1)).dedup
  all_adm3.map (fun k =>
    (k, ⟨uniq ((alookup acc.direct k).getD []),
         uniq ((alookup acc.input k).getD []),
         uniq ((alookup acc.output k).getD [])⟩))

structure Adm3Meta where
  name : Option String
  department : Option String
  municipality : Option String
  deriving DecidableEq, Repr

structure Adm3Item where
  period_start : Option String
  period_end : Option String
  analysis_id : String
  risk_total : Bool
  farm_amount : Int
  def_ha : ℚ
  sit_codes : SitCodes
  deriving DecidableEq, Repr

/-- A response bucket.  `meta = none` models the reduced `{"adm3_id", "items"}`
    dict created by `grouped.setdefault` for a requested id with no Adm3 doc. -/
structure Adm3Bucket where
  adm3_id : String
  meta : Option Adm3Meta
  items : List Adm3Item
  deriving DecidableEq, Repr

/-- Base adm3 buckets from `Adm3.objects(id__in=valid_ids)`. -/
def adm3Grouped0 (db : DB) (validIds : List Oid) : List (String × Adm3Bucket) :=
  (db.adm3s.filter (fun d => validIds.contains d.id)).foldl (fun g d =>
    let dm := split_label_3 d.label
    ainsert g d.id ⟨d.id, some ⟨d.name, dm.1, dm.2.1⟩, []⟩) []

/-- `existing_map[(str(adm3_id), str(analysis_id))] = doc` over the batched
    Adm3Risk query. -/
def existingAdm3RiskMap (db : DB) (validIds : List Oid) (a2d : List (Oid × Oid)) :
    List ((String × String) × Adm3RiskDoc) :=
  (db.adm3risks.filter (fun r =>
      (a2d.map (·.1)).contains r.analysis_id && validIds.contains r.adm3_id)).foldl
    (fun m r => ainsert m (r.adm3_id, r.analysis_id) r) []

/-- Step 2 of the adm3 branch: farms of the requested adm3s, their id list,
    farm→adm3 map and farm→SIT-code map (built in one pass). -/
def adm3FarmsInfo (db : DB) (validIds : List Oid) :
    List Oid × List (Oid × Oid) × List (Oid × List String) :=
  (db.farms.filter (fun f =>
      match f.adm3_id with
      | some x => validIds.contains x
      | none => false)).foldl
    (fun acc f =>
      match f.adm3_id with
      | none => acc
      | some x => (acc.1 ++ [f.id], ainsert acc.2.1 f.id x,
                   ainsert acc.2.2 f.id (extract_sit_codes f.ext_id)))
    ([], [], [])

/-- Step 3: `analysis_sit_cache[analysis_id] = _build_adm3_sit_codes_for_analysis(..)`. -/
def analysisSitCache (db : DB) (validIds : List Oid) (a2d : List (Oid × Oid)) :
    List (Oid × List (Oid × SitCodes)) :=
  let info := adm3FarmsInfo db validIds
  (a2d.map (·.1)).foldl (fun m aid =>
    ainsert m aid (build_adm3_sit_codes_for_analysis db aid info.1 info.2.1 info.2.2)) []

/-- One item of step 4: period from `defo_periods`, risk fields from the
    precomputed Adm3Risk doc when present (zero/False defaults otherwise),
    sit codes from the per-analysis cache. -/
def mkAdm3Item (periods : List (Oid × (Option String × Option String)))
    (existing : List ((String × String) × Adm3RiskDoc))
    (cache : List (Oid × List (Oid × SitCodes)))
    (adm3_id : String) (p : Oid × Oid) : Adm3Item :=
  let pspe := (alookup periods p.2).getD (none, none)
  let doc? := alookup existing (adm3_id, p.1)
  let sc := (alookup ((alookup cache p.1).getD []) adm3_id).getD ⟨[], [], []⟩
  { period_start := pspe.1
    period_end := pspe.2
    analysis_id := p.1
    risk_total := match doc? with
      | some d => d.risk_total
      | none => false
    farm_amount := match doc? with
      | some d => d.farm_amount
      | none => 0
    def_ha := match doc? with
      | some d => d.def_ha
      | none => 0
    sit_codes := sc }

/-- The step-4 body for one requested adm3 id: `grouped.setdefault(..)`, the
    append loop over `analysis_to_defo.items()`, then the final
    `list(reversed(..))` assignment. -/
def adm3AddItems (periods : List (Oid × (Option String × Option String)))
    (a2d : List (Oid × Oid))
    (existing : List ((String × String) × Adm3RiskDoc))
    (cache : List (Oid × List (Oid × SitCodes)))
    (g : List (String × Adm3Bucket)) (oid : Oid) : List (String × Adm3Bucket) :=
  let g1 := asetdefault g oid ⟨oid, none, []⟩
  aupdate g1 oid (fun b =>
    { b with items := (b.items ++ a2d.map (mkAdm3Item periods existing cache oid)).reverse })

/-- The whole adm3 branch of the endpoint, after validation and period
    resolution. -/
def processAdm3 (db : DB) (validIds : List Oid)
    (periods : List (Oid × (Option String × Option String)))
    (a2d : List (Oid × Oid)) : List (String × Adm3Bucket) :=
  let grouped := adm3Grouped0 db validIds
  if periods.isEmpty || a2d.isEmpty then grouped
  else
    let existing := existingAdm3RiskMap db validIds a2d
    let cache := analysisSitCache db validIds a2d
    validIds.foldl (adm3AddItems periods a2d existing cache) grouped

/- ------------------------- FARM branch ------------------------- -/

structure FarmMeta where
  farm_id : String
  adm3_id : Option String
  ext_id : Option (List ExtIdEntry)
  log : Option LogDoc
  department : Option String
  municipality : Option String
  vereda : Option String
  deriving DecidableEq, Repr

structure FarmItem where
  period_start : Option String
  period_end : Option String
  analysis_id : String
  risk_direct : Bool
  risk_input : Bool
  risk_output : Bool
  deforestation : AreaOut
  farming_in : AreaOut
  farming_out : AreaOut
  protected_area : AreaOut
  deriving DecidableEq, Repr

/-- `{"farm_id", "farm": farm_meta_map.get(str(fid)), "items": []}`:
    `farm = none` when the requested farm id has no Farm document. -/
structure FarmBucket where
  farm_id : String
  farm : Option FarmMeta
  items : List FarmItem
  deriving DecidableEq, Repr

/-- `farm_meta_map` with the adm3-label (department/municipality/vereda)
    enrichment pass applied. -/
def farmMetaMap (db : DB) (validIds : List Oid) : List (String × FarmMeta) :=
  let farm_docs := db.farms.filter (fun f => validIds.contains f.id)
  let base : List (String × FarmMeta) := farm_docs.foldl (fun m f =>
    ainsert m f.id ⟨f.id, f.adm3_id, pyListOrNone f.ext_id, f.log, none, none, none⟩) []
  let adm3_ids := (farm_docs.filterMap (·.adm3_id)).dedup
  let adm3_docs := db.adm3s.filter (fun a => adm3_ids.contains a.id)
  let label_map := adm3_docs.foldl (fun m a => ainsert m a.id (split_label_3 a.label)) []
  base.map (fun p =>
    (p.1,
      match p.2.adm3_id with
      | some x =>
        match alookup label_map x with
        | some dmv =>
          { p.2 with department := dmv.1, municipality := dmv.2.1, vereda := dmv.2.2 }
        | none => p.2
      | none => p.2))

/-- `existing_map[(str(farm_id), str(analysis_id))] = doc` over the batched
    FarmRisk query of the farm branch. -/
def existingFarmRiskMap (db : DB) (validIds : List Oid) (a2d : List (Oid × Oid)) :
    List ((String × String) × FarmRiskDoc) :=
  (db.farmrisks.filter (fun r =>
      (a2d.map (·.1)).contains r.analysis_id && validIds.contains r.farm_id)).foldl
    (fun m r => ainsert m (r.farm_id, r.analysis_id) r) []

def mkFarmItem (periods : List (Oid × (Option String × Option String)))
    (existing : List ((String × String) × FarmRiskDoc))
    (farm_id : String) (p : Oid × Oid) : FarmItem :=
  let pspe := (alookup periods p.2).getD (none, none)
  match alookup existing (farm_id, p.1) with
  | some d =>
    ⟨pspe.1, pspe.2, p.1, d.risk_direct, d.risk_input, d.risk_output,
     area_of d.deforestation, area_of d.farming_in, area_of d.farming_out,
     area_of d.protected_area⟩
  | none =>
    ⟨pspe.1, pspe.2, p.1, false, false, false,
     area_of none, area_of none, area_of none, area_of none⟩

def farmAddItems (periods : List (Oid × (Option String × Option String)))
    (a2d : List (Oid × Oid))
    (existing : List ((String × String) × FarmRiskDoc))
    (g : List (String × FarmBucket)) (oid : Oid) : List (String × FarmBucket) :=
  aupdate g oid (fun b =>
    { b with items := (b.items ++ a2d.map (mkFarmItem periods existing oid)).reverse })

def processFarm (db : DB) (validIds : List Oid)
    (periods : List (Oid × (Option String × Option String)))
    (a2d : List (Oid × Oid)) : List (String × FarmBucket) :=
  let metas := farmMetaMap db validIds
  let grouped := validIds.foldl (fun g fid => ainsert g fid ⟨fid, alookup metas fid, []⟩) []
  if periods.isEmpty || a2d.isEmpty then grouped
  else
    let existing := existingFarmRiskMap db validIds a2d
    validIds.foldl (farmAddItems periods a2d existing) grouped

/- ---------------------- ENTERPRISE branch ---------------------- -/

structure EnterpriseMeta where
  enterprise_id : String
  type_enterprise : Option String
  adm2_id : Option String
  name : Option String
  ext_id : Option (List ExtIdEntry)
  latitude : Option ℚ
  longitud : Option ℚ
  log : Option LogDoc
  created : Option String
  updated : Option String
  municipality : Option String
  department : Option String
  deriving DecidableEq, Repr

structure SitCodesIO where
  input : List String
  output : List String
  deriving DecidableEq, Repr

structure EnterpriseItem where
  period_start : Option String
  period_end : Option String
  analysis_id : String
  risk_input : Option (List String)
  risk_output : Option (List String)
  sit_codes : SitCodesIO
  deriving DecidableEq, Repr

structure EnterpriseBucket where
  enterprise_id : String
  enterprise : Option EnterpriseMeta
  items : List EnterpriseItem
  deriving DecidableEq, Repr

/-- `_to_oid_list` (references modelled already id-normalised). -/
def to_oid_list : RefListVal → List Oid
  | .noneV => []
  | .one o => [o]
  | .many l => l

/-- The emitted `risk_input` / `risk_output` JSON value:
    `[str(..) for x in (raw or [])] if isinstance(raw, list)
     else ([str(raw)] if raw else None)`. -/
def refListOut : RefListVal → Option (List String)
  | .many l => some l
  | .one o => some [o]
  | .noneV => none

/-- `enterprise_meta_map` with the adm2/adm1 name enrichment pass applied
    (`.. or ""` stores an empty name, `.. or None` turns it back to null). -/
def enterpriseMetaMap (db : DB) (validIds : List Oid) : List (String × EnterpriseMeta) :=
  let docs := db.enterprises.filter (fun e => validIds.contains e.id)
  let base : List (String × EnterpriseMeta) := docs.foldl (fun m e =>
    ainsert m e.id
      ⟨e.id, e.type_enterprise, e.adm2_id, e.name, pyListOrNone e.ext_id,
       e.latitude, e.longitud, e.log,
       isoOpt (e.log.bind (·.created)), isoOpt (e.log.bind (·.updated)),
       none, none⟩) []
  let adm2_ids := (docs.filterMap (·.adm2_id)).dedup
  let adm2_docs := db.adm2s.filter (fun a => adm2_ids.contains a.id)
  let adm2_name_map := adm2_docs.foldl (fun m a => ainsert m a.id (a.name.getD "")) []
  let adm2_to_adm1 := adm2_docs.foldl (fun m a =>
    match a.adm1_id with
    | some x => ainsert m a.id x
    | none => m) []
  let adm1_ids := (adm2_docs.filterMap (·.adm1_id)).dedup
  let adm1_docs := db.adm1s.filter (fun a => adm1_ids.contains a.id)
  let adm1_name_map := adm1_docs.foldl (fun m a => ainsert m a.id (a.name.getD "")) []
  base.map (fun p =>
    (p.1,
      match p.2.adm2_id with
      | none => p.2
      | some a2 =>
        let mun := match alookup adm2_name_map a2 with
          | some s => if s = "" then none else some s
          | none => none
        let dep := match alookup adm2_to_adm1 a2 with
          | some a1 =>
            match alookup adm1_name_map a1 with
            | some s => if s = "" then none else some s
            | none => none
          | none => none
        { p.2 with municipality := mun, department := dep }))

/-- The batched EnterpriseRisk query of the enterprise branch. -/
def erDocsQ (db : DB) (validIds : List Oid) (a2d : List (Oid × Oid)) :
    List EnterpriseRiskDoc :=
  db.enterpriserisks.filter (fun r =>
    (a2d.map (·.1)).contains r.analysis_id && validIds.contains r.enterprise_id)

def erMap (db : DB) (validIds : List Oid) (a2d : List (Oid × Oid)) :
    List ((String × String) × EnterpriseRiskDoc) :=
  (erDocsQ db validIds a2d).foldl
    (fun m r => ainsert m (r.enterprise_id, r.analysis_id) r) []

/-- All FarmRisk ids referenced by the fetched EnterpriseRisk docs. -/
def allFrOids (db : DB) (validIds : List Oid) (a2d : List (Oid × Oid)) : List Oid :=
  ((erDocsQ db validIds a2d).flatMap
    (fun d => to_oid_list d.risk_input ++ to_oid_list d.risk_output)).dedup

/-- `fr_to_farm[str(frid)] = fid` over
    `FarmRisk.find({"_id": {"$in": all_fr_oids}})`. -/
def frToFarm (db : DB) (validIds : List Oid) (a2d : List (Oid × Oid)) :
    List (Oid × Oid) :=
  (db.farmrisks.filter (fun r => (allFrOids db validIds a2d).contains r.id)).foldl
    (fun m r => ainsert m r.id r.farm_id) []

/-- `farm_sit_map[fid] = _extract_sit_codes_from_farm_ext_id(..)` over the
    farms owning the referenced FarmRisk rows. -/
def farmSitMap (db : DB) (validIds : List Oid) (a2d : List (Oid × Oid)) :
    List (Oid × List String) :=
  let farm_ids := ((frToFarm db validIds a2d).map (·.2)).dedup
  (db.farms.filter (fun f => farm_ids.contains f.id)).foldl
    (fun m f => ainsert m f.id (extract_sit_codes f.ext_id)) []

def mkEnterpriseItem (db : DB) (validIds : List Oid) (a2d : List (Oid × Oid))
    (periods : List (Oid × (Option String × Option String)))
    (eid : String) (p : Oid × Oid) : EnterpriseItem :=
  let pspe := (alookup periods p.2).getD (none, none)
  let doc? := alookup (erMap db validIds a2d) (eid, p.1)
  let risk_in_raw := match doc? with
    | some d => d.risk_input
    | none => .noneV
  let risk_out_raw := match doc? with
    | some d => d.risk_output
    | none => .noneV
  let in_codes := (to_oid_list risk_in_raw).flatMap (fun frid =>
    match alookup (frToFarm db validIds a2d) frid with
    | some farm_oid => (alookup (farmSitMap db validIds a2d) farm_oid).getD []
    | none => [])
  let out_codes := (to_oid_list risk_out_raw).flatMap (fun frid =>
    match alookup (frToFarm db validIds a2d) frid with
    | some farm_oid => (alookup (farmSitMap db validIds a2d) farm_oid).getD []
    | none => [])
  ⟨pspe.1, pspe.2, p.1, refListOut risk_in_raw, refListOut risk_out_raw,
   ⟨uniq in_codes, uniq out_codes⟩⟩

def entAddItems (db : DB) (validIds : List Oid) (a2d : List (Oid × Oid))
    (periods : List (Oid × (Option String × Option String)))
    (g : List (String × EnterpriseBucket)) (oid : Oid) :
    List (String × EnterpriseBucket) :=
  aupdate g oid (fun b =>
    { b with items := (b.items ++ a2d.map (mkEnterpriseItem db validIds a2d periods oid)).reverse })

def processEnterprise (db : DB) (validIds : List Oid)
    (periods : List (Oid × (Option String × Option String)))
    (a2d : List (Oid × Oid)) : List (String × EnterpriseBucket) :=
  let metas := enterpriseMetaMap db validIds
  let grouped := validIds.foldl (fun g eid => ainsert g eid ⟨eid, alookup metas eid, []⟩) []
  if periods.isEmpty || a2d.isEmpty then grouped
  else validIds.foldl (entAddItems db validIds a2d periods) grouped

/- ---------------------- the endpoint ---------------------- -/

inductive GlobalResponse where
  | adm3 (g : List (String × Adm3Bucket))
  | farm (g : List (String × FarmBucket))
  | enterprise (g : List (String × EnterpriseBucket))
  deriving DecidableEq, Repr

/-- `POST /risk/by-ids-and-type` (`get_risk_by_ids_and_type`): validation,
    period resolution, then the branch for the requested entity type. -/
def get_risk_by_ids_and_type (db : DB) (payload : GlobalRequest) :
    Except HttpError GlobalResponse := do
  let valid_ids ← validate_object_ids payload.ids
  let pr ← get_periods_and_analyses db payload
  match payload.entity_type with
  | .adm3 => return .adm3 (processAdm3 db valid_ids pr.1 pr.2)
  | .farm => return .farm (processFarm db valid_ids pr.1 pr.2)
  | .enterprise => return .enterprise (processEnterprise db valid_ids pr.1 pr.2)

end RiskGlobal

/- ----------------------------------------------------------------
   routes/enterprise_risk.py — _validate_oids (validates, caps at 500
   and de-duplicates on the raw strings, keeping first occurrences).
   ---------------------------------------------------------------- -/

namespace EnterpriseRiskRoute

def MAX_IDS : Nat := 500

def validate_oids_go (label : String) (seen : List String) :
    List String → Except HttpError (List Oid)
  | [] => .ok []
  | raw :: rest =>
    if !oid_is_valid raw then .error ⟨400, "Invalid " ++ label ++ ": " ++ raw⟩
    else if seen.contains raw then validate_oids_go label seen rest
    else (validate_oids_go label (raw :: seen) rest).map (fun l => oidCanonical raw :: l)

/-- `_validate_oids(ids, label)`. -/
def validate_oids (ids : List String) (label : String) : Except HttpError (List Oid) :=
  if ids.length > MAX_IDS then
    .error ⟨400, "'" ++ label ++ "' excede " ++ toString MAX_IDS ++ " IDs"⟩
  else validate_oids_go label [] ids

end EnterpriseRiskRoute

/- ----------------------------------------------------------------
   Spec-side definitions (used to compare the code's behaviour with
   the specification's wording).
   ---------------------------------------------------------------- -/

/-- The OR-reduction the specification prescribes for an adm3's `risk_total`:
    the logical OR of (risk_direct OR risk_input OR risk_output) over every
    FarmRisk row of every farm whose adm3 reference is that adm3, for that
    analysis.  Written from the spec's words, for refinement comparison. -/
def specRiskTotalOr (db : DB) (adm3 analysis : Oid) : Bool :=
  db.farmrisks.any (fun fr =>
    fr.analysis_id = analysis
    && db.farms.any (fun f => f.id = fr.farm_id && f.adm3_id = some adm3)
    && (fr.risk_direct || fr.risk_input || fr.risk_output))

/-- "ordered newest-first by period end": every consecutive pair of items with
    present period ends is non-increasing.  Written from the spec's words. -/
def charListLt : List Char → List Char → Bool
  | [], [] => false
  | [], _ :: _ => true
  | _ :: _, [] => false
  | a :: as, b :: bs => if a < b then true else if b < a then false else charListLt as bs

/-- Lexicographic string order (kernel-computable; agrees with the usual
    string order, under which ISO timestamps sort chronologically). -/
def strLe (a b : String) : Bool := !(charListLt b.data a.data)

def newestFirstByPeriodEnd : List (Option String) → Bool
  | [] => true
  | [_] => true
  | a :: b :: rest =>
    (match a, b with
     | some x, some y => strLe y x
     | _, _ => true) && newestFirstByPeriodEnd (b :: rest)

/-- Extract the items of one adm3 bucket from a `/risk/by-ids-and-type`
    response. -/
def adm3BucketItems (resp : Except HttpError RiskGlobal.GlobalResponse) (k : String) :
    Option (List RiskGlobal.Adm3Item) :=
  match resp with
  | .ok (.adm3 g) => (alookup g k).map (·.items)
  | _ => none

/-- All per-entity item lists of a `/risk/by-ids-and-type` response are empty. -/
def responseAllItemsEmpty : RiskGlobal.GlobalResponse → Bool
  | .adm3 g => g.all (fun p => p.2.items.isEmpty)
  | .farm g => g.all (fun p => p.2.items.isEmpty)
  | .enterprise g => g.all (fun p => p.2.items.isEmpty)

/- ----------------------------------------------------------------
   Characterisation lemmas for the embedded folds.
   ---------------------------------------------------------------- -/

/-- `alookup_foldl_ainsert` for an arbitrary (definitionally equal) step. -/
theorem alookup_foldl_ainsert_of_step [DecidableEq κ]
    (step : List (κ × α) → ι → List (κ × α)) (kf : ι → κ) (vf : ι → α)
    (hstep : ∀ m r, step m r = ainsert m (kf r) (vf r))
    (rows : List ι) (m0 : List (κ × α)) (k : κ) :
    alookup (rows.foldl step m0) k =
      (rows.reverse.find? (fun r => decide (kf r = k))).elim
        (alookup m0 k) (fun r => some (vf r)) := by
  have h : step = fun m r => ainsert m (kf r) (vf r) := by
    funext m r
    exact hstep m r
  rw [h]
  exact alookup_foldl_ainsert kf vf rows m0 k

theorem alookup_foldl_ainsert_opt_sem [DecidableEq κ]
    (step : List (κ × α) → ι → List (κ × α)) (kf : ι → κ) (sf : ι → Option α)
    (hsome : ∀ m r v, sf r = some v → step m r = ainsert m (kf r) v)
    (hnone : ∀ m r, sf r = none → step m r = m)
    (rows : List ι) (m0 : List (κ × α)) (k : κ) :
    alookup (rows.foldl step m0) k =
      (rows.reverse.find? (fun r => decide (kf r = k) && (sf r).isSome)).elim
        (alookup m0 k) sf := by
  induction rows generalizing m0 with
  | nil => simp
  | cons r rest ih =>
    simp only [List.foldl_cons, List.reverse_cons]
    rw [ih (step m0 r), List.find?_append]
    cases hfind : rest.reverse.find? (fun x => decide (kf x = k) && (sf x).isSome) with
    | some r2 => simp [hfind]
    | none =>
      cases hsf : sf r with
      | none => simp [hfind, List.find?, hsf, hnone m0 r hsf]
      | some v =>
        rw [hsome m0 r v hsf]
        by_cases hk : kf r = k
        · have hd : decide (kf r = k) = true := by simp [hk]
          simp [hfind, List.find?, hsf, hd, hk, alookup_ainsert_self]
        · have hd : decide (kf r = k) = false := by simp [hk]
          simp [hfind, List.find?, hsf, hd,
            alookup_ainsert_ne m0 (kf r) k v (fun hh => hk hh.symm)]

/-- Keys of a fold of inserts stay duplicate-free. -/
theorem akeys_nodup_foldl_ainsert [DecidableEq κ]
    (step : List (κ × α) → ι → List (κ × α)) (kf : ι → κ) (vf : ι → α)
    (hstep : ∀ m r, step m r = ainsert m (kf r) (vf r))
    (rows : List ι) (m0 : List (κ × α)) (h0 : (akeys m0).Nodup) :
    (akeys (rows.foldl step m0)).Nodup := by
  induction rows generalizing m0 with
  | nil => simpa using h0
  | cons r rest ih =>
    simp only [List.foldl_cons]
    exact ih (step m0 r) (by rw [hstep m0 r]; exact akeys_nodup_ainsert m0 (kf r) (vf r) h0)

theorem akeys_nodup_foldl_ainsert_opt [DecidableEq κ]
    (step : List (κ × α) → ι → List (κ × α)) (kf : ι → κ) (sf : ι → Option α)
    (hsome : ∀ m r v, sf r = some v → step m r = ainsert m (kf r) v)
    (hnone : ∀ m r, sf r = none → step m r = m)
    (rows : List ι) (m0 : List (κ × α)) (h0 : (akeys m0).Nodup) :
    (akeys (rows.foldl step m0)).Nodup := by
  induction rows generalizing m0 with
  | nil => simpa using h0
  | cons r rest ih =>
    simp only [List.foldl_cons]
    refine ih (step m0 r) ?_
    cases hsf : sf r with
    | none => rw [hnone m0 r hsf]; exact h0
    | some v => rw [hsome m0 r v hsf]; exact akeys_nodup_ainsert m0 (kf r) v h0

/-- Keys are unchanged by a fold of updates. -/
theorem akeys_foldl_aupdate [DecidableEq κ]
    (step : List (κ × α) → ι → List (κ × α)) (key : ι → κ) (f : ι → α → α)
    (hstep : ∀ m r, step m r = aupdate m (key r) (f r))
    (rows : List ι) (m0 : List (κ × α)) :
    akeys (rows.foldl step m0) = akeys m0 := by
  induction rows generalizing m0 with
  | nil => simp
  | cons r rest ih =>
    simp only [List.foldl_cons]
    rw [ih (step m0 r), hstep m0 r, akeys_aupdate]

namespace ByAnalysis

/-- A FarmRisk row contributes `true` to the OR-fold of bucket `(a, x)`. -/
def contributes (f2a : List (Oid × Oid)) (a x : Oid) (fr : FarmRiskDoc) : Bool :=
  decide (alookup f2a fr.farm_id = some x) && decide (fr.analysis_id = a) &&
    (fr.risk_direct || fr.risk_input || fr.risk_output)

theorem getVals_nil (a x : Oid) : getVals [] a x = vals0 := rfl

theorem getVals_step6a_risk (acc : RiskAcc) (r : Adm3RiskDoc) (a x : Oid) :
    (getVals (step6a acc r) a x).risk_total = (getVals acc a x).risk_total := by
  simp only [step6a, getVals]
  by_cases ha : r.analysis_id = a
  · subst ha
    rw [alookup_ainsert_self]
    by_cases hx : r.adm3_id = x
    · subst hx
      rw [Option.getD_some, alookup_ainsert_self]
      simp
    · rw [Option.getD_some, alookup_ainsert_ne _ _ _ _ (fun hh => hx hh.symm)]
  · rw [alookup_ainsert_ne _ _ _ _ (fun hh => ha hh.symm)]

theorem getVals_step6a_of_notmatch (acc : RiskAcc) (r : Adm3RiskDoc) (a x : Oid)
    (h : ¬ (r.analysis_id = a ∧ r.adm3_id = x)) :
    getVals (step6a acc r) a x = getVals acc a x := by
  simp only [step6a, getVals]
  by_cases ha : r.analysis_id = a
  · subst ha
    have hx : ¬ (r.adm3_id = x) := fun hh => h ⟨rfl, hh⟩
    rw [alookup_ainsert_self, Option.getD_some,
      alookup_ainsert_ne _ _ _ _ (fun hh => hx hh.symm)]
  · rw [alookup_ainsert_ne _ _ _ _ (fun hh => ha hh.symm)]

theorem getVals_step6b_risk (f2a : List (Oid × Oid)) (acc : RiskAcc) (fr : FarmRiskDoc)
    (a x : Oid) :
    (getVals (step6b f2a acc fr) a x).risk_total
      = ((getVals acc a x).risk_total || contributes f2a a x fr) := by
  simp only [step6b, contributes]
  cases hl : alookup f2a fr.farm_id with
  | none => simp [hl]
  | some x' =>
    by_cases ha : fr.analysis_id = a
    · subst ha
      by_cases hx : x' = x
      · subst hx
        simp only [getVals, alookup_ainsert_self, Option.getD_some, hl]
        simp [alookup_ainsert_self]
      · have hxx : ¬ (some x' = some x) := by simp [hx]
        simp only [getVals, alookup_ainsert_self, Option.getD_some, hl]
        rw [alookup_ainsert_ne _ _ _ _ (fun hh => hx hh.symm)]
        simp [hxx]
    · simp only [getVals]
      rw [alookup_ainsert_ne _ _ _ _ (fun hh => ha hh.symm)]
      simp [ha]

theorem getVals_step6b_amounts (f2a : List (Oid × Oid)) (acc : RiskAcc) (fr : FarmRiskDoc)
    (a x : Oid) :
    (getVals (step6b f2a acc fr) a x).farm_amount = (getVals acc a x).farm_amount ∧
    (getVals (step6b f2a acc fr) a x).def_ha = (getVals acc a x).def_ha := by
  simp only [step6b]
  cases hl : alookup f2a fr.farm_id with
  | none => exact ⟨rfl, rfl⟩
  | some x' =>
    by_cases ha : fr.analysis_id = a
    · subst ha
      by_cases hx : x' = x
      · subst hx
        simp only [getVals, alookup_ainsert_self, Option.getD_some]
        simp [alookup_ainsert_self]
      · simp only [getVals, alookup_ainsert_self, Option.getD_some]
        rw [alookup_ainsert_ne _ _ _ _ (fun hh => hx hh.symm)]
        exact ⟨rfl, rfl⟩
    · simp only [getVals]
      rw [alookup_ainsert_ne _ _ _ _ (fun hh => ha hh.symm)]
      exact ⟨rfl, rfl⟩

theorem getVals_fold6a_risk (rows : List Adm3RiskDoc) (acc : RiskAcc) (a x : Oid) :
    (getVals (rows.foldl step6a acc) a x).risk_total = (getVals acc a x).risk_total := by
  induction rows generalizing acc with
  | nil => rfl
  | cons r rest ih =>
    simp only [List.foldl_cons]
    rw [ih (step6a acc r), getVals_step6a_risk]

theorem getVals_fold6a_of_notmatch (rows : List Adm3RiskDoc) (acc : RiskAcc) (a x : Oid)
    (h : ∀ r ∈ rows, ¬ (r.analysis_id = a ∧ r.adm3_id = x)) :
    getVals (rows.foldl step6a acc) a x = getVals acc a x := by
  induction rows generalizing acc with
  | nil => rfl
  | cons r rest ih =>
    simp only [List.foldl_cons]
    rw [ih (step6a acc r) (fun q hq => h q (List.mem_cons_of_mem r hq)),
      getVals_step6a_of_notmatch acc r a x (h r (List.mem_cons_self r rest))]

theorem getVals_fold6b_risk (f2a : List (Oid × Oid)) (rows : List FarmRiskDoc)
    (acc : RiskAcc) (a x : Oid) :
    (getVals (rows.foldl (step6b f2a) acc) a x).risk_total
      = ((getVals acc a x).risk_total || rows.any (contributes f2a a x)) := by
  induction rows generalizing acc with
  | nil => simp
  | cons fr rest ih =>
    simp only [List.foldl_cons, List.any_cons]
    rw [ih (step6b f2a acc fr), getVals_step6b_risk]
    simp [Bool.or_assoc]

theorem getVals_fold6b_amounts (f2a : List (Oid × Oid)) (rows : List FarmRiskDoc)
    (acc : RiskAcc) (a x : Oid) :
    (getVals (rows.foldl (step6b f2a) acc) a x).farm_amount = (getVals acc a x).farm_amount ∧
    (getVals (rows.foldl (step6b f2a) acc) a x).def_ha = (getVals acc a x).def_ha := by
  induction rows generalizing acc with
  | nil => exact ⟨rfl, rfl⟩
  | cons fr rest ih =>
    simp only [List.foldl_cons]
    obtain ⟨h1, h2⟩ := ih (step6b f2a acc fr)
    obtain ⟨g1, g2⟩ := getVals_step6b_amounts f2a acc fr a x
    exact ⟨h1.trans g1, h2.trans g2⟩

/-- The accumulated `risk_total` of bucket `(a, x)` is exactly the OR of the
    contributing flags over the queried FarmRisk rows. -/
theorem riskAcc_risk_total (db : DB) (vA vX : List Oid) (a x : Oid) :
    (getVals (riskAcc db vA vX) a x).risk_total
      = (queriedFarmRisks db vA vX).any (contributes (farmToAdm3 db vX) a x) := by
  unfold riskAcc
  rw [getVals_fold6b_risk, getVals_fold6a_risk]
  simp [getVals_nil, vals0]

/-- A bucket touched by no Adm3Risk row and no contributing FarmRisk row keeps
    its zero/False defaults. -/
theorem riskAcc_defaults (db : DB) (vA vX : List Oid) (a x : Oid)
    (h6a : ∀ r ∈ db.adm3risks, ¬ (r.analysis_id = a ∧ r.adm3_id = x))
    (h6b : ∀ fr ∈ db.farmrisks, contributes (farmToAdm3 db vX) a x fr = false) :
    getVals (riskAcc db vA vX) a x = vals0 := by
  have hrt := riskAcc_risk_total db vA vX a x
  have hany : (queriedFarmRisks db vA vX).any (contributes (farmToAdm3 db vX) a x) = false := by
    rw [List.any_eq_false]
    intro fr hfr
    have hmem : fr ∈ db.farmrisks := by
      unfold queriedFarmRisks at hfr
      by_cases he : (farmToAdm3 db vX).isEmpty
      · simp [he] at hfr
      · simp only [he, if_neg, Bool.false_eq_true] at hfr
        · exact List.mem_of_mem_filter hfr
    simp [h6b fr hmem]
  unfold riskAcc at hrt ⊢
  obtain ⟨hfa, hdh⟩ := getVals_fold6b_amounts (farmToAdm3 db vX)
    (queriedFarmRisks db vA vX) ((queriedAdm3Risks db vA vX).foldl step6a []) a x
  have h6a' : getVals ((queriedAdm3Risks db vA vX).foldl step6a []) a x = getVals [] a x := by
    refine getVals_fold6a_of_notmatch _ _ _ _ (fun r hr => ?_)
    exact h6a r (List.mem_of_mem_filter hr)
  rw [hany] at hrt
  cases hv : getVals ((queriedFarmRisks db vA vX).foldl (step6b (farmToAdm3 db vX))
      ((queriedAdm3Risks db vA vX).foldl step6a [])) a x with
  | mk rt fa dh =>
    rw [hv] at hrt hfa hdh
    simp only at hrt hfa hdh
    rw [h6a'] at hfa hdh
    simp [getVals_nil, vals0] at hfa hdh
    simp [vals0, hrt, hfa, hdh]

end ByAnalysis

/-- Pointwise-equal predicates give equal `any`. -/
theorem any_congrList (l : List α) (p q : α → Bool) (h : ∀ a ∈ l, p a = q a) :
    l.any p = l.any q := by
  induction l with
  | nil => rfl
  | cons x rest ih =>
    simp only [List.any_cons]
    rw [h x (List.mem_cons_self x rest), ih (fun a ha => h a (List.mem_cons_of_mem x ha))]

theorem alookup_isSome_mem_akeys [DecidableEq κ] (m : List (κ × α)) (k : κ) (v : α)
    (h : alookup m k = some v) : k ∈ akeys m := by
  by_contra hk
  rw [(alookup_eq_none_iff m k).mpr hk] at h
  cases h

theorem contains_iff_memL [BEq α] [LawfulBEq α] (l : List α) (a : α) :
    l.contains a = true ↔ a ∈ l :=
  List.elem_iff

theorem alookup_mem [DecidableEq κ] (m : List (κ × α)) (k : κ) (v : α)
    (h : alookup m k = some v) : (k, v) ∈ m := by
  induction m with
  | nil => cases h
  | cons p rest ih =>
    by_cases hp : p.1 = k
    · simp [alookup, hp] at h
      subst hp
      rw [← h]
      exact List.mem_cons_self p rest
    · simp [alookup, hp] at h
      exact List.mem_cons_of_mem p (ih h)

namespace ByAnalysis

/-- Restricting the OR to the queried FarmRisk rows loses nothing: a
    contributing row always passes the query's filters. -/
theorem queried_any_contributes (db : DB) (vA vX : List Oid) (a x : Oid)
    (ha : a ∈ vA) :
    (queriedFarmRisks db vA vX).any (contributes (farmToAdm3 db vX) a x)
      = db.farmrisks.any (contributes (farmToAdm3 db vX) a x) := by
  unfold queriedFarmRisks
  by_cases hemp : (farmToAdm3 db vX).isEmpty
  · have h2a : farmToAdm3 db vX = [] := by
      cases hf : farmToAdm3 db vX with
      | nil => rfl
      | cons p rest => rw [hf] at hemp; simp [List.isEmpty] at hemp
    rw [if_pos hemp]
    rw [List.any_nil, Eq.comm, List.any_eq_false]
    intro fr _
    simp [contributes, h2a, alookup]
  · rw [if_neg hemp, List.any_filter]
    refine any_congrList _ _ _ (fun fr _ => ?_)
    by_cases hc : contributes (farmToAdm3 db vX) a x fr = true
    · have hlk : ∃ x', alookup (farmToAdm3 db vX) fr.farm_id = some x' := by
        simp only [contributes, Bool.and_eq_true, decide_eq_true_eq] at hc
        exact ⟨x, hc.1.1⟩
      obtain ⟨x', hx'⟩ := hlk
      have hmemk : fr.farm_id ∈ akeys (farmToAdm3 db vX) :=
        alookup_isSome_mem_akeys _ _ _ hx'
      have han : fr.analysis_id = a := by
        simp only [contributes, Bool.and_eq_true, decide_eq_true_eq] at hc
        exact hc.1.2
      have hc1 : ((farmToAdm3 db vX).map (·.1)).dedup.contains fr.farm_id = true := by
        rw [contains_iff_memL, List.mem_dedup]
        exact hmemk
      have hc2 : vA.contains fr.analysis_id = true := by
        rw [contains_iff_memL, han]
        exact ha
      rw [hc, hc1, hc2]
      rfl
    · simp only [Bool.not_eq_true] at hc
      simp [hc]

/-- Under unique farm ids, `farm_to_adm3` answers exactly "some farm with
    this id has this adm3 reference" (for a requested adm3). -/
theorem farmToAdm3_lookup_spec (db : DB) (vX : List Oid) (fid x : Oid)
    (hnd : (db.farms.map (·.id)).Nodup) (hx : x ∈ vX) :
    alookup (farmToAdm3 db vX) fid = some x
      ↔ ∃ f ∈ db.farms, f.id = fid ∧ f.adm3_id = some x := by
  have hc' : alookup (farmToAdm3 db vX) fid =
      ((farmsOfAdm3 db vX).reverse.find?
          (fun f => decide (f.id = fid) && (f.adm3_id).isSome)).elim
        (alookup ([] : List (Oid × Oid)) fid) (fun f => f.adm3_id) := by
    unfold farmToAdm3
    exact alookup_foldl_ainsert_opt_sem
      (fun m (f : FarmDoc) =>
        match f.adm3_id with
        | some x => ainsert m f.id x
        | none => m)
      (fun f => f.id) (fun f => f.adm3_id)
      (fun m r v h => by simp only [h]) (fun m r h => by simp only [h])
      (farmsOfAdm3 db vX) [] fid
  constructor
  · intro h
    rw [hc'] at h
    cases hfind : (farmsOfAdm3 db vX).reverse.find?
        (fun f => decide (f.id = fid) && (f.adm3_id).isSome) with
    | none => rw [hfind] at h; cases h
    | some f =>
      rw [hfind] at h
      have hp := List.find?_some hfind
      simp only [Bool.and_eq_true, decide_eq_true_eq] at hp
      have hmem : f ∈ db.farms := by
        have := List.mem_of_find?_eq_some hfind
        rw [List.mem_reverse] at this
        exact List.mem_of_mem_filter this
      exact ⟨f, hmem, hp.1, h⟩
  · rintro ⟨f, hf, hid, hadm⟩
    have hmemX : f ∈ farmsOfAdm3 db vX := by
      unfold farmsOfAdm3
      rw [List.mem_filter]
      refine ⟨hf, ?_⟩
      rw [hadm]
      simpa [contains_iff_memL] using hx
    have hfindSome : ((farmsOfAdm3 db vX).reverse.find?
        (fun f => decide (f.id = fid) && (f.adm3_id).isSome)).isSome := by
      rw [List.find?_isSome]
      refine ⟨f, List.mem_reverse.mpr hmemX, ?_⟩
      simp [hid, hadm]
    obtain ⟨f', hf'⟩ := Option.isSome_iff_exists.mp hfindSome
    have hp := List.find?_some hf'
    simp only [Bool.and_eq_true, decide_eq_true_eq] at hp
    have hmem' : f' ∈ db.farms := by
      have := List.mem_of_find?_eq_some hf'
      rw [List.mem_reverse] at this
      exact List.mem_of_mem_filter this
    have hff : f' = f := List.inj_on_of_nodup_map hnd hmem' hf (hp.1.trans hid.symm)
    rw [hc', hf', hff]
    simp [hadm]

end ByAnalysis

/- Fold-of-append lemmas for the "append entries to each bucket" loops. -/

theorem alookup_foldl_aupdate_isSome [DecidableEq κ]
    (step : List (κ × α) → ι → List (κ × α)) (key : ι → κ) (f : ι → α → α)
    (hstep : ∀ m r, step m r = aupdate m (key r) (f r))
    (rows : List ι) (m0 : List (κ × α)) (k : κ)
    (h : (alookup m0 k).isSome) : (alookup (rows.foldl step m0) k).isSome := by
  induction rows generalizing m0 with
  | nil => simpa using h
  | cons r rest ih =>
    simp only [List.foldl_cons]
    refine ih (step m0 r) ?_
    rw [hstep m0 r]
    by_cases hk : k = key r
    · subst hk
      rw [alookup_aupdate_self]
      simpa using h
    · rw [alookup_aupdate_ne _ _ _ _ hk]
      exact h

theorem alookup_foldl_append_mem_preserved {E : Type} [DecidableEq κ]
    (step : List (κ × List E) → ι → List (κ × List E)) (key : ι → κ) (news : ι → List E)
    (hstep : ∀ m r, step m r = aupdate m (key r) (fun l => l ++ news r))
    (e : E) (rows : List ι) (m0 : List (κ × List E)) (k : κ) (l : List E)
    (h : alookup m0 k = some l) (he : e ∈ l) :
    ∃ l2, alookup (rows.foldl step m0) k = some l2 ∧ e ∈ l2 := by
  induction rows generalizing m0 l with
  | nil => exact ⟨l, by simpa using h, he⟩
  | cons r rest ih =>
    simp only [List.foldl_cons]
    by_cases hk : k = key r
    · subst hk
      refine ih (step m0 r) (l ++ news r) ?_ (List.mem_append_left _ he)
      rw [hstep m0 r, alookup_aupdate_self, h]
      rfl
    · refine ih (step m0 r) l ?_ he
      rw [hstep m0 r, alookup_aupdate_ne _ _ _ _ hk]
      exact h

/-- The bucket of some row's key eventually contains each of that row's new
    entries. -/
theorem alookup_foldl_append_mem {E : Type} [DecidableEq κ]
    (step : List (κ × List E) → ι → List (κ × List E)) (key : ι → κ) (news : ι → List E)
    (hstep : ∀ m r, step m r = aupdate m (key r) (fun l => l ++ news r))
    (rows : List ι) (m0 : List (κ × List E)) (a : ι) (ha : a ∈ rows)
    (l0 : List E) (h0 : alookup m0 (key a) = some l0)
    (e : E) (he : e ∈ news a) :
    ∃ l2, alookup (rows.foldl step m0) (key a) = some l2 ∧ e ∈ l2 := by
  induction rows generalizing m0 l0 with
  | nil => cases ha
  | cons r rest ih =>
    simp only [List.foldl_cons]
    by_cases hra : r = a
    · subst hra
      have h1 : alookup (step m0 r) (key r) = some (l0 ++ news r) := by
        rw [hstep m0 r, alookup_aupdate_self, h0]
        rfl
      exact alookup_foldl_append_mem_preserved step key news hstep e rest
        (step m0 r) (key r) (l0 ++ news r) h1 (List.mem_append_right _ he)
    · have ha' : a ∈ rest := by
        rcases List.mem_cons.mp ha with h | h
        · exact absurd h.symm hra
        · exact h
      by_cases hk : key a = key r
      · have h1 : alookup (step m0 r) (key a) = some (l0 ++ news r) := by
          rw [hstep m0 r, hk, alookup_aupdate_self, ← hk, h0]
          rfl
        exact ih (step m0 r) ha' (l0 ++ news r) h1
      · have h1 : alookup (step m0 r) (key a) = some l0 := by
          rw [hstep m0 r, alookup_aupdate_ne _ _ _ _ hk]
          exact h0
        exact ih (step m0 r) ha' l0 h1

/-- Every entry of every final bucket satisfies `P` when the initial buckets
    and all appended entry blocks do. -/
theorem alookup_foldl_append_allP {E : Type} [DecidableEq κ]
    (step : List (κ × List E) → ι → List (κ × List E)) (key : ι → κ) (news : ι → List E)
    (hstep : ∀ m r, step m r = aupdate m (key r) (fun l => l ++ news r))
    (P : E → Prop) (rows : List ι) (m0 : List (κ × List E))
    (h0 : ∀ k l, alookup m0 k = some l → ∀ e ∈ l, P e)
    (hnews : ∀ r ∈ rows, ∀ e ∈ news r, P e) :
    ∀ k l, alookup (rows.foldl step m0) k = some l → ∀ e ∈ l, P e := by
  induction rows generalizing m0 with
  | nil => simpa using h0
  | cons r rest ih =>
    simp only [List.foldl_cons]
    refine ih (step m0 r) ?_ (fun q hq => hnews q (List.mem_cons_of_mem r hq))
    intro k l hl e hel
    rw [hstep m0 r] at hl
    by_cases hk : k = key r
    · subst hk
      rw [alookup_aupdate_self] at hl
      cases h00 : alookup m0 (key r) with
      | none => rw [h00] at hl; cases hl
      | some l0 =>
        rw [h00] at hl
        have hl2 : l0 ++ news r = l := by simpa using hl
        rw [← hl2] at hel
        rcases List.mem_append.mp hel with h | h
        · exact h0 (key r) l0 h00 e h
        · exact hnews r (List.mem_cons_self r rest) e h
    · rw [alookup_aupdate_ne _ _ _ _ hk] at hl
      exact h0 k l hl e hel

theorem except_ok_bind (a : α) (f : α → Except ε β) : (Except.ok a >>= f) = f a := rfl

theorem except_pure_eq_ok (a : α) : (pure a : Except ε α) = Except.ok a := rfl

namespace ByAnalysis

theorem get_adm3risk_filtered_eq (db : DB) (data : Adm3RiskFilterRequest)
    (validA validX : List Oid)
    (h1 : data.analysis_ids ≠ []) (h2 : data.adm3_ids ≠ [])
    (hvA : validate_ids "analysis_id" data.analysis_ids = .ok validA)
    (hvX : validate_ids "adm3_id" data.adm3_ids = .ok validX)
    (hanal : filteredAnalyses db validA ≠ []) :
    get_adm3risk_filtered db data =
      .ok ((filteredAnalyses db validA).foldl (fun g a =>
        aupdate g a.id (fun l => l ++ entriesFor db validA validX a))
        (validA.foldl (fun m aid => ainsert m aid []) [])) := by
  have e1 : data.analysis_ids.isEmpty = false := by
    cases h : data.analysis_ids with
    | nil => exact absurd h h1
    | cons a l => rfl
  have e2 : data.adm3_ids.isEmpty = false := by
    cases h : data.adm3_ids with
    | nil => exact absurd h h2
    | cons a l => rfl
  have e3 : (filteredAnalyses db validA).isEmpty = false := by
    cases h : filteredAnalyses db validA with
    | nil => exact absurd h hanal
    | cons a l => rfl
  unfold get_adm3risk_filtered
  rw [hvA, hvX]
  simp [e1, e2, e3, except_ok_bind, except_pure_eq_ok, hanal]

theorem grouped0_lookup (validA : List Oid) (aid : Oid) (h : aid ∈ validA) :
    alookup (validA.foldl (fun m a => ainsert m a ([] : List FilteredEntry)) []) aid
      = some [] := by
  have hc := alookup_foldl_ainsert_of_step
    (fun m (a : Oid) => ainsert m a ([] : List FilteredEntry))
    (fun a => a) (fun _ => []) (fun m r => rfl) validA [] aid
  rw [hc]
  have hfind : (validA.reverse.find? (fun r => decide (r = aid))).isSome := by
    rw [List.find?_isSome]
    exact ⟨aid, List.mem_reverse.mpr h, by simp⟩
  obtain ⟨r, hr⟩ := Option.isSome_iff_exists.mp hfind
  rw [hr]
  rfl

end ByAnalysis

namespace RiskGlobal

theorem get_risk_eq_adm3 (db : DB) (payload : GlobalRequest) (oids : List Oid)
    (prs : List (Oid × (Option String × Option String)) × List (Oid × Oid))
    (hty : payload.entity_type = .adm3)
    (hval : validate_object_ids payload.ids = .ok oids)
    (hper : get_periods_and_analyses db payload = .ok prs) :
    get_risk_by_ids_and_type db payload = .ok (.adm3 (processAdm3 db oids prs.1 prs.2)) := by
  unfold get_risk_by_ids_and_type
  rw [hval, hper]
  simp [hty, except_ok_bind, except_pure_eq_ok]

theorem get_risk_eq_farm (db : DB) (payload : GlobalRequest) (oids : List Oid)
    (prs : List (Oid × (Option String × Option String)) × List (Oid × Oid))
    (hty : payload.entity_type = .farm)
    (hval : validate_object_ids payload.ids = .ok oids)
    (hper : get_periods_and_analyses db payload = .ok prs) :
    get_risk_by_ids_and_type db payload = .ok (.farm (processFarm db oids prs.1 prs.2)) := by
  unfold get_risk_by_ids_and_type
  rw [hval, hper]
  simp [hty, except_ok_bind, except_pure_eq_ok]

theorem get_risk_eq_enterprise (db : DB) (payload : GlobalRequest) (oids : List Oid)
    (prs : List (Oid × (Option String × Option String)) × List (Oid × Oid))
    (hty : payload.entity_type = .enterprise)
    (hval : validate_object_ids payload.ids = .ok oids)
    (hper : get_periods_and_analyses db payload = .ok prs) :
    get_risk_by_ids_and_type db payload
      = .ok (.enterprise (processEnterprise db oids prs.1 prs.2)) := by
  unfold get_risk_by_ids_and_type
  rw [hval, hper]
  simp [hty, except_ok_bind, except_pure_eq_ok]

theorem adm3Grouped0_shape (db : DB) (validIds : List Oid) (oid : String)
    (b : Adm3Bucket) (h : alookup (adm3Grouped0 db validIds) oid = some b) :
    b.adm3_id = oid ∧ b.items = [] := by
  have hc := alookup_foldl_ainsert_of_step
    (fun g (d : Adm3Doc) =>
      let dm := split_label_3 d.label
      ainsert g d.id (⟨d.id, some ⟨d.name, dm.1, dm.2.1⟩, []⟩ : Adm3Bucket))
    (fun d => d.id)
    (fun d => (⟨d.id, some ⟨d.name, (split_label_3 d.label).1,
      (split_label_3 d.label).2.1⟩, []⟩ : Adm3Bucket))
    (fun m r => rfl)
    (db.adm3s.filter (fun d => validIds.contains d.id)) [] oid
  have h2 := hc.symm.trans h
  cases hfind : (db.adm3s.filter (fun d => validIds.contains d.id)).reverse.find?
      (fun d => decide (d.id = oid)) with
  | none => rw [hfind] at h2; cases h2
  | some d =>
    rw [hfind] at h2
    have hp := List.find?_some hfind
    simp only [decide_eq_true_eq] at hp
    simp only [Option.elim] at h2
    cases h2
    exact ⟨hp, rfl⟩

theorem existingAdm3RiskMap_none (db : DB) (validIds : List Oid)
    (a2d : List (Oid × Oid)) (oid aid : String)
    (h : ∀ r ∈ db.adm3risks, ¬ (r.adm3_id = oid ∧ r.analysis_id = aid)) :
    alookup (existingAdm3RiskMap db validIds a2d) (oid, aid) = none := by
  have hc := alookup_foldl_ainsert_of_step
    (fun m (r : Adm3RiskDoc) => ainsert m (r.adm3_id, r.analysis_id) r)
    (fun r => ((r.adm3_id, r.analysis_id) : String × String))
    (fun r => r) (fun m r => rfl)
    (db.adm3risks.filter (fun r =>
      (a2d.map (·.1)).contains r.analysis_id && validIds.contains r.adm3_id))
    [] (oid, aid)
  refine Eq.trans hc ?_
  have hfind : ((db.adm3risks.filter (fun r =>
      (a2d.map (·.1)).contains r.analysis_id && validIds.contains r.adm3_id)).reverse.find?
      (fun r => decide ((r.adm3_id, r.analysis_id) = (oid, aid)))) = none := by
    rw [List.find?_eq_none]
    intro r hr
    have hmem : r ∈ db.adm3risks :=
      List.mem_of_mem_filter (List.mem_reverse.mp hr)
    simp only [decide_eq_true_eq, Prod.mk.injEq]
    exact h r hmem
  rw [hfind]
  rfl

theorem processAdm3_bucket (db : DB) (validIds : List Oid)
    (periods : List (Oid × (Option String × Option String)))
    (a2d : List (Oid × Oid))
    (hne : (periods.isEmpty || a2d.isEmpty) = false)
    (hnd : validIds.Nodup) (oid : Oid) (hmem : oid ∈ validIds) :
    ∃ b, alookup (processAdm3 db validIds periods a2d) oid = some b ∧
      b.adm3_id = oid ∧
      b.items = (a2d.map (mkAdm3Item periods (existingAdm3RiskMap db validIds a2d)
        (analysisSitCache db validIds a2d) oid)).reverse := by
  unfold processAdm3
  rw [if_neg (by simp [hne])]
  have hself : ∀ g k, alookup (adm3AddItems periods a2d
      (existingAdm3RiskMap db validIds a2d) (analysisSitCache db validIds a2d) g k) k
      = some (
        let b0 := (alookup g k).getD ⟨k, none, []⟩
        { b0 with items := (b0.items ++ a2d.map (mkAdm3Item periods
            (existingAdm3RiskMap db validIds a2d)
            (analysisSitCache db validIds a2d) k)).reverse }) := by
    intro g k
    unfold adm3AddItems
    rw [alookup_aupdate_self, alookup_asetdefault_self]
    rfl
  have hother : ∀ g k k', k ≠ k' → alookup (adm3AddItems periods a2d
      (existingAdm3RiskMap db validIds a2d) (analysisSitCache db validIds a2d) g k) k'
      = alookup g k' := by
    intro g k k' hk
    unfold adm3AddItems
    rw [alookup_aupdate_ne _ _ _ _ (fun hh => hk hh.symm),
      alookup_asetdefault_ne _ _ _ _ (fun hh => hk hh.symm)]
  have hmain := alookup_foldl_selfkey
    (adm3AddItems periods a2d (existingAdm3RiskMap db validIds a2d)
      (analysisSitCache db validIds a2d))
    (fun k b? =>
      let b0 := b?.getD ⟨k, none, []⟩
      { b0 with items := (b0.items ++ a2d.map (mkAdm3Item periods
          (existingAdm3RiskMap db validIds a2d)
          (analysisSitCache db validIds a2d) k)).reverse })
    hself hother validIds hnd oid hmem (adm3Grouped0 db validIds)
  refine ⟨_, hmain, ?_, ?_⟩
  · cases h0 : alookup (adm3Grouped0 db validIds) oid with
    | none => simp
    | some b0 =>
      obtain ⟨ha, _⟩ := adm3Grouped0_shape db validIds oid b0 h0
      simpa using ha
  · cases h0 : alookup (adm3Grouped0 db validIds) oid with
    | none => simp
    | some b0 =>
      obtain ⟨_, hi⟩ := adm3Grouped0_shape db validIds oid b0 h0
      simp [hi]

end RiskGlobal

/- ----------------------------------------------------------------
   C10 — build_search_query.
   ---------------------------------------------------------------- -/

theorem literalChars_reEscapeChars (l : List Char) :
    literalChars (reEscapeChars l) = some l := by
  induction l with
  | nil => rfl
  | cons c cs ih =>
    by_cases hc : c ∈ reSpecialChars
    · rw [reEscapeChars, if_pos hc, literalChars.eq_def]
      simp [ih]
    · have hbs : ¬ (c = '\\') := by
        intro h
        exact hc (by rw [h]; decide)
      rw [reEscapeChars, if_neg hc, literalChars.eq_def]
      simp [hbs, hc, ih]

theorem re_escape_data (s : String) : (re_escape s).data = reEscapeChars s.data := rfl

theorem re_escape_injective (s1 s2 : String) (h : re_escape s1 = re_escape s2) :
    s1 = s2 := by
  have h1 : literalChars (reEscapeChars s1.data) = some s1.data :=
    literalChars_reEscapeChars s1.data
  have h2 : literalChars (reEscapeChars s2.data) = some s2.data :=
    literalChars_reEscapeChars s2.data
  have hdata : reEscapeChars s1.data = reEscapeChars s2.data := by
    have := congrArg String.data h
    simpa [re_escape_data] using this
  rw [hdata, h2] at h1
  cases s1 with
  | mk d1 =>
    cases s2 with
    | mk d2 =>
      injection h1 with h3
      exact congrArg String.mk h3.symm

theorem flatMap_map_length {α β : Type} (l : List α) (fields : List β)
    (g : α → β → RegexClause) :
    (l.flatMap (fun t => fields.map (g t))).length = l.length * fields.length := by
  induction l with
  | nil => simp
  | cons t rest ih =>
    simp [List.flatMap_cons, ih, Nat.succ_mul, Nat.add_comm]

theorem filter_eq_self_length_one (fields : List String) (f : String)
    (hnd : fields.Nodup) (hf : f ∈ fields) :
    (fields.filter (fun x => x = f)).length = 1 := by
  induction fields with
  | nil => cases hf
  | cons g rest ih =>
    rcases List.mem_cons.mp hf with h | h
    · have hnot : f ∉ rest := by
        rw [h]
        exact (List.nodup_cons.mp hnd).1
      have hzero : (rest.filter (fun x => x = f)).length = 0 := by
        rw [List.length_eq_zero, List.filter_eq_nil_iff]
        intro x hx
        simp only [decide_eq_true_eq]
        intro hxf
        exact hnot (hxf ▸ hx)
      have hgf : decide (g = f) = true := by simp [h.symm]
      simp [List.filter_cons, hgf, hzero]
    · have hne : decide (g = f) = false := by
        simp only [decide_eq_false_iff_not]
        intro hgf
        exact (List.nodup_cons.mp hnd).1 (hgf ▸ h)
      simp [List.filter_cons, hne, ih (List.nodup_cons.mp hnd).2 h]

theorem block_filter_length (fields : List String) (f s s' : String)
    (hnd : fields.Nodup) (hf : f ∈ fields) :
    ((fields.map (fun fl => (⟨fl, s, "i"⟩ : RegexClause))).filter
      (fun c => c.field = f && c.regex = s')).length
        = if s = s' then 1 else 0 := by
  induction fields with
  | nil => exact absurd hf (List.not_mem_nil f)
  | cons g rest ih =>
    by_cases hs : s = s'
    · subst hs
      rcases List.mem_cons.mp hf with h | h
      · have hnot : f ∉ rest := by
          rw [h]
          exact (List.nodup_cons.mp hnd).1
        have hzero : ((rest.map (fun fl => (⟨fl, s, "i"⟩ : RegexClause))).filter
            (fun c => c.field = f && c.regex = s)).length = 0 := by
          rw [List.length_eq_zero, List.filter_eq_nil_iff]
          intro c hc
          obtain ⟨fl, hfl, hcc⟩ := List.mem_map.mp hc
          subst hcc
          simp only [Bool.and_eq_true, decide_eq_true_eq, not_and]
          intro hflf _
          exact hnot (hflf ▸ hfl)
        have hg : g = f := h.symm
        simp [List.filter_cons, hg, hzero]
      · have hne : ¬ (g = f) := fun hgff => (List.nodup_cons.mp hnd).1 (hgff ▸ h)
        have hrest := ih (List.nodup_cons.mp hnd).2 h
        simp only [if_pos rfl] at hrest
        simp [List.filter_cons, hne, hrest]
    · have hzero : (((g :: rest).map (fun fl => (⟨fl, s, "i"⟩ : RegexClause))).filter
          (fun c => c.field = f && c.regex = s')).length = 0 := by
        rw [List.length_eq_zero, List.filter_eq_nil_iff]
        intro c hc
        obtain ⟨fl, _, hcc⟩ := List.mem_map.mp hc
        subst hcc
        simp only [Bool.and_eq_true, decide_eq_true_eq, not_and]
        intro _
        exact hs
      simp only [hzero, if_neg hs]

theorem bsq_count_aux (safes : List String) (fields : List String) (f s : String)
    (hnd : safes.Nodup) (hfieldnd : fields.Nodup) (hf : f ∈ fields) (hs : s ∈ safes) :
    ((safes.flatMap (fun term => fields.map (fun fl => (⟨fl, term, "i"⟩ : RegexClause)))).filter
      (fun c => c.field = f && c.regex = s)).length = 1 := by
  induction safes with
  | nil => cases hs
  | cons s0 rest ih =>
    simp only [List.flatMap_cons, List.filter_append, List.length_append]
    have hblock := block_filter_length fields f s0 s hfieldnd hf
    rcases List.mem_cons.mp hs with h | h
    · subst h
      have hnot : s ∉ rest := (List.nodup_cons.mp hnd).1
      have hzero : ((rest.flatMap (fun term => fields.map
          (fun fl => (⟨fl, term, "i"⟩ : RegexClause)))).filter
          (fun c => c.field = f && c.regex = s)).length = 0 := by
        rw [List.length_eq_zero, List.filter_eq_nil_iff]
        intro c hc
        obtain ⟨term, hterm, hcmem⟩ := List.mem_flatMap.mp hc
        obtain ⟨fl, _, hcc⟩ := List.mem_map.mp hcmem
        subst hcc
        simp only [Bool.and_eq_true, decide_eq_true_eq, not_and]
        intro _
        intro hts
        exact hnot (hts ▸ hterm)
      rw [hzero, hblock, if_pos rfl]
    · have hs0 : ¬ (s0 = s) := by
        intro h0
        exact (List.nodup_cons.mp hnd).1 (h0 ▸ h)
      rw [hblock, if_neg hs0, ih (List.nodup_cons.mp hnd).2 h]

/-- C10: `build_search_query` produces an `$or` with exactly one
    case-insensitive regex clause per (non-blank term, field) pair, every term
    regex-escaped so it denotes a pure literal-character pattern (its parsed
    literal content is exactly the stripped term), and blank terms dropped. -/
theorem build_search_query_spec (terms fields : List String) :
    (build_search_query terms fields).length
        = (terms.filter (fun t => pyStrip t != "")).length * fields.length
    ∧ (∀ c ∈ build_search_query terms fields,
        c.options = "i" ∧ c.field ∈ fields ∧
        ∃ t ∈ terms, pyStrip t ≠ "" ∧ c.regex = re_escape (pyStrip t) ∧
          literalChars c.regex.data = some (pyStrip t).data)
    ∧ (((terms.filter (fun t => pyStrip t != "")).map (fun t => pyStrip t)).Nodup →
        fields.Nodup →
        ∀ t ∈ terms, pyStrip t ≠ "" → ∀ f ∈ fields,
          ((build_search_query terms fields).filter
            (fun c => c.field = f && c.regex = re_escape (pyStrip t))).length = 1) := by
  refine ⟨?_, ?_, ?_⟩
  · unfold build_search_query
    rw [flatMap_map_length]
    simp
  · intro c hc
    unfold build_search_query at hc
    obtain ⟨term, hterm, hcmem⟩ := List.mem_flatMap.mp hc
    obtain ⟨fl, hfl, hcc⟩ := List.mem_map.mp hcmem
    obtain ⟨t, htmem, hesc⟩ := List.mem_map.mp hterm
    have htf := List.mem_filter.mp htmem
    subst hcc
    refine ⟨rfl, hfl, t, htf.1, ?_, ?_, ?_⟩
    · simpa using htf.2
    · exact hesc.symm
    · rw [← hesc, re_escape_data]
      exact literalChars_reEscapeChars (pyStrip t).data
  · intro hndterms hndfields t ht htne f hf
    unfold build_search_query
    refine bsq_count_aux _ fields f (re_escape (pyStrip t)) ?_ hndfields hf ?_
    · have : ((terms.filter (fun t => pyStrip t != "")).map (fun t => re_escape (pyStrip t)))
          = (((terms.filter (fun t => pyStrip t != "")).map (fun t => pyStrip t)).map re_escape) := by
        simp [List.map_map]
      rw [this]
      refine List.Nodup.map ?_ hndterms
      intro a b hab
      exact re_escape_injective a b hab
    · refine List.mem_map.mpr ⟨t, ?_, rfl⟩
      refine List.mem_filter.mpr ⟨ht, ?_⟩
      simpa using htne

/-- C10 witness. -/
theorem build_search_query_spec_witness :
    ((["a.c", " ", "b"].filter (fun t => pyStrip t != "")).map (fun t => pyStrip t)).Nodup
    ∧ (["name", "code"] : List String).Nodup
    ∧ pyStrip ("a.c" : String) ≠ ""
    ∧ ((build_search_query ["a.c", " ", "b"] ["name", "code"]).length
        = (["a.c", " ", "b"].filter (fun t => pyStrip t != "")).length * 2
      ∧ (∀ c ∈ build_search_query ["a.c", " ", "b"] ["name", "code"],
          c.options = "i" ∧ c.field ∈ ["name", "code"] ∧
          ∃ t ∈ ["a.c", " ", "b"], pyStrip t ≠ "" ∧ c.regex = re_escape (pyStrip t) ∧
            literalChars c.regex.data = some (pyStrip t).data)
      ∧ (((["a.c", " ", "b"].filter (fun t => pyStrip t != "")).map (fun t => pyStrip t)).Nodup →
          (["name", "code"] : List String).Nodup →
          ∀ t ∈ ["a.c", " ", "b"], pyStrip t ≠ "" → ∀ f ∈ ["name", "code"],
            ((build_search_query ["a.c", " ", "b"] ["name", "code"]).filter
              (fun c => c.field = f && c.regex = re_escape (pyStrip t))).length = 1)) :=
  ⟨by decide, by decide, by decide, build_search_query_spec ["a.c", " ", "b"] ["name", "code"]⟩

/- ----------------------------------------------------------------
   C8 — pagination metadata.
   ---------------------------------------------------------------- -/

/-- C8: pagination metadata of `build_paginated_response`:
    `total_pages` is the ceiling of `total / limit` (stated both as the ℕ
    ceiling division and by its Galois characterisation), `has_next` is
    `skip + limit < total`, `skip` defaults to `(page - 1) * limit`, an
    explicit `skip` overrides `page` and reports `page = skip / limit + 1`,
    and at most `limit` results are returned. -/
theorem build_paginated_response_spec {α β : Type} (docs : List α) (serialize : α → β)
    (page limit : Nat) (skip : Option Nat) (hl : 1 ≤ limit) (_hp : 1 ≤ page) :
    (build_paginated_response docs serialize page limit skip).total = docs.length
    ∧ (build_paginated_response docs serialize page limit skip).total_pages
        = docs.length ⌈/⌉ limit
    ∧ docs.length ≤ limit * (build_paginated_response docs serialize page limit skip).total_pages
    ∧ (∀ m : Nat, docs.length ≤ limit * m →
        (build_paginated_response docs serialize page limit skip).total_pages ≤ m)
    ∧ (build_paginated_response docs serialize page limit skip).has_next
        = decide ((build_paginated_response docs serialize page limit skip).skip + limit
            < docs.length)
    ∧ (skip = none →
        (build_paginated_response docs serialize page limit skip).skip = (page - 1) * limit
        ∧ (build_paginated_response docs serialize page limit skip).page = page)
    ∧ (∀ s, skip = some s →
        (build_paginated_response docs serialize page limit skip).skip = s
        ∧ (build_paginated_response docs serialize page limit skip).page = s / limit + 1)
    ∧ (build_paginated_response docs serialize page limit skip).results.length ≤ limit
    ∧ (build_paginated_response docs serialize page limit skip).results.length
        = min limit (docs.length
            - (build_paginated_response docs serialize page limit skip).skip) := by
  have hl0 : 0 < limit := hl
  refine ⟨rfl, rfl, ?_, ?_, ?_, ?_, ?_, ?_, ?_⟩
  · have h : docs.length ≤ limit • (docs.length ⌈/⌉ limit) := le_smul_ceilDiv hl0
    simpa [smul_eq_mul] using h
  · intro m hm
    have h : docs.length ⌈/⌉ limit ≤ m := by
      rw [ceilDiv_le_iff_le_mul hl0]
      simpa [smul_eq_mul, Nat.mul_comm] using hm
    exact h
  · rfl
  · intro hsk
    subst hsk
    exact ⟨rfl, rfl⟩
  · intro s hsk
    subst hsk
    exact ⟨rfl, rfl⟩
  · simp [build_paginated_response]
  · simp [build_paginated_response, Nat.min_comm]

/-- C8 witness: page 2, limit 10, 25 records — `total=25`, `total_pages=3`,
    `has_next`, `skip=10`, exactly 10 results. -/
theorem build_paginated_response_spec_witness :
    (1 ≤ 10 ∧ 1 ≤ 2
    ∧ ((build_paginated_response (List.range 25) id 2 10 none).total = (List.range 25).length
      ∧ (build_paginated_response (List.range 25) id 2 10 none).total_pages
          = (List.range 25).length ⌈/⌉ 10
      ∧ (List.range 25).length
          ≤ 10 * (build_paginated_response (List.range 25) id 2 10 none).total_pages
      ∧ (∀ m : Nat, (List.range 25).length ≤ 10 * m →
          (build_paginated_response (List.range 25) id 2 10 none).total_pages ≤ m)
      ∧ (build_paginated_response (List.range 25) id 2 10 none).has_next
          = decide ((build_paginated_response (List.range 25) id 2 10 none).skip + 10
              < (List.range 25).length)
      ∧ ((none : Option Nat) = none →
          (build_paginated_response (List.range 25) id 2 10 none).skip = (2 - 1) * 10
          ∧ (build_paginated_response (List.range 25) id 2 10 none).page = 2)
      ∧ (∀ s, (none : Option Nat) = some s →
          (build_paginated_response (List.range 25) id 2 10 none).skip = s
          ∧ (build_paginated_response (List.range 25) id 2 10 none).page = s / 10 + 1)
      ∧ (build_paginated_response (List.range 25) id 2 10 none).results.length ≤ 10
      ∧ (build_paginated_response (List.range 25) id 2 10 none).results.length
          = min 10 ((List.range 25).length
              - (build_paginated_response (List.range 25) id 2 10 none).skip)))
    ∧ (build_paginated_response (List.range 25) id 2 10 none).total = 25
    ∧ (build_paginated_response (List.range 25) id 2 10 none).total_pages = 3
    ∧ (build_paginated_response (List.range 25) id 2 10 none).has_next = true
    ∧ (build_paginated_response (List.range 25) id 2 10 none).skip = 10
    ∧ (build_paginated_response (List.range 25) id 2 10 none).results.length = 10 :=
  ⟨⟨by decide, by decide, build_paginated_response_spec (List.range 25) id 2 10 none
      (by decide) (by decide)⟩,
   by decide, by decide, by decide, by decide, by decide⟩

/- ----------------------------------------------------------------
   C7 — id validation at the boundary.
   ---------------------------------------------------------------- -/

theorem except_error_bind (e : ε) (f : α → Except ε β) :
    (Except.error e >>= f) = Except.error e := rfl

theorem validate_object_ids_go_error (l1 : List String) (raw : String) (l2 : List String)
    (hok : ∀ x ∈ l1, (as_object_id x).isSome) (hbad : as_object_id raw = none) :
    RiskGlobal.validate_object_ids_go (l1 ++ raw :: l2)
      = .error ⟨400, "Invalid ObjectId: " ++ raw⟩ := by
  induction l1 with
  | nil =>
    simp only [List.nil_append, RiskGlobal.validate_object_ids_go, hbad]
  | cons x rest ih =>
    have hx : (as_object_id x).isSome := hok x (List.mem_cons_self x rest)
    obtain ⟨v, hv⟩ := Option.isSome_iff_exists.mp hx
    have ih2 := ih (fun y hy => hok y (List.mem_cons_of_mem x hy))
    simp only [List.cons_append, RiskGlobal.validate_object_ids_go, hv, List.append_eq]
    rw [ih2]
    rfl

theorem validate_oids_go_ok (label : String) (ids : List String) (seen : List String)
    (hok : ∀ x ∈ ids, oid_is_valid x) :
    EnterpriseRiskRoute.validate_oids_go label seen ids
      = .ok ((uniqGo seen ids).map oidCanonical) := by
  induction ids generalizing seen with
  | nil => rfl
  | cons x rest ih =>
    have hx : oid_is_valid x := hok x (List.mem_cons_self x rest)
    by_cases hseen : seen.contains x
    · simp only [EnterpriseRiskRoute.validate_oids_go, hx, Bool.not_true, uniqGo, hseen,
        if_pos, Bool.false_eq_true, if_neg,
        ih seen (fun y hy => hok y (List.mem_cons_of_mem x hy))]
      rfl
    · simp only [EnterpriseRiskRoute.validate_oids_go, hx, uniqGo, hseen,
        ih (x :: seen) (fun y hy => hok y (List.mem_cons_of_mem x hy))]
      rfl

/-- C7 (amended): ids are validated at the boundary — the count cap (500)
    and any malformed id are rejected with a 400 naming the offending value,
    a single bad id fails the whole request before any store access (the
    result does not depend on the database), and the enterprise-risk route's
    `_validate_oids` additionally de-duplicates on the submitted strings
    (first occurrence kept); `_validate_object_ids` of /risk/by-ids-and-type
    does NOT de-duplicate. -/
theorem validate_ids_boundary :
    (∀ ids : List String, ids.length > 500 →
      RiskGlobal.validate_object_ids ids = .error ⟨400, "Too many ids (max 500)"⟩)
    ∧ (∀ l1 raw l2, (l1 ++ raw :: l2).length ≤ 500 →
        (∀ x ∈ l1, (as_object_id x).isSome) → as_object_id raw = none →
        RiskGlobal.validate_object_ids (l1 ++ raw :: l2)
          = .error ⟨400, "Invalid ObjectId: " ++ raw⟩)
    ∧ (∀ (db : DB) (payload : RiskGlobal.GlobalRequest) e,
        RiskGlobal.validate_object_ids payload.ids = .error e →
        RiskGlobal.get_risk_by_ids_and_type db payload = .error e)
    ∧ (∀ ids label, ids.length ≤ 500 → (∀ x ∈ ids, oid_is_valid x) →
        EnterpriseRiskRoute.validate_oids ids label = .ok ((uniq ids).map oidCanonical))
    ∧ (∀ ids label, ids.length > 500 →
        EnterpriseRiskRoute.validate_oids ids label
          = .error ⟨400, "'" ++ label ++ "' excede "
              ++ toString EnterpriseRiskRoute.MAX_IDS ++ " IDs"⟩) := by
  refine ⟨?_, ?_, ?_, ?_, ?_⟩
  · intro ids hlen
    unfold RiskGlobal.validate_object_ids RiskGlobal.MAX_IDS
    rw [if_pos hlen]
  · intro l1 raw l2 hlen hok hbad
    unfold RiskGlobal.validate_object_ids RiskGlobal.MAX_IDS
    rw [if_neg (by omega), validate_object_ids_go_error l1 raw l2 hok hbad]
  · intro db payload e hval
    unfold RiskGlobal.get_risk_by_ids_and_type
    rw [hval]
    rfl
  · intro ids label hlen hok
    unfold EnterpriseRiskRoute.validate_oids EnterpriseRiskRoute.MAX_IDS
    rw [if_neg (by omega)]
    exact validate_oids_go_ok label ids [] hok
  · intro ids label hlen
    unfold EnterpriseRiskRoute.validate_oids EnterpriseRiskRoute.MAX_IDS
    rw [if_pos hlen]

/-- C7 counterexample: `/risk/by-ids-and-type` does not de-duplicate the
    submitted id list before using it, contradicting "validated and
    de-duplicated before any store lookup". -/
theorem validate_ids_boundary_counterexample :
    RiskGlobal.validate_object_ids
        ["aaaaaaaaaaaaaaaaaaaaaaaa", "aaaaaaaaaaaaaaaaaaaaaaaa"]
      = .ok ["aaaaaaaaaaaaaaaaaaaaaaaa", "aaaaaaaaaaaaaaaaaaaaaaaa"]
    ∧ ¬ (["aaaaaaaaaaaaaaaaaaaaaaaa",
          "aaaaaaaaaaaaaaaaaaaaaaaa"] : List String).Nodup :=
  ⟨rfl, by decide⟩

def emptyDB : DB := ⟨[], [], [], [], [], [], [], [], [], []⟩

/-- C7 witness. -/
theorem validate_ids_boundary_witness :
    RiskGlobal.validate_object_ids (List.replicate 501 "zz")
        = .error ⟨400, "Too many ids (max 500)"⟩
    ∧ RiskGlobal.validate_object_ids (["aaaaaaaaaaaaaaaaaaaaaaaa"] ++ "zz" :: [])
        = .error ⟨400, "Invalid ObjectId: " ++ "zz"⟩
    ∧ RiskGlobal.get_risk_by_ids_and_type emptyDB ⟨.adm3, ["zz"], none, none, none⟩
        = .error ⟨400, "Invalid ObjectId: zz"⟩
    ∧ EnterpriseRiskRoute.validate_oids
        ["aaaaaaaaaaaaaaaaaaaaaaaa", "aaaaaaaaaaaaaaaaaaaaaaaa"] "enterprise_ids"
        = .ok ((uniq ["aaaaaaaaaaaaaaaaaaaaaaaa", "aaaaaaaaaaaaaaaaaaaaaaaa"]).map oidCanonical)
    ∧ EnterpriseRiskRoute.validate_oids (List.replicate 501 "zz") "enterprise_ids"
        = .error ⟨400, "'" ++ "enterprise_ids" ++ "' excede "
            ++ toString EnterpriseRiskRoute.MAX_IDS ++ " IDs"⟩ :=
  ⟨validate_ids_boundary.1 (List.replicate 501 "zz") (by simp),
   validate_ids_boundary.2.1 ["aaaaaaaaaaaaaaaaaaaaaaaa"] "zz" [] (by decide)
     (by decide) (by decide),
   validate_ids_boundary.2.2.1 emptyDB ⟨.adm3, ["zz"], none, none, none⟩
     ⟨400, "Invalid ObjectId: zz"⟩ (by rfl),
   validate_ids_boundary.2.2.2.1
     ["aaaaaaaaaaaaaaaaaaaaaaaa", "aaaaaaaaaaaaaaaaaaaaaaaa"] "enterprise_ids"
     (by decide) (by decide),
   validate_ids_boundary.2.2.2.2 (List.replicate 501 "zz") "enterprise_ids" (by simp)⟩

/- ----------------------------------------------------------------
   C4 — selector priority in period resolution.
   ---------------------------------------------------------------- -/

/-- C4: when a non-empty `analysis_ids` list is supplied, period resolution
    (and hence the whole `/risk/by-ids-and-type` aggregation) ignores `type`
    and `deforestation_ids`: the result equals that of the request with
    `analysis_ids` alone.  When `analysis_ids` is not supplied (or empty) but
    a non-empty `deforestation_ids` is, `type` is ignored likewise: the
    priority is analysis_ids > deforestation_ids > type. -/
theorem period_resolution_priority (db : DB) (payload : RiskGlobal.GlobalRequest) :
    (∀ l, payload.analysis_ids = some l → l ≠ [] →
      RiskGlobal.get_periods_and_analyses db payload
        = RiskGlobal.get_periods_and_analyses db
            { payload with type := none, deforestation_ids := none }
      ∧ RiskGlobal.get_risk_by_ids_and_type db payload
        = RiskGlobal.get_risk_by_ids_and_type db
            { payload with type := none, deforestation_ids := none })
    ∧ (optListTruthy payload.analysis_ids = false →
        ∀ l, payload.deforestation_ids = some l → l ≠ [] →
        RiskGlobal.get_periods_and_analyses db payload
          = RiskGlobal.get_periods_and_analyses db { payload with type := none }
        ∧ RiskGlobal.get_risk_by_ids_and_type db payload
          = RiskGlobal.get_risk_by_ids_and_type db { payload with type := none }) := by
  constructor
  · intro l hl hlne
    have htruthy : optListTruthy payload.analysis_ids = true := by
      rw [hl]
      cases l with
      | nil => exact absurd rfl hlne
      | cons a rest => rfl
    have hres : RiskGlobal.get_periods_and_analyses db payload
        = RiskGlobal.get_periods_and_analyses db
            { payload with type := none, deforestation_ids := none } := by
      unfold RiskGlobal.get_periods_and_analyses
      simp only [htruthy]
      rfl
    refine ⟨hres, ?_⟩
    unfold RiskGlobal.get_risk_by_ids_and_type
    rw [hres]
  · intro hfalse l hl hlne
    have htruthy : optListTruthy payload.deforestation_ids = true := by
      rw [hl]
      cases l with
      | nil => exact absurd rfl hlne
      | cons a rest => rfl
    have hres : RiskGlobal.get_periods_and_analyses db payload
        = RiskGlobal.get_periods_and_analyses db { payload with type := none } := by
      unfold RiskGlobal.get_periods_and_analyses
      simp only [hfalse, htruthy]
      rfl
    refine ⟨hres, ?_⟩
    unfold RiskGlobal.get_risk_by_ids_and_type
    rw [hres]

/-- C4 witness. -/
theorem period_resolution_priority_witness :
    ((⟨RiskGlobal.EntityType.adm3, ["aaaaaaaaaaaaaaaaaaaaaaaa"], some "annual",
        some ["bbbbbbbbbbbbbbbbbbbbbbb1"], some ["ccccccccccccccccccccccc1"]⟩
      : RiskGlobal.GlobalRequest).analysis_ids = some ["bbbbbbbbbbbbbbbbbbbbbbb1"]
    ∧ (["bbbbbbbbbbbbbbbbbbbbbbb1"] : List String) ≠ [])
    ∧ (RiskGlobal.get_periods_and_analyses emptyDB
        ⟨RiskGlobal.EntityType.adm3, ["aaaaaaaaaaaaaaaaaaaaaaaa"], some "annual",
          some ["bbbbbbbbbbbbbbbbbbbbbbb1"], some ["ccccccccccccccccccccccc1"]⟩
      = RiskGlobal.get_periods_and_analyses emptyDB
        ⟨RiskGlobal.EntityType.adm3, ["aaaaaaaaaaaaaaaaaaaaaaaa"], none,
          some ["bbbbbbbbbbbbbbbbbbbbbbb1"], none⟩
    ∧ RiskGlobal.get_risk_by_ids_and_type emptyDB
        ⟨RiskGlobal.EntityType.adm3, ["aaaaaaaaaaaaaaaaaaaaaaaa"], some "annual",
          some ["bbbbbbbbbbbbbbbbbbbbbbb1"], some ["ccccccccccccccccccccccc1"]⟩
      = RiskGlobal.get_risk_by_ids_and_type emptyDB
        ⟨RiskGlobal.EntityType.adm3, ["aaaaaaaaaaaaaaaaaaaaaaaa"], none,
          some ["bbbbbbbbbbbbbbbbbbbbbbb1"], none⟩) :=
  ⟨⟨rfl, by decide⟩,
   (period_resolution_priority emptyDB
     ⟨RiskGlobal.EntityType.adm3, ["aaaaaaaaaaaaaaaaaaaaaaaa"], some "annual",
       some ["bbbbbbbbbbbbbbbbbbbbbbb1"], some ["ccccccccccccccccccccccc1"]⟩).1
     ["bbbbbbbbbbbbbbbbbbbbbbb1"] rfl (by decide)⟩

/- ----------------------------------------------------------------
   C5 — legacy period synthesis.
   ---------------------------------------------------------------- -/

theorem defoPeriodsOf_null (defos : List DeforestationDoc) (d : DeforestationDoc)
    (hnd : (defos.map (·.id)).Nodup) (hd : d ∈ defos)
    (hps : d.period_start = none) (hpe : d.period_end = none) :
    alookup (RiskGlobal.defoPeriodsOf defos) d.id = some (none, none) := by
  have hc := alookup_foldl_ainsert_of_step
    (fun m (x : DeforestationDoc) =>
      ainsert m x.id (isoOpt x.period_start, isoOpt x.period_end))
    (fun x => x.id)
    (fun x => (isoOpt x.period_start, isoOpt x.period_end))
    (fun m r => rfl) defos [] d.id
  refine Eq.trans hc ?_
  have hfindSome : (defos.reverse.find? (fun x => decide (x.id = d.id))).isSome := by
    rw [List.find?_isSome]
    exact ⟨d, List.mem_reverse.mpr hd, by simp⟩
  obtain ⟨d', hd'⟩ := Option.isSome_iff_exists.mp hfindSome
  rw [hd']
  have hp := List.find?_some hd'
  simp only [decide_eq_true_eq] at hp
  have hmem' : d' ∈ defos := List.mem_reverse.mp (List.mem_of_find?_eq_some hd')
  have hdd : d' = d := List.inj_on_of_nodup_map hnd hmem' hd hp
  simp [Option.elim, hdd, hps, hpe, isoOpt]

/-- C5 (corrected): the deforestation *serializer* synthesizes a period from
    `(year_start, year_end)` — Jan 1 00:00:00 through Dec 31 23:59:59 — but
    the aggregation layer's period resolution does not: a deforestation whose
    `period_start`/`period_end` fields are absent resolves to null period
    bounds regardless of `year_start`/`year_end`. -/
theorem legacy_period_synthesis (doc : DeforestationDoc) (y ye : Nat)
    (hps : doc.period_start = none) (hpe : doc.period_end = none)
    (hys : doc.year_start = some y) (hye : doc.year_end = some ye)
    (defos : List DeforestationDoc) (d : DeforestationDoc)
    (hnd : (defos.map (·.id)).Nodup) (hd : d ∈ defos)
    (hdps : d.period_start = none) (hdpe : d.period_end = none) :
    ((serialize_deforestation doc).period_start
        = some (pyReplace (PyDateTime.mk y 1 1 0 0 0).isoformat "+00:00" "Z")
    ∧ (serialize_deforestation doc).period_end
        = some (pyReplace (PyDateTime.mk ye 12 31 23 59 59).isoformat "+00:00" "Z"))
    ∧ alookup (RiskGlobal.defoPeriodsOf defos) d.id = some (none, none) := by
  refine ⟨⟨?_, ?_⟩, defoPeriodsOf_null defos d hnd hd hdps hdpe⟩
  · simp [serialize_deforestation, hps, hys, to_iso]
  · simp [serialize_deforestation, hpe, hye, to_iso]

def c5db : DB :=
  { emptyDB with
    analyses := [⟨"bbbbbbbbbbbbbbbbbbbbbbb1", some "ccccccccccccccccccccccc1"⟩],
    deforestations := [⟨"ccccccccccccccccccccccc1", none, some "annual", none,
      none, none, some 2010, some 2012, none, none⟩] }

/-- C5 counterexample: a legacy deforestation (`year_start=2010`,
    `year_end=2012`, no explicit period) selected by `deforestation_ids`
    resolves to `(null, null)` in `_get_periods_and_analyses`, not to the
    synthesized `2010-01-01T00:00:00 .. 2012-12-31T23:59:59` period the
    claim requires of period resolution. -/
theorem legacy_period_synthesis_counterexample :
    RiskGlobal.get_periods_and_analyses c5db
        ⟨RiskGlobal.EntityType.adm3, [], none, none, some ["ccccccccccccccccccccccc1"]⟩
      = .ok ([("ccccccccccccccccccccccc1", (none, none))],
             [("bbbbbbbbbbbbbbbbbbbbbbb1", "ccccccccccccccccccccccc1")])
    ∧ (none : Option String) ≠ some "2010-01-01T00:00:00"
    ∧ (none : Option String) ≠ some "2012-12-31T23:59:59" :=
  ⟨rfl, by decide, by decide⟩

/-- C5 witness. -/
theorem legacy_period_synthesis_witness :
    ((⟨"ccccccccccccccccccccccc1", none, some "annual", none, none, none,
        some 2010, some 2012, none, none⟩ : DeforestationDoc).period_start = none
    ∧ ((serialize_deforestation ⟨"ccccccccccccccccccccccc1", none, some "annual", none,
        none, none, some 2010, some 2012, none, none⟩).period_start
          = some (pyReplace (PyDateTime.mk 2010 1 1 0 0 0).isoformat "+00:00" "Z")
      ∧ (serialize_deforestation ⟨"ccccccccccccccccccccccc1", none, some "annual", none,
          none, none, some 2010, some 2012, none, none⟩).period_end
          = some (pyReplace (PyDateTime.mk 2012 12 31 23 59 59).isoformat "+00:00" "Z"))
    ∧ alookup (RiskGlobal.defoPeriodsOf [⟨"ccccccccccccccccccccccc1", none, some "annual",
        none, none, none, some 2010, some 2012, none, none⟩])
        "ccccccccccccccccccccccc1" = some (none, none))
    ∧ pyReplace (PyDateTime.mk 2010 1 1 0 0 0).isoformat "+00:00" "Z"
        = "2010-01-01T00:00:00"
    ∧ pyReplace (PyDateTime.mk 2012 12 31 23 59 59).isoformat "+00:00" "Z"
        = "2012-12-31T23:59:59" :=
  ⟨⟨rfl,
    (legacy_period_synthesis
      ⟨"ccccccccccccccccccccccc1", none, some "annual", none, none, none,
        some 2010, some 2012, none, none⟩ 2010 2012 rfl rfl rfl rfl
      [⟨"ccccccccccccccccccccccc1", none, some "annual", none, none, none,
        some 2010, some 2012, none, none⟩]
      ⟨"ccccccccccccccccccccccc1", none, some "annual", none, none, none,
        some 2010, some 2012, none, none⟩
      (by decide) (by decide) rfl rfl).1,
    (legacy_period_synthesis
      ⟨"ccccccccccccccccccccccc1", none, some "annual", none, none, none,
        some 2010, some 2012, none, none⟩ 2010 2012 rfl rfl rfl rfl
      [⟨"ccccccccccccccccccccccc1", none, some "annual", none, none, none,
        some 2010, some 2012, none, none⟩]
      ⟨"ccccccccccccccccccccccc1", none, some "annual", none, none, none,
        some 2010, some 2012, none, none⟩
      (by decide) (by decide) rfl rfl).2⟩,
   rfl, rfl⟩

/- ----------------------------------------------------------------
   C9 — search caps in the paginated endpoint.
   ---------------------------------------------------------------- -/

theorem get_paginated_search_eq {α β : Type} (docs : List α) (sf : α → β)
    (mf : RegexClause → α → Bool) (allowed : List String) (p : PagedParams)
    (s : String) (hs : p.search = some s) (hne : s ≠ "")
    (hflds : parse_paged_fields p.search_fields allowed ≠ []) :
    get_paginated docs sf mf allowed p =
      if (parse_paged_terms s).length * (parse_paged_fields p.search_fields allowed).length
           > MAX_COMBINATIONS
      then .error ⟨400, "Search is too broad. Reduce number of terms or fields."⟩
      else .ok (build_paginated_response
          (docs.filter (fun d =>
            (build_search_query (parse_paged_terms s)
              (parse_paged_fields p.search_fields allowed)).any (fun c => mf c d)))
          sf p.page p.limit p.skip) := by
  have h2 : (parse_paged_fields p.search_fields allowed).isEmpty = false := by
    cases hq : parse_paged_fields p.search_fields allowed with
    | nil => exact absurd hq hflds
    | cons a l => rfl
  have h1 : (s != "") = true := by
    simp [bne]
    exact hne
  unfold get_paginated
  rw [hs]
  simp only [Option.getD_some, h1, h2, Bool.not_false, Bool.and_true, if_true]

/-- C9 (corrected): the paginated search endpoint caps its inputs, but by
    silent truncation rather than rejection: the parsed term list never has
    more than `MAX_TERMS` entries nor any term longer than
    `MAX_TERM_LENGTH` characters (extra terms and characters are dropped),
    and only a term×field combination count above `MAX_COMBINATIONS` — after
    that truncation — is rejected with a 400 client error; at or below the
    combination cap the (bounded) query executes. -/
theorem search_caps {α β : Type} (docs : List α) (sf : α → β)
    (mf : RegexClause → α → Bool) (allowed : List String) (p : PagedParams)
    (s : String) (hs : p.search = some s) (hne : s ≠ "")
    (hflds : parse_paged_fields p.search_fields allowed ≠ []) :
    ((parse_paged_terms s).length ≤ MAX_TERMS
     ∧ ∀ t ∈ parse_paged_terms s, t.length ≤ MAX_TERM_LENGTH)
    ∧ ((parse_paged_terms s).length * (parse_paged_fields p.search_fields allowed).length
         > MAX_COMBINATIONS
       → get_paginated docs sf mf allowed p
           = .error ⟨400, "Search is too broad. Reduce number of terms or fields."⟩)
    ∧ ((parse_paged_terms s).length * (parse_paged_fields p.search_fields allowed).length
         ≤ MAX_COMBINATIONS
       → get_paginated docs sf mf allowed p
           = .ok (build_paginated_response
               (docs.filter (fun d =>
                 (build_search_query (parse_paged_terms s)
                   (parse_paged_fields p.search_fields allowed)).any (fun c => mf c d)))
               sf p.page p.limit p.skip)) := by
  refine ⟨⟨?_, ?_⟩, ?_, ?_⟩
  · unfold parse_paged_terms
    rw [List.length_take]
    exact min_le_left _ _
  · intro t ht
    unfold parse_paged_terms at ht
    have ht' := List.mem_of_mem_take ht
    obtain ⟨x, hx, hfx⟩ := List.mem_filterMap.mp ht'
    by_cases hu : pyStrip x = ""
    · simp [hu] at hfx
    · simp only [hu, if_false, Option.some.injEq] at hfx
      subst hfx
      show ((pyStrip x).data.take MAX_TERM_LENGTH).length ≤ MAX_TERM_LENGTH
      rw [List.length_take]
      exact min_le_left _ _
  · intro hgt
    rw [get_paginated_search_eq docs sf mf allowed p s hs hne hflds, if_pos hgt]
  · intro hle
    rw [get_paginated_search_eq docs sf mf allowed p s hs hne hflds,
        if_neg (not_lt.mpr hle)]

/-- C9 counterexample: six search terms exceed the 5-term cap, and a 32-char
    term exceeds the 25-char cap, yet neither request is rejected — the extra
    term and characters are silently dropped and the query executes. -/
theorem search_caps_counterexample :
    parse_paged_terms "a,b,c,d,e,f" = ["a", "b", "c", "d", "e"]
    ∧ get_paginated ([] : List Nat) (fun n => n) (fun _ _ => false)
        ["name"] ⟨1, 10, none, some "a,b,c,d,e,f", none⟩
      = .ok (build_paginated_response ([] : List Nat) (fun n => n) 1 10 none)
    ∧ pySlice "abcdefghijklmnopqrstuvwxyz012345" MAX_TERM_LENGTH
        = "abcdefghijklmnopqrstuvwxy" :=
  ⟨rfl, rfl, rfl⟩

/-- C9 witness. -/
theorem search_caps_witness :
    (parse_paged_terms "a,b").length ≤ MAX_TERMS
    ∧ get_paginated ([] : List Nat) (fun n => n) (fun _ _ => false) ["name"]
        ⟨1, 10, none, some "a,b", none⟩
      = .ok (build_paginated_response
          (([] : List Nat).filter (fun d =>
            (build_search_query (parse_paged_terms "a,b")
              (parse_paged_fields none ["name"])).any
                (fun c => (fun (_ : RegexClause) (_ : Nat) => false) c d)))
          (fun n => n) 1 10 none) :=
  ⟨((search_caps ([] : List Nat) (fun n => n) (fun _ _ => false) ["name"]
      ⟨1, 10, none, some "a,b", none⟩ "a,b" rfl (by decide) (by decide)).1).1,
   (search_caps ([] : List Nat) (fun n => n) (fun _ _ => false) ["name"]
      ⟨1, 10, none, some "a,b", none⟩ "a,b" rfl (by decide) (by decide)).2.2
     (by decide)⟩

/- ----------------------------------------------------------------
   C6 — empty selector short-circuit.
   ---------------------------------------------------------------- -/

theorem foldl_invariant {σ α : Type} (Q : σ → Prop) (step : σ → α → σ)
    (l : List α) (s0 : σ) (h0 : Q s0)
    (hstep : ∀ s a, a ∈ l → Q s → Q (step s a)) :
    Q (l.foldl step s0) := by
  induction l generalizing s0 with
  | nil => exact h0
  | cons a rest ih =>
    exact ih (step s0 a) (hstep s0 a (List.mem_cons_self a rest)
      h0) (fun s b hb hq => hstep s b (List.mem_cons_of_mem a hb) hq)

theorem all_ainsert [DecidableEq κ] {α : Type} (P : κ × α → Bool)
    (m : List (κ × α)) (k : κ) (v : α)
    (hm : m.all P = true) (hv : P (k, v) = true) :
    (ainsert m k v).all P = true := by
  induction m with
  | nil => simp [ainsert, hv]
  | cons p rest ih =>
    simp only [List.all_cons, Bool.and_eq_true] at hm
    by_cases hk : p.1 = k
    · simp [ainsert, hk, hv, hm.2]
    · simp [ainsert, hk, hm.1, ih hm.2]

theorem adm3Grouped0_allEmpty (db : DB) (validIds : List Oid) :
    (RiskGlobal.adm3Grouped0 db validIds).all (fun p => p.2.items.isEmpty) = true := by
  unfold RiskGlobal.adm3Grouped0
  refine foldl_invariant
    (fun (g : List (String × RiskGlobal.Adm3Bucket)) =>
      g.all (fun p => p.2.items.isEmpty) = true) _ _ _ rfl ?_
  intro g d _ hq
  exact all_ainsert _ g d.id _ hq rfl

theorem processAdm3_empty (db : DB) (validIds : List Oid)
    (periods : List (Oid × (Option String × Option String)))
    (a2d : List (Oid × Oid))
    (h : (periods.isEmpty || a2d.isEmpty) = true) :
    RiskGlobal.processAdm3 db validIds periods a2d
      = RiskGlobal.adm3Grouped0 db validIds := by
  unfold RiskGlobal.processAdm3
  rw [if_pos h]

theorem processFarm_empty (db : DB) (validIds : List Oid)
    (periods : List (Oid × (Option String × Option String)))
    (a2d : List (Oid × Oid))
    (h : (periods.isEmpty || a2d.isEmpty) = true) :
    RiskGlobal.processFarm db validIds periods a2d
      = validIds.foldl (fun g fid => ainsert g fid
          ⟨fid, alookup (RiskGlobal.farmMetaMap db validIds) fid, []⟩) [] := by
  unfold RiskGlobal.processFarm
  rw [if_pos h]

theorem processEnterprise_empty (db : DB) (validIds : List Oid)
    (periods : List (Oid × (Option String × Option String)))
    (a2d : List (Oid × Oid))
    (h : (periods.isEmpty || a2d.isEmpty) = true) :
    RiskGlobal.processEnterprise db validIds periods a2d
      = validIds.foldl (fun g eid => ainsert g eid
          ⟨eid, alookup (RiskGlobal.enterpriseMetaMap db validIds) eid, []⟩) [] := by
  unfold RiskGlobal.processEnterprise
  rw [if_pos h]

theorem farmGrouped_allEmpty (db : DB) (validIds : List Oid) :
    (validIds.foldl (fun g fid => ainsert g fid
        (⟨fid, alookup (RiskGlobal.farmMetaMap db validIds) fid, []⟩ :
          RiskGlobal.FarmBucket)) []).all (fun p => p.2.items.isEmpty) = true := by
  refine foldl_invariant
    (fun (g : List (String × RiskGlobal.FarmBucket)) =>
      g.all (fun p => p.2.items.isEmpty) = true) _ _ _ rfl ?_
  intro g fid _ hq
  exact all_ainsert _ g fid _ hq rfl

theorem entGrouped_allEmpty (db : DB) (validIds : List Oid) :
    (validIds.foldl (fun g eid => ainsert g eid
        (⟨eid, alookup (RiskGlobal.enterpriseMetaMap db validIds) eid, []⟩ :
          RiskGlobal.EnterpriseBucket)) []).all (fun p => p.2.items.isEmpty) = true := by
  refine foldl_invariant
    (fun (g : List (String × RiskGlobal.EnterpriseBucket)) =>
      g.all (fun p => p.2.items.isEmpty) = true) _ _ _ rfl ?_
  intro g eid _ hq
  exact all_ainsert _ g eid _ hq rfl

theorem get_adm3risk_filtered_empty (db : DB) (data : ByAnalysis.Adm3RiskFilterRequest)
    (validA validX : List Oid)
    (h1 : data.analysis_ids ≠ []) (h2 : data.adm3_ids ≠ [])
    (hvA : ByAnalysis.validate_ids "analysis_id" data.analysis_ids = .ok validA)
    (hvX : ByAnalysis.validate_ids "adm3_id" data.adm3_ids = .ok validX)
    (hanal : ByAnalysis.filteredAnalyses db validA = []) :
    ByAnalysis.get_adm3risk_filtered db data
      = .ok (validA.foldl (fun m aid => ainsert m aid []) []) := by
  have e1 : data.analysis_ids.isEmpty = false := by
    cases h : data.analysis_ids with
    | nil => exact absurd h h1
    | cons a l => rfl
  have e2 : data.adm3_ids.isEmpty = false := by
    cases h : data.adm3_ids with
    | nil => exact absurd h h2
    | cons a l => rfl
  unfold ByAnalysis.get_adm3risk_filtered
  rw [hvA, hvX]
  simp [e1, e2, hanal, except_ok_bind, except_pure_eq_ok]

theorem byAnalysisSkeleton_allEmpty (validA : List Oid) :
    (validA.foldl (fun m aid =>
        ainsert m aid ([] : List ByAnalysis.FilteredEntry)) []).all
      (fun p => p.2.isEmpty) = true := by
  refine foldl_invariant
    (fun (g : List (String × List ByAnalysis.FilteredEntry)) =>
      g.all (fun p => p.2.isEmpty) = true) _ _ _ rfl ?_
  intro g aid _ hq
  exact all_ainsert _ g aid _ hq rfl

/-- C6 (corrected): a selector matching zero deforestations resolves to two
    empty maps (shown for the historic `type` mode); whenever EITHER resolver
    map is empty — in particular in the zero-analyses case, where the
    deforestation map comes back non-empty while the analysis map is empty —
    `/risk/by-ids-and-type` short-circuits to its per-entity bucket skeleton
    with every item list empty, and `/adm3risk/by-analysis-and-adm3` with
    zero matching analyses returns one empty list per requested analysis id.
    (The claim's "both output maps are empty" is wrong for a selector that
    matches deforestations on which zero analyses depend, as the
    counterexample shows; the short-circuit still fires because either empty
    map suffices.) -/
theorem empty_selector_short_circuit
    (db : DB) (payload : RiskGlobal.GlobalRequest) (t : String)
    (hnoA : optListTruthy payload.analysis_ids = false)
    (hnoD : optListTruthy payload.deforestation_ids = false)
    (hty : payload.type = some t) (htne : t ≠ "")
    (hnodefo : db.deforestations.filter
      (fun d => d.deforestation_type = some t) = [])
    (db1 : DB) (payload2 : RiskGlobal.GlobalRequest) (valid : List Oid)
    (dp : List (Oid × (Option String × Option String))) (a2d : List (Oid × Oid))
    (hval : RiskGlobal.validate_object_ids payload2.ids = .ok valid)
    (hper2 : RiskGlobal.get_periods_and_analyses db1 payload2 = .ok (dp, a2d))
    (hempty : dp = [] ∨ a2d = [])
    (db2 : DB) (data : ByAnalysis.Adm3RiskFilterRequest) (validA validX : List Oid)
    (h1 : data.analysis_ids ≠ []) (h2 : data.adm3_ids ≠ [])
    (hvA : ByAnalysis.validate_ids "analysis_id" data.analysis_ids = .ok validA)
    (hvX : ByAnalysis.validate_ids "adm3_id" data.adm3_ids = .ok validX)
    (hanal : ByAnalysis.filteredAnalyses db2 validA = []) :
    RiskGlobal.get_periods_and_analyses db payload = .ok ([], [])
    ∧ (∃ resp, RiskGlobal.get_risk_by_ids_and_type db1 payload2 = .ok resp
         ∧ responseAllItemsEmpty resp = true)
    ∧ ByAnalysis.get_adm3risk_filtered db2 data
        = .ok (validA.foldl (fun m aid => ainsert m aid []) [])
    ∧ (validA.foldl (fun m aid =>
         ainsert m aid ([] : List ByAnalysis.FilteredEntry)) []).all
        (fun p => p.2.isEmpty) = true := by
  have hper : RiskGlobal.get_periods_and_analyses db payload = .ok ([], []) := by
    unfold RiskGlobal.get_periods_and_analyses
    rw [hnoA, hnoD, hty]
    simp [htne, hnodefo, RiskGlobal.defoPeriodsOf, except_ok_bind, except_pure_eq_ok]
  have hor : (dp.isEmpty || a2d.isEmpty) = true := by
    rcases hempty with rfl | rfl <;> simp
  refine ⟨hper, ?_, ?_, byAnalysisSkeleton_allEmpty validA⟩
  · cases hety : payload2.entity_type with
    | adm3 =>
      refine ⟨.adm3 (RiskGlobal.processAdm3 db1 valid dp a2d), ?_, ?_⟩
      · exact RiskGlobal.get_risk_eq_adm3 db1 payload2 valid (dp, a2d) hety hval hper2
      · rw [processAdm3_empty db1 valid dp a2d hor]
        exact adm3Grouped0_allEmpty db1 valid
    | farm =>
      refine ⟨.farm (RiskGlobal.processFarm db1 valid dp a2d), ?_, ?_⟩
      · exact RiskGlobal.get_risk_eq_farm db1 payload2 valid (dp, a2d) hety hval hper2
      · rw [processFarm_empty db1 valid dp a2d hor]
        exact farmGrouped_allEmpty db1 valid
    | enterprise =>
      refine ⟨.enterprise (RiskGlobal.processEnterprise db1 valid dp a2d), ?_, ?_⟩
      · exact RiskGlobal.get_risk_eq_enterprise db1 payload2 valid (dp, a2d) hety hval hper2
      · rw [processEnterprise_empty db1 valid dp a2d hor]
        exact entGrouped_allEmpty db1 valid
  · exact get_adm3risk_filtered_empty db2 data validA validX h1 h2 hvA hvX hanal

def c6db : DB :=
  { emptyDB with
    deforestations := [⟨"ccccccccccccccccccccccc1", none, some "annual", none,
      none, none, none, none, none, none⟩] }

/-- C6 counterexample: a `type` selector matching one deforestation on which
    zero analyses depend resolves to a NON-empty deforestation map paired
    with an empty analysis map — refuting the claim's "both output maps are
    empty" reading of the zero-analyses case. -/
theorem empty_selector_short_circuit_counterexample :
    RiskGlobal.get_periods_and_analyses c6db
        ⟨RiskGlobal.EntityType.adm3, [], some "annual", none, none⟩
      = .ok ([("ccccccccccccccccccccccc1", (none, none))], [])
    ∧ ([("ccccccccccccccccccccccc1",
          ((none : Option String), (none : Option String)))] :
        List (Oid × (Option String × Option String))) ≠ [] :=
  ⟨rfl, by decide⟩

/-- C6 witness: the `/risk` short-circuit is exercised on the zero-analyses
    case — a resolver outcome with a NON-empty deforestation map and an empty
    analysis map. -/
theorem empty_selector_short_circuit_witness :
    RiskGlobal.get_periods_and_analyses emptyDB
        ⟨RiskGlobal.EntityType.adm3, ["aaaaaaaaaaaaaaaaaaaaaaaa"], some "annual",
          none, none⟩ = .ok ([], [])
    ∧ (∃ resp, RiskGlobal.get_risk_by_ids_and_type c6db
          ⟨RiskGlobal.EntityType.adm3, [], some "annual", none, none⟩ = .ok resp
        ∧ responseAllItemsEmpty resp = true)
    ∧ ByAnalysis.get_adm3risk_filtered emptyDB
        ⟨["bbbbbbbbbbbbbbbbbbbbbbb1"], ["aaaaaaaaaaaaaaaaaaaaaaaa"]⟩
        = .ok (["bbbbbbbbbbbbbbbbbbbbbbb1"].foldl
            (fun m aid => ainsert m aid []) [])
    ∧ (["bbbbbbbbbbbbbbbbbbbbbbb1"].foldl (fun m aid =>
         ainsert m aid ([] : List ByAnalysis.FilteredEntry)) []).all
        (fun p => p.2.isEmpty) = true :=
  empty_selector_short_circuit emptyDB
    ⟨RiskGlobal.EntityType.adm3, ["aaaaaaaaaaaaaaaaaaaaaaaa"], some "annual", none, none⟩
    "annual" rfl rfl rfl (by decide) rfl
    c6db ⟨RiskGlobal.EntityType.adm3, [], some "annual", none, none⟩
    [] [("ccccccccccccccccccccccc1", (none, none))] []
    rfl rfl (Or.inr rfl)
    emptyDB ⟨["bbbbbbbbbbbbbbbbbbbbbbb1"], ["aaaaaaaaaaaaaaaaaaaaaaaa"]⟩
    ["bbbbbbbbbbbbbbbbbbbbbbb1"] ["aaaaaaaaaaaaaaaaaaaaaaaa"]
    (by decide) (by decide) rfl rfl rfl

/- ----------------------------------------------------------------
   C2 — risk_total as an OR-reduction.
   ---------------------------------------------------------------- -/

theorem contributes_eq_spec (db : DB) (vX : List Oid) (a x : Oid)
    (hnd : (db.farms.map (·.id)).Nodup) (hx : x ∈ vX) (fr : FarmRiskDoc) :
    ByAnalysis.contributes (ByAnalysis.farmToAdm3 db vX) a x fr
      = (decide (fr.analysis_id = a)
         && db.farms.any (fun f => decide (f.id = fr.farm_id) && decide (f.adm3_id = some x))
         && (fr.risk_direct || fr.risk_input || fr.risk_output)) := by
  unfold ByAnalysis.contributes
  have hlk : decide (alookup (ByAnalysis.farmToAdm3 db vX) fr.farm_id = some x)
      = db.farms.any (fun f => decide (f.id = fr.farm_id) && decide (f.adm3_id = some x)) := by
    by_cases hcase : alookup (ByAnalysis.farmToAdm3 db vX) fr.farm_id = some x
    · obtain ⟨f, hf, hid, hadm⟩ :=
        (ByAnalysis.farmToAdm3_lookup_spec db vX fr.farm_id x hnd hx).mp hcase
      rw [decide_eq_true hcase, Eq.comm, List.any_eq_true]
      exact ⟨f, hf, by simp [hid, hadm]⟩
    · rw [decide_eq_false hcase, Eq.comm, List.any_eq_false]
      intro f hf
      simp only [Bool.and_eq_true, decide_eq_true_eq, not_and]
      intro hid hadm
      exact absurd ((ByAnalysis.farmToAdm3_lookup_spec db vX fr.farm_id x hnd hx).mpr
        ⟨f, hf, hid, hadm⟩) hcase
  rw [hlk]
  exact congrArg (· && (fr.risk_direct || fr.risk_input || fr.risk_output)) (Bool.and_comm _ _)

theorem byanalysis_risk_or (db : DB) (vA vX : List Oid) (a x : Oid)
    (hnd : (db.farms.map (·.id)).Nodup) (ha : a ∈ vA) (hx : x ∈ vX) :
    (ByAnalysis.getVals (ByAnalysis.riskAcc db vA vX) a x).risk_total
      = specRiskTotalOr db x a := by
  rw [ByAnalysis.riskAcc_risk_total, ByAnalysis.queried_any_contributes db vA vX a x ha]
  unfold specRiskTotalOr
  exact any_congrList _ _ _ (fun fr _ => contributes_eq_spec db vX a x hnd hx fr)

/-- C2 (corrected): in `/adm3risk/by-analysis-and-adm3` the emitted
    `risk_total` IS the live OR of (risk_direct OR risk_input OR risk_output)
    over every FarmRisk row of every farm whose adm3 reference is that adm3,
    for that analysis (false when no such row exists; farm ids assumed
    unique).  In the adm3 branch of `/risk/by-ids-and-type`, however,
    `risk_total` is copied from the precomputed `Adm3Risk` row (false when
    the row is absent) — NOT recomputed by the OR-reduction — so the two can
    diverge, as the counterexample shows. -/
theorem risk_total_or_reduction (db : DB) (vA vX : List Oid) (a : AnalysisDoc)
    (hnd : (db.farms.map (·.id)).Nodup) (ha : a.id ∈ vA)
    (data : ByAnalysis.Adm3RiskFilterRequest)
    (h1 : data.analysis_ids ≠ []) (h2 : data.adm3_ids ≠ [])
    (hvA : ByAnalysis.validate_ids "analysis_id" data.analysis_ids = .ok vA)
    (hvX : ByAnalysis.validate_ids "adm3_id" data.adm3_ids = .ok vX)
    (hanal : ByAnalysis.filteredAnalyses db vA ≠ []) :
    (∀ e ∈ ByAnalysis.entriesFor db vA vX a,
        e.risk_total = specRiskTotalOr db e.adm3_id a.id)
    ∧ (ByAnalysis.get_adm3risk_filtered db data
        = .ok ((ByAnalysis.filteredAnalyses db vA).foldl (fun g a2 =>
            aupdate g a2.id (fun l => l ++ ByAnalysis.entriesFor db vA vX a2))
            (vA.foldl (fun m aid => ainsert m aid []) []))
      ∧ ∀ aid l, alookup ((ByAnalysis.filteredAnalyses db vA).foldl (fun g a2 =>
            aupdate g a2.id (fun l2 => l2 ++ ByAnalysis.entriesFor db vA vX a2))
            (vA.foldl (fun m aid2 => ainsert m aid2
              ([] : List ByAnalysis.FilteredEntry)) [])) aid = some l →
          ∀ e ∈ l, e.risk_total = specRiskTotalOr db e.adm3_id e.analysis_id)
    ∧ (∀ validIds periods a2d, validIds.Nodup →
        (periods.isEmpty || a2d.isEmpty) = false →
        ∀ oid ∈ validIds, ∃ b,
          alookup (RiskGlobal.processAdm3 db validIds periods a2d) oid = some b
          ∧ ∀ it ∈ b.items, it.risk_total
              = (alookup (RiskGlobal.existingAdm3RiskMap db validIds a2d)
                  (oid, it.analysis_id)).elim false (fun d => d.risk_total)) := by
  refine ⟨?_, ⟨ByAnalysis.get_adm3risk_filtered_eq db data vA vX h1 h2 hvA hvX hanal, ?_⟩, ?_⟩
  · intro e he
    simp only [ByAnalysis.entriesFor] at he
    obtain ⟨x', hx', rfl⟩ := List.mem_map.mp he
    exact byanalysis_risk_or db vA vX a.id x' hnd ha hx'
  · refine alookup_foldl_append_allP _ (fun (a2 : AnalysisDoc) => a2.id)
      (fun a2 => ByAnalysis.entriesFor db vA vX a2) (fun m r => rfl)
      (fun e => e.risk_total = specRiskTotalOr db e.adm3_id e.analysis_id) _ _ ?_ ?_
    · intro k l hl e hel
      have hc := alookup_foldl_ainsert_of_step
        (fun m (aid : Oid) => ainsert m aid ([] : List ByAnalysis.FilteredEntry))
        (fun aid => aid) (fun _ => ([] : List ByAnalysis.FilteredEntry))
        (fun m r => rfl) vA [] k
      rw [hc] at hl
      cases hfind : vA.reverse.find? (fun r => decide (r = k)) with
      | none => rw [hfind] at hl; cases hl
      | some r =>
        rw [hfind] at hl
        simp only [Option.elim, Option.some.injEq] at hl
        rw [← hl] at hel
        cases hel
    · intro a2 ha2 e he
      have haid : a2.id ∈ vA := by
        unfold ByAnalysis.filteredAnalyses at ha2
        have hm := List.mem_filter.mp ha2
        exact (contains_iff_memL vA a2.id).mp (by simpa using hm.2)
      simp only [ByAnalysis.entriesFor] at he
      obtain ⟨x', hx', rfl⟩ := List.mem_map.mp he
      exact byanalysis_risk_or db vA vX a2.id x' hnd haid hx'
  · intro validIds periods a2d hndv hne oid hmem
    obtain ⟨b, hb, _, hitems⟩ :=
      RiskGlobal.processAdm3_bucket db validIds periods a2d hne hndv oid hmem
    refine ⟨b, hb, ?_⟩
    intro it hit
    rw [hitems, List.mem_reverse] at hit
    obtain ⟨p, hp, rfl⟩ := List.mem_map.mp hit
    cases hdoc : alookup (RiskGlobal.existingAdm3RiskMap db validIds a2d) (oid, p.1) with
    | none => simp [RiskGlobal.mkAdm3Item, hdoc, Option.elim]
    | some d => simp [RiskGlobal.mkAdm3Item, hdoc, Option.elim]

def c2db : DB :=
  { emptyDB with
    analyses := [⟨"bbbbbbbbbbbbbbbbbbbbbbb1", some "ccccccccccccccccccccccc1"⟩],
    deforestations := [⟨"ccccccccccccccccccccccc1", none, some "annual", none,
      none, none, none, none, none, none⟩],
    adm3s := [⟨"aaaaaaaaaaaaaaaaaaaaaaa1", some "A3", some "DEP, MUN, VER"⟩],
    adm3risks := [⟨"aaaaaaaaaaaaaaaaaaaaaaa1", "bbbbbbbbbbbbbbbbbbbbbbb1", true, 5, 2⟩] }

/-- C2 counterexample: with no farms at all (so the OR-reduction over
    FarmRisk rows is false) but a stored `Adm3Risk` row with
    `risk_total=true`, `/risk/by-ids-and-type` emits `risk_total=true` —
    the stored value, not the OR of the farm flags. -/
theorem risk_total_or_reduction_counterexample :
    (adm3BucketItems (RiskGlobal.get_risk_by_ids_and_type c2db
        ⟨RiskGlobal.EntityType.adm3, ["aaaaaaaaaaaaaaaaaaaaaaa1"], none,
          some ["bbbbbbbbbbbbbbbbbbbbbbb1"], none⟩)
        "aaaaaaaaaaaaaaaaaaaaaaa1").elim false
      (fun items => items.any (fun it => it.risk_total)) = true
    ∧ specRiskTotalOr c2db "aaaaaaaaaaaaaaaaaaaaaaa1" "bbbbbbbbbbbbbbbbbbbbbbb1"
        = false :=
  ⟨rfl, rfl⟩

def c2wdb : DB :=
  { emptyDB with
    analyses := [⟨"bbbbbbbbbbbbbbbbbbbbbbb1", none⟩],
    farms := [⟨"ffffffffffffffffffffff01", some "aaaaaaaaaaaaaaaaaaaaaaa1", [], none⟩],
    farmrisks := [⟨"eeeeeeeeeeeeeeeeeeeeeee1", "ffffffffffffffffffffff01",
      "bbbbbbbbbbbbbbbbbbbbbbb1", true, false, false, none, none, none, none⟩] }

/-- C2 witness. -/
theorem risk_total_or_reduction_witness :
    (∀ e ∈ ByAnalysis.entriesFor c2wdb ["bbbbbbbbbbbbbbbbbbbbbbb1"]
        ["aaaaaaaaaaaaaaaaaaaaaaa1"] ⟨"bbbbbbbbbbbbbbbbbbbbbbb1", none⟩,
        e.risk_total = specRiskTotalOr c2wdb e.adm3_id "bbbbbbbbbbbbbbbbbbbbbbb1")
    ∧ (ByAnalysis.get_adm3risk_filtered c2wdb
          ⟨["bbbbbbbbbbbbbbbbbbbbbbb1"], ["aaaaaaaaaaaaaaaaaaaaaaa1"]⟩
        = .ok ((ByAnalysis.filteredAnalyses c2wdb ["bbbbbbbbbbbbbbbbbbbbbbb1"]).foldl
            (fun g a2 => aupdate g a2.id (fun l => l ++ ByAnalysis.entriesFor c2wdb
              ["bbbbbbbbbbbbbbbbbbbbbbb1"] ["aaaaaaaaaaaaaaaaaaaaaaa1"] a2))
            (["bbbbbbbbbbbbbbbbbbbbbbb1"].foldl (fun m aid => ainsert m aid []) []))
      ∧ ∀ aid l, alookup
            ((ByAnalysis.filteredAnalyses c2wdb ["bbbbbbbbbbbbbbbbbbbbbbb1"]).foldl
              (fun g a2 => aupdate g a2.id (fun l2 => l2 ++ ByAnalysis.entriesFor c2wdb
                ["bbbbbbbbbbbbbbbbbbbbbbb1"] ["aaaaaaaaaaaaaaaaaaaaaaa1"] a2))
              (["bbbbbbbbbbbbbbbbbbbbbbb1"].foldl (fun m aid2 => ainsert m aid2
                ([] : List ByAnalysis.FilteredEntry)) [])) aid = some l →
          ∀ e ∈ l, e.risk_total = specRiskTotalOr c2wdb e.adm3_id e.analysis_id)
    ∧ (∀ validIds periods a2d, validIds.Nodup →
        (periods.isEmpty || a2d.isEmpty) = false →
        ∀ oid ∈ validIds, ∃ b,
          alookup (RiskGlobal.processAdm3 c2wdb validIds periods a2d) oid = some b
          ∧ ∀ it ∈ b.items, it.risk_total
              = (alookup (RiskGlobal.existingAdm3RiskMap c2wdb validIds a2d)
                  (oid, it.analysis_id)).elim false (fun d => d.risk_total)) :=
  risk_total_or_reduction c2wdb ["bbbbbbbbbbbbbbbbbbbbbbb1"]
    ["aaaaaaaaaaaaaaaaaaaaaaa1"] ⟨"bbbbbbbbbbbbbbbbbbbbbbb1", none⟩
    (by decide) (by decide)
    ⟨["bbbbbbbbbbbbbbbbbbbbbbb1"], ["aaaaaaaaaaaaaaaaaaaaaaa1"]⟩
    (by decide) (by decide) rfl rfl (by decide)

/- ----------------------------------------------------------------
   C1 — bucket completeness and zero/False defaults.
   ---------------------------------------------------------------- -/

theorem alookup_foldl_ainsert_id_isSome [DecidableEq κ] {γ : Type} (vf : κ → γ)
    (l : List κ) (k : κ) (h : k ∈ l) :
    (alookup (l.foldl (fun m a => ainsert m a (vf a)) []) k).isSome := by
  have hc := alookup_foldl_ainsert_of_step
    (fun m (a : κ) => ainsert m a (vf a)) (fun a => a) vf (fun m r => rfl) l [] k
  rw [hc]
  have hfind : (l.reverse.find? (fun r => decide (r = k))).isSome := by
    rw [List.find?_isSome]
    exact ⟨k, List.mem_reverse.mpr h, by simp⟩
  obtain ⟨r, hr⟩ := Option.isSome_iff_exists.mp hfind
  rw [hr]
  rfl

theorem akeys_nodup_processAdm3 (db : DB) (validIds : List Oid)
    (periods : List (Oid × (Option String × Option String)))
    (a2d : List (Oid × Oid)) :
    (akeys (RiskGlobal.processAdm3 db validIds periods a2d)).Nodup := by
  have hg0 : (akeys (RiskGlobal.adm3Grouped0 db validIds)).Nodup := by
    unfold RiskGlobal.adm3Grouped0
    exact akeys_nodup_foldl_ainsert _ (fun (d : Adm3Doc) => d.id)
      (fun d => (⟨d.id, some ⟨d.name, (split_label_3 d.label).1,
        (split_label_3 d.label).2.1⟩, []⟩ : RiskGlobal.Adm3Bucket))
      (fun m r => rfl) _ [] (by simp [akeys])
  unfold RiskGlobal.processAdm3
  by_cases hb : (periods.isEmpty || a2d.isEmpty) = true
  · rw [if_pos hb]; exact hg0
  · rw [if_neg hb]
    refine foldl_invariant
      (fun (g : List (String × RiskGlobal.Adm3Bucket)) => (akeys g).Nodup) _ _ _ hg0 ?_
    intro g oid _ hq
    unfold RiskGlobal.adm3AddItems
    rw [akeys_aupdate]
    exact akeys_asetdefault _ _ _ hq

/-- C1 (confirmed): with valid ids and a selector resolving to at least one
    deforestation and analysis, `/risk/by-ids-and-type` holds exactly one
    bucket per requested entity id in each branch (every requested id looks
    up, and the bucket keys are duplicate-free), `/adm3risk/by-analysis-and-adm3`
    holds a list for every requested analysis id, and a requested
    (entity, analysis) pair with no matching risk row yields a synthesized
    entry with `risk_total=false`, `farm_amount=0`, `def_ha=0` — the
    by-analysis entry carries `some 0`/`some 0`, never null. -/
theorem buckets_complete_zero_defaults
    (db : DB) (payload : RiskGlobal.GlobalRequest) (validIds : List Oid)
    (periods : List (Oid × (Option String × Option String))) (a2d : List (Oid × Oid))
    (hndv : validIds.Nodup)
    (hval : RiskGlobal.validate_object_ids payload.ids = .ok validIds)
    (hper : RiskGlobal.get_periods_and_analyses db payload = .ok (periods, a2d))
    (hne : (periods.isEmpty || a2d.isEmpty) = false)
    (data : ByAnalysis.Adm3RiskFilterRequest) (validA validX : List Oid)
    (h1 : data.analysis_ids ≠ []) (h2 : data.adm3_ids ≠ [])
    (hvA : ByAnalysis.validate_ids "analysis_id" data.analysis_ids = .ok validA)
    (hvX : ByAnalysis.validate_ids "adm3_id" data.adm3_ids = .ok validX)
    (hanal : ByAnalysis.filteredAnalyses db validA ≠ []) :
    ((∀ oid ∈ validIds, ∃ b,
        alookup (RiskGlobal.processAdm3 db validIds periods a2d) oid = some b
        ∧ b.adm3_id = oid)
      ∧ (akeys (RiskGlobal.processAdm3 db validIds periods a2d)).Nodup)
    ∧ ((∀ oid ∈ validIds,
          (alookup (RiskGlobal.processFarm db validIds periods a2d) oid).isSome)
      ∧ (akeys (RiskGlobal.processFarm db validIds periods a2d)).Nodup)
    ∧ ((∀ oid ∈ validIds,
          (alookup (RiskGlobal.processEnterprise db validIds periods a2d) oid).isSome)
      ∧ (akeys (RiskGlobal.processEnterprise db validIds periods a2d)).Nodup)
    ∧ (payload.entity_type = .adm3 → RiskGlobal.get_risk_by_ids_and_type db payload
        = .ok (.adm3 (RiskGlobal.processAdm3 db validIds periods a2d)))
    ∧ (payload.entity_type = .farm → RiskGlobal.get_risk_by_ids_and_type db payload
        = .ok (.farm (RiskGlobal.processFarm db validIds periods a2d)))
    ∧ (payload.entity_type = .enterprise → RiskGlobal.get_risk_by_ids_and_type db payload
        = .ok (.enterprise (RiskGlobal.processEnterprise db validIds periods a2d)))
    ∧ (∀ oid ∈ validIds, ∀ p ∈ a2d,
        (∀ r ∈ db.adm3risks, ¬ (r.adm3_id = oid ∧ r.analysis_id = p.1)) →
        ∃ b, alookup (RiskGlobal.processAdm3 db validIds periods a2d) oid = some b
          ∧ ∃ it ∈ b.items, it.analysis_id = p.1 ∧ it.risk_total = false
              ∧ it.farm_amount = 0 ∧ it.def_ha = 0)
    ∧ ByAnalysis.get_adm3risk_filtered db data
        = .ok ((ByAnalysis.filteredAnalyses db validA).foldl (fun g a =>
            aupdate g a.id (fun l => l ++ ByAnalysis.entriesFor db validA validX a))
            (validA.foldl (fun m aid => ainsert m aid []) []))
    ∧ (∀ aid ∈ validA,
        (alookup ((ByAnalysis.filteredAnalyses db validA).foldl (fun g a =>
            aupdate g a.id (fun l => l ++ ByAnalysis.entriesFor db validA validX a))
            (validA.foldl (fun m aid => ainsert m aid
              ([] : List ByAnalysis.FilteredEntry)) [])) aid).isSome)
    ∧ (∀ (a : AnalysisDoc), a ∈ ByAnalysis.filteredAnalyses db validA →
        ∀ x ∈ validX,
        (∀ r ∈ db.adm3risks, ¬ (r.analysis_id = a.id ∧ r.adm3_id = x)) →
        (∀ fr ∈ db.farmrisks,
          ByAnalysis.contributes (ByAnalysis.farmToAdm3 db validX) a.id x fr = false) →
        ∃ e ∈ ByAnalysis.entriesFor db validA validX a,
          e.adm3_id = x ∧ e.risk_total = false
          ∧ e.farm_amount = some 0 ∧ e.def_ha = some 0) := by
  refine ⟨⟨?_, akeys_nodup_processAdm3 db validIds periods a2d⟩,
    ⟨?_, ?_⟩, ⟨?_, ?_⟩, ?_, ?_, ?_, ?_, ?_, ?_, ?_⟩
  · intro oid hmem
    obtain ⟨b, hb, hid, _⟩ :=
      RiskGlobal.processAdm3_bucket db validIds periods a2d hne hndv oid hmem
    exact ⟨b, hb, hid⟩
  · intro oid hmem
    unfold RiskGlobal.processFarm
    rw [if_neg (by simp [hne])]
    show (alookup (validIds.foldl (RiskGlobal.farmAddItems periods a2d
        (RiskGlobal.existingFarmRiskMap db validIds a2d))
        (validIds.foldl (fun g fid => ainsert g fid
          ⟨fid, alookup (RiskGlobal.farmMetaMap db validIds) fid, []⟩) [])) oid).isSome
    refine alookup_foldl_aupdate_isSome
      (RiskGlobal.farmAddItems periods a2d (RiskGlobal.existingFarmRiskMap db validIds a2d))
      (fun (o : Oid) => o) _ (fun m r => rfl) validIds _ oid ?_
    exact alookup_foldl_ainsert_id_isSome
      (fun fid => (⟨fid, alookup (RiskGlobal.farmMetaMap db validIds) fid, []⟩ :
        RiskGlobal.FarmBucket)) validIds oid hmem
  · unfold RiskGlobal.processFarm
    by_cases hb : (periods.isEmpty || a2d.isEmpty) = true
    · rw [if_pos hb]
      exact akeys_nodup_foldl_ainsert _ (fun (o : Oid) => o)
        (fun fid => (⟨fid, alookup (RiskGlobal.farmMetaMap db validIds) fid, []⟩ :
          RiskGlobal.FarmBucket)) (fun m r => rfl) validIds [] (by simp [akeys])
    · rw [if_neg hb]
      show (akeys (validIds.foldl (RiskGlobal.farmAddItems periods a2d
          (RiskGlobal.existingFarmRiskMap db validIds a2d))
          (validIds.foldl (fun g fid => ainsert g fid
            ⟨fid, alookup (RiskGlobal.farmMetaMap db validIds) fid, []⟩) []))).Nodup
      rw [akeys_foldl_aupdate
        (RiskGlobal.farmAddItems periods a2d (RiskGlobal.existingFarmRiskMap db validIds a2d))
        (fun (o : Oid) => o) _ (fun m r => rfl) validIds _]
      exact akeys_nodup_foldl_ainsert _ (fun (o : Oid) => o)
        (fun fid => (⟨fid, alookup (RiskGlobal.farmMetaMap db validIds) fid, []⟩ :
          RiskGlobal.FarmBucket)) (fun m r => rfl) validIds [] (by simp [akeys])
  · intro oid hmem
    unfold RiskGlobal.processEnterprise
    rw [if_neg (by simp [hne])]
    show (alookup (validIds.foldl (RiskGlobal.entAddItems db validIds a2d periods)
        (validIds.foldl (fun g eid => ainsert g eid
          ⟨eid, alookup (RiskGlobal.enterpriseMetaMap db validIds) eid, []⟩) [])) oid).isSome
    refine alookup_foldl_aupdate_isSome
      (RiskGlobal.entAddItems db validIds a2d periods)
      (fun (o : Oid) => o) _ (fun m r => rfl) validIds _ oid ?_
    exact alookup_foldl_ainsert_id_isSome
      (fun eid => (⟨eid, alookup (RiskGlobal.enterpriseMetaMap db validIds) eid, []⟩ :
        RiskGlobal.EnterpriseBucket)) validIds oid hmem
  · unfold RiskGlobal.processEnterprise
    by_cases hb : (periods.isEmpty || a2d.isEmpty) = true
    · rw [if_pos hb]
      exact akeys_nodup_foldl_ainsert _ (fun (o : Oid) => o)
        (fun eid => (⟨eid, alookup (RiskGlobal.enterpriseMetaMap db validIds) eid, []⟩ :
          RiskGlobal.EnterpriseBucket)) (fun m r => rfl) validIds [] (by simp [akeys])
    · rw [if_neg hb]
      show (akeys (validIds.foldl (RiskGlobal.entAddItems db validIds a2d periods)
          (validIds.foldl (fun g eid => ainsert g eid
            ⟨eid, alookup (RiskGlobal.enterpriseMetaMap db validIds) eid, []⟩) []))).Nodup
      rw [akeys_foldl_aupdate (RiskGlobal.entAddItems db validIds a2d periods)
        (fun (o : Oid) => o) _ (fun m r => rfl) validIds _]
      exact akeys_nodup_foldl_ainsert _ (fun (o : Oid) => o)
        (fun eid => (⟨eid, alookup (RiskGlobal.enterpriseMetaMap db validIds) eid, []⟩ :
          RiskGlobal.EnterpriseBucket)) (fun m r => rfl) validIds [] (by simp [akeys])
  · intro hty
    exact RiskGlobal.get_risk_eq_adm3 db payload validIds (periods, a2d) hty hval hper
  · intro hty
    exact RiskGlobal.get_risk_eq_farm db payload validIds (periods, a2d) hty hval hper
  · intro hty
    exact RiskGlobal.get_risk_eq_enterprise db payload validIds (periods, a2d) hty hval hper
  · intro oid hmem p hp hno
    obtain ⟨b, hb, _, hitems⟩ :=
      RiskGlobal.processAdm3_bucket db validIds periods a2d hne hndv oid hmem
    refine ⟨b, hb, ?_⟩
    have hdoc : alookup (RiskGlobal.existingAdm3RiskMap db validIds a2d) (oid, p.1) = none :=
      RiskGlobal.existingAdm3RiskMap_none db validIds a2d oid p.1 hno
    refine ⟨RiskGlobal.mkAdm3Item periods (RiskGlobal.existingAdm3RiskMap db validIds a2d)
        (RiskGlobal.analysisSitCache db validIds a2d) oid p, ?_, rfl, ?_, ?_, ?_⟩
    · rw [hitems, List.mem_reverse]
      exact List.mem_map_of_mem _ hp
    · simp [RiskGlobal.mkAdm3Item, hdoc]
    · simp [RiskGlobal.mkAdm3Item, hdoc]
    · simp [RiskGlobal.mkAdm3Item, hdoc]
  · exact ByAnalysis.get_adm3risk_filtered_eq db data validA validX h1 h2 hvA hvX hanal
  · intro aid hamem
    refine alookup_foldl_aupdate_isSome _ (fun (a : AnalysisDoc) => a.id)
      (fun a l => l ++ ByAnalysis.entriesFor db validA validX a)
      (fun m r => rfl) _ _ aid ?_
    rw [ByAnalysis.grouped0_lookup validA aid hamem]
    rfl
  · intro a _ x hx h6a h6b
    have hvals : ByAnalysis.getVals (ByAnalysis.riskAcc db validA validX) a.id x
        = ByAnalysis.vals0 :=
      ByAnalysis.riskAcc_defaults db validA validX a.id x h6a h6b
    simp only [ByAnalysis.entriesFor]
    refine ⟨_, List.mem_map_of_mem _ hx, rfl, ?_, ?_, ?_⟩
    · simp [ByAnalysis.mkFilteredEntry, hvals, ByAnalysis.vals0]
    · simp [ByAnalysis.mkFilteredEntry, hvals, ByAnalysis.vals0]
    · simp [ByAnalysis.mkFilteredEntry, hvals, ByAnalysis.vals0]

/-- C1 witness. -/
theorem buckets_complete_zero_defaults_witness :
    (∀ oid ∈ ["aaaaaaaaaaaaaaaaaaaaaaa1"], ∃ b,
        alookup (RiskGlobal.processAdm3 c2db ["aaaaaaaaaaaaaaaaaaaaaaa1"]
          [("ccccccccccccccccccccccc1", (none, none))]
          [("bbbbbbbbbbbbbbbbbbbbbbb1", "ccccccccccccccccccccccc1")]) oid = some b
        ∧ b.adm3_id = oid)
    ∧ RiskGlobal.get_risk_by_ids_and_type c2db
        ⟨RiskGlobal.EntityType.adm3, ["aaaaaaaaaaaaaaaaaaaaaaa1"], none,
          some ["bbbbbbbbbbbbbbbbbbbbbbb1"], none⟩
      = .ok (.adm3 (RiskGlobal.processAdm3 c2db ["aaaaaaaaaaaaaaaaaaaaaaa1"]
          [("ccccccccccccccccccccccc1", (none, none))]
          [("bbbbbbbbbbbbbbbbbbbbbbb1", "ccccccccccccccccccccccc1")]))
    ∧ ByAnalysis.get_adm3risk_filtered c2db
        ⟨["bbbbbbbbbbbbbbbbbbbbbbb1"], ["aaaaaaaaaaaaaaaaaaaaaaa1"]⟩
      = .ok ((ByAnalysis.filteredAnalyses c2db ["bbbbbbbbbbbbbbbbbbbbbbb1"]).foldl
          (fun g a => aupdate g a.id (fun l => l ++ ByAnalysis.entriesFor c2db
            ["bbbbbbbbbbbbbbbbbbbbbbb1"] ["aaaaaaaaaaaaaaaaaaaaaaa1"] a))
          (["bbbbbbbbbbbbbbbbbbbbbbb1"].foldl (fun m aid => ainsert m aid []) [])) :=
  ⟨(buckets_complete_zero_defaults c2db
      ⟨RiskGlobal.EntityType.adm3, ["aaaaaaaaaaaaaaaaaaaaaaa1"], none,
        some ["bbbbbbbbbbbbbbbbbbbbbbb1"], none⟩
      ["aaaaaaaaaaaaaaaaaaaaaaa1"]
      [("ccccccccccccccccccccccc1", (none, none))]
      [("bbbbbbbbbbbbbbbbbbbbbbb1", "ccccccccccccccccccccccc1")]
      (by decide) rfl rfl rfl
      ⟨["bbbbbbbbbbbbbbbbbbbbbbb1"], ["aaaaaaaaaaaaaaaaaaaaaaa1"]⟩
      ["bbbbbbbbbbbbbbbbbbbbbbb1"] ["aaaaaaaaaaaaaaaaaaaaaaa1"]
      (by decide) (by decide) rfl rfl (by decide)).1.1,
   (buckets_complete_zero_defaults c2db
      ⟨RiskGlobal.EntityType.adm3, ["aaaaaaaaaaaaaaaaaaaaaaa1"], none,
        some ["bbbbbbbbbbbbbbbbbbbbbbb1"], none⟩
      ["aaaaaaaaaaaaaaaaaaaaaaa1"]
      [("ccccccccccccccccccccccc1", (none, none))]
      [("bbbbbbbbbbbbbbbbbbbbbbb1", "ccccccccccccccccccccccc1")]
      (by decide) rfl rfl rfl
      ⟨["bbbbbbbbbbbbbbbbbbbbbbb1"], ["aaaaaaaaaaaaaaaaaaaaaaa1"]⟩
      ["bbbbbbbbbbbbbbbbbbbbbbb1"] ["aaaaaaaaaaaaaaaaaaaaaaa1"]
      (by decide) (by decide) rfl rfl (by decide)).2.2.2.1 rfl,
   (buckets_complete_zero_defaults c2db
      ⟨RiskGlobal.EntityType.adm3, ["aaaaaaaaaaaaaaaaaaaaaaa1"], none,
        some ["bbbbbbbbbbbbbbbbbbbbbbb1"], none⟩
      ["aaaaaaaaaaaaaaaaaaaaaaa1"]
      [("ccccccccccccccccccccccc1", (none, none))]
      [("bbbbbbbbbbbbbbbbbbbbbbb1", "ccccccccccccccccccccccc1")]
      (by decide) rfl rfl rfl
      ⟨["bbbbbbbbbbbbbbbbbbbbbbb1"], ["aaaaaaaaaaaaaaaaaaaaaaa1"]⟩
      ["bbbbbbbbbbbbbbbbbbbbbbb1"] ["aaaaaaaaaaaaaaaaaaaaaaa1"]
      (by decide) (by decide) rfl rfl (by decide)).2.2.2.2.2.2.2.1⟩

/- ----------------------------------------------------------------
   C3 — ordering of the per-entity period items.
   ---------------------------------------------------------------- -/

theorem map_congrList {α β : Type} (l : List α) (f g : α → β)
    (h : ∀ a ∈ l, f a = g a) : l.map f = l.map g := by
  induction l with
  | nil => rfl
  | cons x rest ih =>
    simp only [List.map_cons]
    rw [h x (List.mem_cons_self x rest), ih (fun a ha => h a (List.mem_cons_of_mem x ha))]

theorem alookup_foldl_aupdate_notmem [DecidableEq κ] {β : Type}
    (step : List (κ × β) → κ → List (κ × β)) (f : κ → β → β)
    (hstep : ∀ g k, step g k = aupdate g k (f k))
    (l : List κ) (k : κ) (hk : k ∉ l) (m0 : List (κ × β)) :
    alookup (l.foldl step m0) k = alookup m0 k := by
  induction l generalizing m0 with
  | nil => rfl
  | cons a rest ih =>
    simp only [List.foldl_cons]
    have hka : k ≠ a := fun hh => hk (hh ▸ List.mem_cons_self a rest)
    rw [ih (fun hh => hk (List.mem_cons_of_mem a hh)) (step m0 a), hstep,
      alookup_aupdate_ne _ _ _ _ hka]

theorem alookup_foldl_aupdate_selfkey [DecidableEq κ] {β : Type}
    (step : List (κ × β) → κ → List (κ × β)) (f : κ → β → β)
    (hstep : ∀ g k, step g k = aupdate g k (f k))
    (l : List κ) (hnd : l.Nodup) (k : κ) (hk : k ∈ l)
    (m0 : List (κ × β)) (v0 : β) (h0 : alookup m0 k = some v0) :
    alookup (l.foldl step m0) k = some (f k v0) := by
  induction l generalizing m0 with
  | nil => cases hk
  | cons a rest ih =>
    simp only [List.foldl_cons]
    rcases List.mem_cons.mp hk with rfl | hmem
    · have hnot : k ∉ rest := (List.nodup_cons.mp hnd).1
      rw [alookup_foldl_aupdate_notmem step f hstep rest k hnot (step m0 k),
        hstep, alookup_aupdate_self, h0]
      rfl
    · have hka : k ≠ a := fun hh => (List.nodup_cons.mp hnd).1 (hh ▸ hmem)
      refine ih (List.nodup_cons.mp hnd).2 hmem (step m0 a) ?_
      rw [hstep, alookup_aupdate_ne _ _ _ _ hka]
      exact h0

theorem alookup_foldl_ainsert_id [DecidableEq κ] {γ : Type} (vf : κ → γ)
    (l : List κ) (k : κ) (h : k ∈ l) :
    alookup (l.foldl (fun m a => ainsert m a (vf a)) []) k = some (vf k) := by
  have hc := alookup_foldl_ainsert_of_step
    (fun m (a : κ) => ainsert m a (vf a)) (fun a => a) vf (fun m r => rfl) l [] k
  rw [hc]
  have hfind : (l.reverse.find? (fun r => decide (r = k))).isSome := by
    rw [List.find?_isSome]
    exact ⟨k, List.mem_reverse.mpr h, by simp⟩
  obtain ⟨r, hr⟩ := Option.isSome_iff_exists.mp hfind
  have hp := List.find?_some hr
  simp only [decide_eq_true_eq] at hp
  rw [hr]
  simp [Option.elim, hp]

theorem processFarm_bucket (db : DB) (validIds : List Oid)
    (periods : List (Oid × (Option String × Option String)))
    (a2d : List (Oid × Oid))
    (hne : (periods.isEmpty || a2d.isEmpty) = false)
    (hnd : validIds.Nodup) (oid : Oid) (hmem : oid ∈ validIds) :
    alookup (RiskGlobal.processFarm db validIds periods a2d) oid
      = some ⟨oid, alookup (RiskGlobal.farmMetaMap db validIds) oid,
          (a2d.map (RiskGlobal.mkFarmItem periods
            (RiskGlobal.existingFarmRiskMap db validIds a2d) oid)).reverse⟩ := by
  unfold RiskGlobal.processFarm
  rw [if_neg (by simp [hne])]
  show alookup (validIds.foldl (RiskGlobal.farmAddItems periods a2d
      (RiskGlobal.existingFarmRiskMap db validIds a2d))
      (validIds.foldl (fun g fid => ainsert g fid
        ⟨fid, alookup (RiskGlobal.farmMetaMap db validIds) fid, []⟩) [])) oid = _
  have h0 : alookup (validIds.foldl (fun g fid => ainsert g fid
      (⟨fid, alookup (RiskGlobal.farmMetaMap db validIds) fid, []⟩ :
        RiskGlobal.FarmBucket)) []) oid
      = some ⟨oid, alookup (RiskGlobal.farmMetaMap db validIds) oid, []⟩ :=
    alookup_foldl_ainsert_id
      (fun fid => (⟨fid, alookup (RiskGlobal.farmMetaMap db validIds) fid, []⟩ :
        RiskGlobal.FarmBucket)) validIds oid hmem
  rw [alookup_foldl_aupdate_selfkey
    (RiskGlobal.farmAddItems periods a2d (RiskGlobal.existingFarmRiskMap db validIds a2d))
    (fun o b => { b with items := (b.items ++ a2d.map (RiskGlobal.mkFarmItem periods
        (RiskGlobal.existingFarmRiskMap db validIds a2d) o)).reverse })
    (fun g k => rfl) validIds hnd oid hmem _ _ h0]
  simp

theorem processEnterprise_bucket (db : DB) (validIds : List Oid)
    (periods : List (Oid × (Option String × Option String)))
    (a2d : List (Oid × Oid))
    (hne : (periods.isEmpty || a2d.isEmpty) = false)
    (hnd : validIds.Nodup) (oid : Oid) (hmem : oid ∈ validIds) :
    alookup (RiskGlobal.processEnterprise db validIds periods a2d) oid
      = some ⟨oid, alookup (RiskGlobal.enterpriseMetaMap db validIds) oid,
          (a2d.map (RiskGlobal.mkEnterpriseItem db validIds a2d periods oid)).reverse⟩ := by
  unfold RiskGlobal.processEnterprise
  rw [if_neg (by simp [hne])]
  show alookup (validIds.foldl (RiskGlobal.entAddItems db validIds a2d periods)
      (validIds.foldl (fun g eid => ainsert g eid
        ⟨eid, alookup (RiskGlobal.enterpriseMetaMap db validIds) eid, []⟩) [])) oid = _
  have h0 : alookup (validIds.foldl (fun g eid => ainsert g eid
      (⟨eid, alookup (RiskGlobal.enterpriseMetaMap db validIds) eid, []⟩ :
        RiskGlobal.EnterpriseBucket)) []) oid
      = some ⟨oid, alookup (RiskGlobal.enterpriseMetaMap db validIds) oid, []⟩ :=
    alookup_foldl_ainsert_id
      (fun eid => (⟨eid, alookup (RiskGlobal.enterpriseMetaMap db validIds) eid, []⟩ :
        RiskGlobal.EnterpriseBucket)) validIds oid hmem
  rw [alookup_foldl_aupdate_selfkey
    (RiskGlobal.entAddItems db validIds a2d periods)
    (fun o b => { b with items := (b.items ++ a2d.map
        (RiskGlobal.mkEnterpriseItem db validIds a2d periods o)).reverse })
    (fun g k => rfl) validIds hnd oid hmem _ _ h0]
  simp

/-- C3 (corrected): in every branch of `/risk/by-ids-and-type`, the period
    items of each requested entity's bucket are emitted in the REVERSE of the
    `analysis_to_defo` insertion order — a structural `list(reversed(..))`,
    not a sort: their period ends are whatever the analyses' deforestations
    carry, in reversed map order, and nothing reorders them by period end
    (the counterexample shows a bucket that is not newest-first). -/
theorem items_reverse_order (db : DB) (validIds : List Oid)
    (periods : List (Oid × (Option String × Option String)))
    (a2d : List (Oid × Oid))
    (hne : (periods.isEmpty || a2d.isEmpty) = false)
    (hndv : validIds.Nodup) (oid : Oid) (hmem : oid ∈ validIds) :
    (∃ b, alookup (RiskGlobal.processAdm3 db validIds periods a2d) oid = some b
      ∧ b.items = (a2d.map (RiskGlobal.mkAdm3Item periods
          (RiskGlobal.existingAdm3RiskMap db validIds a2d)
          (RiskGlobal.analysisSitCache db validIds a2d) oid)).reverse
      ∧ b.items.map (fun it => it.period_end)
        = (a2d.map (fun p => ((alookup periods p.2).getD (none, none)).2)).reverse)
    ∧ (∃ bf, alookup (RiskGlobal.processFarm db validIds periods a2d) oid = some bf
      ∧ bf.items = (a2d.map (RiskGlobal.mkFarmItem periods
          (RiskGlobal.existingFarmRiskMap db validIds a2d) oid)).reverse
      ∧ bf.items.map (fun it => it.period_end)
        = (a2d.map (fun p => ((alookup periods p.2).getD (none, none)).2)).reverse)
    ∧ (∃ be, alookup (RiskGlobal.processEnterprise db validIds periods a2d) oid = some be
      ∧ be.items = (a2d.map (RiskGlobal.mkEnterpriseItem db validIds a2d periods oid)).reverse
      ∧ be.items.map (fun it => it.period_end)
        = (a2d.map (fun p => ((alookup periods p.2).getD (none, none)).2)).reverse) := by
  refine ⟨?_, ?_, ?_⟩
  · obtain ⟨b, hb, _, hitems⟩ :=
      RiskGlobal.processAdm3_bucket db validIds periods a2d hne hndv oid hmem
    refine ⟨b, hb, hitems, ?_⟩
    rw [hitems, List.map_reverse, List.map_map]
    rfl
  · refine ⟨_, processFarm_bucket db validIds periods a2d hne hndv oid hmem, rfl, ?_⟩
    show ((a2d.map (RiskGlobal.mkFarmItem periods
        (RiskGlobal.existingFarmRiskMap db validIds a2d) oid)).reverse).map
        (fun it => it.period_end) = _
    rw [List.map_reverse, List.map_map]
    refine congrArg List.reverse (map_congrList _ _ _ (fun p _ => ?_))
    cases h : alookup (RiskGlobal.existingFarmRiskMap db validIds a2d) (oid, p.1) with
    | none => simp [Function.comp, RiskGlobal.mkFarmItem, h]
    | some d => simp [Function.comp, RiskGlobal.mkFarmItem, h]
  · refine ⟨_, processEnterprise_bucket db validIds periods a2d hne hndv oid hmem, rfl, ?_⟩
    show ((a2d.map (RiskGlobal.mkEnterpriseItem db validIds a2d periods oid)).reverse).map
        (fun it => it.period_end) = _
    rw [List.map_reverse, List.map_map]
    rfl

def c3db : DB :=
  { emptyDB with
    analyses := [⟨"bbbbbbbbbbbbbbbbbbbbbbb1", some "ccccccccccccccccccccccc1"⟩,
                 ⟨"bbbbbbbbbbbbbbbbbbbbbbb2", some "ccccccccccccccccccccccc2"⟩],
    deforestations := [
      ⟨"ccccccccccccccccccccccc1", none, some "annual", none, none,
        some ⟨2020, 12, 31, 23, 59, 59⟩, none, none, none, none⟩,
      ⟨"ccccccccccccccccccccccc2", none, some "annual", none, none,
        some ⟨2010, 12, 31, 23, 59, 59⟩, none, none, none, none⟩],
    adm3s := [⟨"aaaaaaaaaaaaaaaaaaaaaaa1", some "A3", none⟩] }

/-- C3 counterexample: an adm3 whose two analyses arrive with period ends
    2020 then 2010 is emitted as [2010, 2020] — oldest first — so the bucket
    is not ordered newest-first by period end. -/
theorem items_reverse_order_counterexample :
    (adm3BucketItems (RiskGlobal.get_risk_by_ids_and_type c3db
        ⟨RiskGlobal.EntityType.adm3, ["aaaaaaaaaaaaaaaaaaaaaaa1"], none,
          some ["bbbbbbbbbbbbbbbbbbbbbbb1", "bbbbbbbbbbbbbbbbbbbbbbb2"], none⟩)
        "aaaaaaaaaaaaaaaaaaaaaaa1").elim true
      (fun items => newestFirstByPeriodEnd (items.map (fun it => it.period_end)))
      = false
    ∧ (adm3BucketItems (RiskGlobal.get_risk_by_ids_and_type c3db
        ⟨RiskGlobal.EntityType.adm3, ["aaaaaaaaaaaaaaaaaaaaaaa1"], none,
          some ["bbbbbbbbbbbbbbbbbbbbbbb1", "bbbbbbbbbbbbbbbbbbbbbbb2"], none⟩)
        "aaaaaaaaaaaaaaaaaaaaaaa1").map
        (fun items => items.map (fun it => it.period_end))
      = some [some "2010-12-31T23:59:59", some "2020-12-31T23:59:59"] :=
  ⟨rfl, rfl⟩

/-- C3 witness. -/
theorem items_reverse_order_witness :
    (∃ b, alookup (RiskGlobal.processAdm3 c3db ["aaaaaaaaaaaaaaaaaaaaaaa1"]
      [("ccccccccccccccccccccccc1", (none, some "2020-12-31T23:59:59")),
       ("ccccccccccccccccccccccc2", (none, some "2010-12-31T23:59:59"))]
      [("bbbbbbbbbbbbbbbbbbbbbbb1", "ccccccccccccccccccccccc1"),
       ("bbbbbbbbbbbbbbbbbbbbbbb2", "ccccccccccccccccccccccc2")])
        "aaaaaaaaaaaaaaaaaaaaaaa1" = some b
      ∧ b.items = ([("bbbbbbbbbbbbbbbbbbbbbbb1", "ccccccccccccccccccccccc1"),
       ("bbbbbbbbbbbbbbbbbbbbbbb2", "ccccccccccccccccccccccc2")].map
          (RiskGlobal.mkAdm3Item
            [("ccccccccccccccccccccccc1", (none, some "2020-12-31T23:59:59")),
       ("ccccccccccccccccccccccc2", (none, some "2010-12-31T23:59:59"))]
            (RiskGlobal.existingAdm3RiskMap c3db ["aaaaaaaaaaaaaaaaaaaaaaa1"]
              [("bbbbbbbbbbbbbbbbbbbbbbb1", "ccccccccccccccccccccccc1"),
       ("bbbbbbbbbbbbbbbbbbbbbbb2", "ccccccccccccccccccccccc2")])
            (RiskGlobal.analysisSitCache c3db ["aaaaaaaaaaaaaaaaaaaaaaa1"]
              [("bbbbbbbbbbbbbbbbbbbbbbb1", "ccccccccccccccccccccccc1"),
       ("bbbbbbbbbbbbbbbbbbbbbbb2", "ccccccccccccccccccccccc2")])
            "aaaaaaaaaaaaaaaaaaaaaaa1")).reverse
      ∧ b.items.map (fun it => it.period_end)
        = ([("bbbbbbbbbbbbbbbbbbbbbbb1", "ccccccccccccccccccccccc1"),
       ("bbbbbbbbbbbbbbbbbbbbbbb2", "ccccccccccccccccccccccc2")].map
            (fun p => ((alookup
              ([("ccccccccccccccccccccccc1", (none, some "2020-12-31T23:59:59")),
         ("ccccccccccccccccccccccc2", (none, some "2010-12-31T23:59:59"))] :
         List (Oid × (Option String × Option String)))
              p.2).getD (none, none)).2)).reverse)
    ∧ (∃ bf, alookup (RiskGlobal.processFarm c3db ["aaaaaaaaaaaaaaaaaaaaaaa1"]
      [("ccccccccccccccccccccccc1", (none, some "2020-12-31T23:59:59")),
       ("ccccccccccccccccccccccc2", (none, some "2010-12-31T23:59:59"))]
      [("bbbbbbbbbbbbbbbbbbbbbbb1", "ccccccccccccccccccccccc1"),
       ("bbbbbbbbbbbbbbbbbbbbbbb2", "ccccccccccccccccccccccc2")])
        "aaaaaaaaaaaaaaaaaaaaaaa1" = some bf
      ∧ bf.items = ([("bbbbbbbbbbbbbbbbbbbbbbb1", "ccccccccccccccccccccccc1"),
       ("bbbbbbbbbbbbbbbbbbbbbbb2", "ccccccccccccccccccccccc2")].map
          (RiskGlobal.mkFarmItem
            [("ccccccccccccccccccccccc1", (none, some "2020-12-31T23:59:59")),
       ("ccccccccccccccccccccccc2", (none, some "2010-12-31T23:59:59"))]
            (RiskGlobal.existingFarmRiskMap c3db ["aaaaaaaaaaaaaaaaaaaaaaa1"]
              [("bbbbbbbbbbbbbbbbbbbbbbb1", "ccccccccccccccccccccccc1"),
       ("bbbbbbbbbbbbbbbbbbbbbbb2", "ccccccccccccccccccccccc2")])
            "aaaaaaaaaaaaaaaaaaaaaaa1")).reverse
      ∧ bf.items.map (fun it => it.period_end)
        = ([("bbbbbbbbbbbbbbbbbbbbbbb1", "ccccccccccccccccccccccc1"),
       ("bbbbbbbbbbbbbbbbbbbbbbb2", "ccccccccccccccccccccccc2")].map
            (fun p => ((alookup
              ([("ccccccccccccccccccccccc1", (none, some "2020-12-31T23:59:59")),
         ("ccccccccccccccccccccccc2", (none, some "2010-12-31T23:59:59"))] :
         List (Oid × (Option String × Option String)))
              p.2).getD (none, none)).2)).reverse)
    ∧ (∃ be, alookup (RiskGlobal.processEnterprise c3db ["aaaaaaaaaaaaaaaaaaaaaaa1"]
      [("ccccccccccccccccccccccc1", (none, some "2020-12-31T23:59:59")),
       ("ccccccccccccccccccccccc2", (none, some "2010-12-31T23:59:59"))]
      [("bbbbbbbbbbbbbbbbbbbbbbb1", "ccccccccccccccccccccccc1"),
       ("bbbbbbbbbbbbbbbbbbbbbbb2", "ccccccccccccccccccccccc2")])
        "aaaaaaaaaaaaaaaaaaaaaaa1" = some be
      ∧ be.items = ([("bbbbbbbbbbbbbbbbbbbbbbb1", "ccccccccccccccccccccccc1"),
       ("bbbbbbbbbbbbbbbbbbbbbbb2", "ccccccccccccccccccccccc2")].map
          (RiskGlobal.mkEnterpriseItem c3db ["aaaaaaaaaaaaaaaaaaaaaaa1"]
            [("bbbbbbbbbbbbbbbbbbbbbbb1", "ccccccccccccccccccccccc1"),
       ("bbbbbbbbbbbbbbbbbbbbbbb2", "ccccccccccccccccccccccc2")]
            [("ccccccccccccccccccccccc1", (none, some "2020-12-31T23:59:59")),
       ("ccccccccccccccccccccccc2", (none, some "2010-12-31T23:59:59"))]
            "aaaaaaaaaaaaaaaaaaaaaaa1")).reverse
      ∧ be.items.map (fun it => it.period_end)
        = ([("bbbbbbbbbbbbbbbbbbbbbbb1", "ccccccccccccccccccccccc1"),
       ("bbbbbbbbbbbbbbbbbbbbbbb2", "ccccccccccccccccccccccc2")].map
            (fun p => ((alookup
              ([("ccccccccccccccccccccccc1", (none, some "2020-12-31T23:59:59")),
         ("ccccccccccccccccccccccc2", (none, some "2010-12-31T23:59:59"))] :
         List (Oid × (Option String × Option String)))
              p.2).getD (none, none)).2)).reverse) :=
  items_reverse_order c3db ["aaaaaaaaaaaaaaaaaaaaaaa1"]
    [("ccccccccccccccccccccccc1", (none, some "2020-12-31T23:59:59")),
       ("ccccccccccccccccccccccc2", (none, some "2010-12-31T23:59:59"))]
    [("bbbbbbbbbbbbbbbbbbbbbbb1", "ccccccccccccccccccccccc1"),
       ("bbbbbbbbbbbbbbbbbbbbbbb2", "ccccccccccccccccccccccc2")]
    rfl (by decide) "aaaaaaaaaaaaaaaaaaaaaaa1" (by decide)
